import Mathlib

/-!
# Verification development for the 4C input pipeline

Shallow embedding of the input reader (`4C_io_inputreader.hpp`) and of the
discretization dispatch (`4C_global_data_read.cpp`), with the properties
proved about them.

Conventions of the embedding:
* `std::string` / `std::string_view` line contents are lists of characters
  (`Str`); section names and paths, which are only compared, are `String`;
* `std::map<std::string, V>` is a partial function `String → Option V`;
* `FOUR_C_THROW` is an error result; where the state at the point of the
  throw matters the state is returned next to the error.
-/

deriving instance DecidableEq for Except

namespace FourC

/-- Contents of a `std::string` or `std::string_view`. -/
abbrev Str := List Char

/-- A `std::map<std::string, V>`: `count(k) > 0` is `(m k).isSome`. -/
abbrev StdMap (V : Type) := String → Option V

namespace Core.Utils

/-- The predicate `std::isspace` in the "C" locale. -/
def isspace (c : Char) : Bool :=
  c == ' ' || c == '\t' || c == '\n' || c == '\x0b' || c == '\x0c' || c == '\r'

/-- Modelled from the spec: `Core::Utils::trim` (4C_utils_string.hpp is not
part of the sources): leading and trailing whitespace is removed. -/
def trim (s : Str) : Str :=
  ((s.dropWhile isspace).reverse.dropWhile isspace).reverse

/-- Text in front of the first occurrence of the comment marker `//`. -/
def before_comment : Str → Str
  | [] => []
  | c :: rest =>
    match rest with
    | d :: _ => if c == '/' && d == '/' then [] else c :: before_comment rest
    | [] => [c]

/-- Modelled from the spec: `Core::Utils::strip_comment` (4C_utils_string.hpp
is not part of the sources): the comment is removed and the surrounding
whitespace trimmed. -/
def strip_comment (s : Str) : Str :=
  trim (before_comment s)

end Core.Utils

namespace Core.IO

open Core.Utils

/-- Helper to store section positions (`DatFileReader::SectionPosition`). -/
structure SectionPosition where
  file : String
  pos : Nat
  length : Nat
  deriving DecidableEq, Repr

/-- The files reachable from a rank: path to content, `none` when the file
cannot be opened. -/
abbrev FileSystem := String → Option Str

/-- Split a character stream into the lines `std::getline` reads from it. -/
def getlines : Str → List Str
  | [] => []
  | c :: rest =>
    if c == '\n' then [] :: getlines rest
    else
      match getlines rest with
      | [] => [[c]]
      | l :: ls => (c :: l) :: ls

/-- Modelled from the spec: the range between
`StreamLineIterator(stream, max_reads)` and the past-the-end iterator (the
class is only declared in 4C_io_inputreader.hpp): the lines of the stream, but
at most `max_reads` of them. -/
def stream_lines (stream : Str) (max_reads : Nat) : List Str :=
  (getlines stream).take max_reads

/-- The data members of `DatFileReader` that the section queries use. -/
structure DatFileReader where
  /-- The top-level file that is first read by this object. -/
  top_level_file_ : String
  /-- Flag for output. -/
  outflag_ : Int
  /-- The lines of the input file. -/
  lines_ : List Str
  /-- File positions of skipped sections. -/
  excludepositions_ : StdMap SectionPosition
  /-- Section positions of all sections inside the line array. -/
  positions_ : StdMap (Nat × Nat)
  /-- Protocol of known and unknown section names. -/
  knownsections_ : StdMap Bool

/-- The iterator range `[lines_.begin() + start_line, lines_.begin() + end_line)`.
The C++ range is defined for `start_line ≤ end_line ≤ lines_.size()`; the
embedding is total and yields the lines that exist in the range. -/
def pre_read_range (lines : List Str) (start_line end_line : Nat) : List Str :=
  (lines.drop start_line).take (end_line - start_line)

/-- Embedding of `DatFileReader::line_range`: the lines of a section that pass
the filter `!strip_comment(line).empty()`. `strip` stands for
`Core::Utils::strip_comment`, `fs` for the files the rank can open. -/
def DatFileReader.line_range (strip : Str → Str) (fs : FileSystem)
    (r : DatFileReader) (section_name : String) : List Str :=
  let filter := fun (line : Str) => !(strip line).isEmpty
  match r.excludepositions_ section_name with
  | some sp =>
    let file := ((fs sp.file).getD []).drop sp.pos
    (stream_lines file sp.length).filter filter
  | none =>
    let range : Nat × Nat :=
      match r.positions_ section_name with
      | none => (r.lines_.length, r.lines_.length)
      | some entry => entry
    (pre_read_range r.lines_ range.1 range.2).filter filter

/-- Modelled from the spec: `DatFileReader::record_section_used` (declared in
4C_io_inputreader.hpp, "Remember that a section was used"; its body is not part
of the sources): the section is entered as used in `knownsections_`. -/
def DatFileReader.record_section_used (r : DatFileReader) (section_name : String) :
    DatFileReader :=
  { r with knownsections_ := fun k => if k = section_name then some true else r.knownsections_ k }

/-- Embedding of `DatFileReader::lines_in_section`: records the section as used
and returns the range of `line_range`, next to the new reader state. -/
def DatFileReader.lines_in_section (strip : Str → Str) (fs : FileSystem)
    (r : DatFileReader) (section_name : String) : List Str × DatFileReader :=
  let r1 := r.record_section_used section_name
  (r1.line_range strip fs section_name, r1)

/-- Whether a section name has an entry in one of the two section indexes. -/
def DatFileReader.section_exists (r : DatFileReader) (section_name : String) : Bool :=
  (r.excludepositions_ section_name).isSome || (r.positions_ section_name).isSome

/-- Modelled from the spec: `DatFileReader::has_section` (declared `const` in
4C_io_inputreader.hpp, its body is not part of the sources): "whether a section
with the given name exists in the input file and contains any content". -/
def DatFileReader.has_section (strip : Str → Str) (fs : FileSystem)
    (r : DatFileReader) (section_name : String) : Bool :=
  r.section_exists section_name && !(r.line_range strip fs section_name).isEmpty

/-- First equals sign with a whitespace character directly before and directly
after it: the text in front of the sign and the text behind it. -/
def split_at_equals : Str → Option (Str × Str)
  | [] => none
  | a :: rest =>
    match rest with
    | e :: b :: tail =>
      if isspace a && e == '=' && isspace b then some ([a], b :: tail)
      else (split_at_equals rest).map fun kv => (a :: kv.1, kv.2)
    | _ => none

/-- First maximal run of whitespace: the text in front of the run and the text
behind it; `none` when the line has no whitespace. -/
def split_at_whitespace (line : Str) : Option (Str × Str) :=
  let key := line.takeWhile fun c => !isspace c
  let rest := line.dropWhile fun c => !isspace c
  if rest.isEmpty then none else some (key, rest.dropWhile isspace)

/-- Modelled from the spec: `read_key_value` (declared in
4C_io_inputreader.hpp, its body is not part of the sources): key and value are
separated by an equals sign with whitespace on both sides if there is one, and
by the first group of whitespace otherwise; both are trimmed; a line that
cannot be read is an error (`Core::Exception`). -/
def read_key_value (line : Str) : Except String (Str × Str) :=
  match split_at_equals line with
  | some kv => .ok (trim kv.1, trim kv.2)
  | none =>
    match split_at_whitespace line with
    | some kv => .ok (trim kv.1, trim kv.2)
    | none => .error "line cannot be read"

/-- The map `m` after the assignment `m[k] = v`. -/
def map_insert {V : Type} (m : StdMap V) (k : String) (v : V) : StdMap V :=
  fun k2 => if k2 = k then some v else m k2

/-- Modelled from the spec: a section is "introduced by a line beginning with a
section marker and a name"; the marker is `--`, as in the section names
("--NODE COORDS", "--STRUCTURE ELEMENTS") used by `read_fields`. -/
def is_section_header (line : Str) : Bool :=
  line.take 2 == ['-', '-']

/-- Modelled from the spec: the name of the section that a header line
introduces, "matched by exact normalized string". -/
def section_name (line : Str) : String :=
  String.mk (strip_comment line)

/-- Modelled from the spec: the state of the reading rank inside
`DatFileReader::read_dat` (the function is only declared in
4C_io_inputreader.hpp): the lines kept in memory, the two section indexes, the
section the current line belongs to, and the byte offset of the current line. -/
structure ReadDat where
  lines_ : List Str
  positions_ : StdMap (Nat × Nat)
  excludepositions_ : StdMap SectionPosition
  current : Option String
  offset : Nat

/-- The state before the first line is read. -/
def ReadDat.start : ReadDat := ⟨[], fun _ => none, fun _ => none, none, 0⟩

/-- Modelled from the spec: what `DatFileReader::read_dat` keeps of the lines
it reads ("Comment text and blank content are stripped before
interpretation"; a line that `lines_in_section` returns "will have comment
stripped and whitespace trimmed"): each line without its comment and its
surrounding whitespace, and nothing for a line that has no other content. -/
def stored_lines (lines : List Str) : List Str :=
  (lines.map strip_comment).filter fun l => !l.isEmpty

/-- Modelled from the spec: `DatFileReader::read_dat` on one line of the file.
A header line of a section "whose name matches the configured list" `exclude`
opens an excluded section, for which only the descriptor
`{path, byte offset, line count}` is recorded; the lines of such a section are
counted but not kept. Every other line is kept without its comment and its
surrounding whitespace, unless nothing is left of it, and the line range of
its section grows by one. Byte offsets count the lines as they stand in the
file. -/
def read_dat_line (file : String) (exclude : List String) (st : ReadDat) (raw : Str) : ReadDat :=
  let next := st.offset + raw.length + 1
  let line := strip_comment raw
  if is_section_header raw then
    let name := section_name raw
    if name ∈ exclude then
      { st with
        excludepositions_ := map_insert st.excludepositions_ name ⟨file, next, 0⟩
        current := some name
        offset := next }
    else
      { st with
        lines_ := st.lines_ ++ [line]
        positions_ := map_insert st.positions_ name (st.lines_.length + 1, st.lines_.length + 1)
        current := some name
        offset := next }
  else
    match st.current with
    | none =>
      if line.isEmpty then { st with offset := next }
      else { st with lines_ := st.lines_ ++ [line], offset := next }
    | some name =>
      if name ∈ exclude then
        match st.excludepositions_ name with
        | some sp =>
          { st with
            excludepositions_ :=
              map_insert st.excludepositions_ name { sp with length := sp.length + 1 }
            offset := next }
        | none => { st with offset := next }
      else if line.isEmpty then { st with offset := next }
      else
        match st.positions_ name with
        | some range =>
          { st with
            lines_ := st.lines_ ++ [line]
            positions_ := map_insert st.positions_ name (range.1, range.2 + 1)
            offset := next }
        | none => { st with lines_ := st.lines_ ++ [line], offset := next }

/-- Modelled from the spec: `DatFileReader::read_dat` on the reading rank: the
file is read fully, line by line. -/
def read_dat_lines (file : String) (exclude : List String) (lines : List Str) : ReadDat :=
  lines.foldl (read_dat_line file exclude) ReadDat.start

/-- Modelled from the spec: what the reading rank broadcasts: the content kept
in memory and the two section indexes. -/
structure Broadcast where
  lines : List Str
  positions : StdMap (Nat × Nat)
  excludepositions : StdMap SectionPosition

/-- Modelled from the spec: the payload that the reading rank sends. -/
def ReadDat.broadcast (st : ReadDat) : Broadcast :=
  ⟨st.lines_, st.positions_, st.excludepositions_⟩

/-- Modelled from the spec: the reader that a non-reading rank rebuilds from
the payload it receives. -/
def Broadcast.rebuild (b : Broadcast) (file : String) (outflag : Int) : DatFileReader where
  top_level_file_ := file
  outflag_ := outflag
  lines_ := b.lines
  excludepositions_ := b.excludepositions
  positions_ := b.positions
  knownsections_ := fun _ => none

/-- A section of an input deck: the header line and the lines that follow it
up to the next header. -/
structure DeckSection where
  header : Str
  body : List Str

/-- The lines of a sequence of sections, as they stand in the file. -/
def deck_text : List DeckSection → List Str
  | [] => []
  | s :: rest => s.header :: (s.body ++ deck_text rest)

/-- The lines of a file as a deck: the lines in front of the first header, and
the sections that the headers open. -/
def parse_deck : List Str → List Str × List DeckSection
  | [] => ([], [])
  | l :: rest =>
    if is_section_header l then ([], ⟨l, (parse_deck rest).1⟩ :: (parse_deck rest).2)
    else (l :: (parse_deck rest).1, (parse_deck rest).2)

/-- Number of bytes that the lines take in the file, newlines included. -/
def byte_length (lines : List Str) : Nat :=
  (lines.map fun l => l.length + 1).sum

/-- The two section indexes hold names of different kinds: the names with a
line range are not configured as excluded, the names with a descriptor are. -/
def indexes_separate (exclude : List String) (st : ReadDat) : Prop :=
  (∀ n, (st.positions_ n).isSome = true → n ∉ exclude)
    ∧ (∀ n, (st.excludepositions_ n).isSome = true → n ∈ exclude)

/-- Example data: a deck with a parameter section, a section of node
coordinates and the closing section. -/
def example_deck : List DeckSection :=
  [⟨"--PROBLEM TYP".toList, ["PROBLEMTYP  Fluid".toList]⟩,
   ⟨"--NODE COORDS".toList,
     ["NODE 1 COORD 0.0 0.0 0.0".toList, "NODE 2 COORD 1.0 0.0 0.0".toList]⟩,
   ⟨"--END".toList, []⟩]

end Core.IO

namespace Core

/-- The enumerators of `Core::ProblemType` that `read_fields` names in its
dispatch. The enumeration is declared outside the sources; `other code` stands
for every enumerator that the dispatch does not name. -/
inductive ProblemType where
  | fsi | fsi_redmodels | gas_fsi | thermo_fsi | biofilm_fsi | fsi_xfem | fluid_xfem
  | fpsi_xfem | ale | fluid | fluid_redmodels | lubrication | cardiac_monodomain | scatra
  | sti | fluid_ale | tsi | thermo | structure : ProblemType | polymernetwork | loma
  | fluid_xfem_ls
  | elch | art_net | red_airways | poroelast | poromultiphase | poromultiphasescatra
  | porofluidmultiphase | fpsi | fbi | immersed_fsi | fps3i | poroscatra | ehl | ssi | ssti
  | particle | pasi | level_set | np_support | elemag | redairways_tissue
  | other (code : Nat)
  deriving DecidableEq, Repr

namespace FE

/-- The enumerators of `Core::FE::ShapeFunctionType` that `read_fields` tests
(`polynomial`, `nurbs`, `hdg`); `undefined` stands for any other value. -/
inductive ShapeFunctionType where
  | undefined | polynomial | nurbs | hdg
  deriving DecidableEq, Repr

end FE
end Core

namespace Global

open Core Core.FE

/-- The discretization classes that `read_fields` instantiates. -/
inductive DisClass where
  /-- The class `Core::FE::Discretization`. -/
  | Discretization
  /-- The class `Core::FE::Nurbs::NurbsDiscretization`. -/
  | NurbsDiscretization
  /-- The class `Core::FE::DiscretizationFaces`. -/
  | DiscretizationFaces
  /-- The class `Core::FE::DiscretizationHDG`. -/
  | DiscretizationHDG
  /-- The class `XFEM::DiscretizationXWall`. -/
  | DiscretizationXWall
  /-- The class `XFEM::DiscretizationXFEM`. -/
  | DiscretizationXFEM
  deriving DecidableEq, Repr

/-- A discretization object; its handle (the `Teuchos::RCP`) is its index in
`World.discretizations`. `writer` is the handle of the writer attached by
`set_writer`, if any. -/
structure DisObject where
  name : String
  cls : DisClass
  writer : Option Nat
  deriving DecidableEq, Repr

/-- The calls that `read_fields` makes on the problem, on the discretizations
and on the mesh reader, in the order in which they happen. -/
inductive Event where
  | set_writer (dis writer : Nat)
  | add_dis (name : String) (dis : Nat)
  | add_element_reader (dis : Nat) (sectionname : String)
  | add_advanced_reader (dis : Nat) (name : String)
  | read_and_partition
  | read_micro_fields
  | read_microfields_np_support
  deriving DecidableEq, Repr

/-- What `read_fields` reads from the problem: the problem type, the spatial
approximation type and the flags of the parameter lists. -/
structure Problem where
  problem_type : ProblemType
  spatial_approximation_type : ShapeFunctionType
  /-- The flag `fluid_dynamic_params().sublist("WALL MODEL").get<bool>("X_WALL")` -/
  x_wall : Bool
  /-- The flag `x_fluid_dynamic_params().sublist("GENERAL").get<bool>("XFLUIDFLUID")` -/
  xfluidfluid : Bool
  /-- The flag `poro_multi_phase_dynamic_params().get<bool>("ARTERY_COUPLING")` -/
  poro_multi_phase_artery_coupling : Bool
  /-- The flag `poro_multi_phase_scatra_dynamic_params().get<bool>("ARTERY_COUPLING")` -/
  poro_multi_phase_scatra_artery_coupling : Bool
  /-- The flag `poro_fluid_multi_phase_dynamic_params().get<bool>("ARTERY_COUPLING")` -/
  poro_fluid_multi_phase_artery_coupling : Bool
  /-- The flag `ssi_control_params().sublist("MANIFOLD").get<bool>("ADD_MANIFOLD")` -/
  add_manifold : Bool
  deriving DecidableEq, Repr

/-- The objects `read_fields` works on: the discretizations and writers it
creates, the discretization map of the problem, the readers added to the mesh
reader, and the sequence of calls made so far. -/
structure World where
  /-- Objects made by `Teuchos::make_rcp<...Discretization...>`. -/
  discretizations : List DisObject
  /-- Objects made by `Teuchos::make_rcp<Core::IO::DiscretizationWriter>`: for
  each writer the discretization it was constructed for. -/
  writers : List Nat
  /-- The registrations made by `problem.add_dis`, in call order. -/
  discretizationmap : List (String × Nat)
  /-- The readers of the mesh reader: discretization and section. -/
  meshreader : List (Nat × String)
  trace : List Event
  deriving DecidableEq, Repr

/-- The problem and mesh reader at entry of `read_fields`. -/
def World.initial : World := ⟨[], [], [], [], []⟩

/-- Statements of `read_fields`: they change the world and may throw. -/
abbrev Stmt := ExceptT String (StateM World)

/-- The macro `FOUR_C_THROW`. -/
def FOUR_C_THROW {α : Type} (msg : String) : Stmt α := throw msg

/-- The call `Teuchos::make_rcp<cls>(name, comm, problem.n_dim())`. -/
def make_rcp (cls : DisClass) (name : String) : Stmt Nat := do
  let w : World ← get
  set { w with discretizations := w.discretizations ++ [DisObject.mk name cls none] }
  pure w.discretizations.length

/-- The call
`dis->set_writer(Teuchos::make_rcp<Core::IO::DiscretizationWriter>(dis, output_control, distype))`:
a new writer is constructed for `dis` and set into it. -/
def set_writer (dis : Nat) : Stmt Unit := do
  let w : World ← get
  let writer := w.writers.length
  let discretizations :=
    match w.discretizations[dis]? with
    | some d => w.discretizations.set dis { d with writer := some writer }
    | none => w.discretizations
  set { w with
    writers := w.writers ++ [dis]
    discretizations := discretizations
    trace := w.trace ++ [Event.set_writer dis writer] }

/-- Modelled from the spec: `Global::Problem::add_dis` (the class is outside the
sources): the discretization is registered under the name in the problem. -/
def add_dis (name : String) (dis : Nat) : Stmt Unit :=
  modify fun w => { w with
    discretizationmap := w.discretizationmap ++ [(name, dis)]
    trace := w.trace ++ [Event.add_dis name dis] }

/-- The call `meshreader.add_element_reader(Core::IO::ElementReader(dis, reader, sectionname))`. -/
def add_element_reader (dis : Nat) (sectionname : String) : Stmt Unit :=
  modify fun w => { w with
    meshreader := w.meshreader ++ [(dis, sectionname)]
    trace := w.trace ++ [Event.add_element_reader dis sectionname] }

/-- The call `meshreader.add_advanced_reader(dis, reader, name, geometry, nullptr)`;
the geometry type read from the parameter list is not part of the model. -/
def add_advanced_reader (dis : Nat) (name : String) : Stmt Unit :=
  modify fun w => { w with
    meshreader := w.meshreader ++ [(dis, name)]
    trace := w.trace ++ [Event.add_advanced_reader dis name] }

/-- A call whose effect is outside the model: it is entered in the trace. -/
def call (e : Event) : Stmt Unit :=
  modify fun w => { w with trace := w.trace ++ [e] }

/-- Embedding of `Global::read_fields` (4C_global_data_read.cpp, lines 47 to
1373): the dispatch on the problem type, the switch for the reduced models, and
the reading of the mesh. The local `Teuchos::RCP` variables are the handles
returned by `make_rcp`; `xfluiddis` is `none` while it is `Teuchos::null`. -/
def read_fields (problem : Problem) (read_mesh : Bool) : Stmt Unit := do
  let distype := problem.spatial_approximation_type
  match problem.problem_type with
  | .fsi | .fsi_redmodels =>
    let mut structdis := 0
    let mut fluiddis := 0
    let mut xfluiddis : Option Nat := none
    let mut aledis := 0
    if distype = .nurbs then
      structdis ← make_rcp .NurbsDiscretization "structure"
      fluiddis ← make_rcp .NurbsDiscretization "fluid"
      aledis ← make_rcp .NurbsDiscretization "ale"
    else if problem.x_wall then
      structdis ← make_rcp .Discretization "structure"
      fluiddis ← make_rcp .DiscretizationXWall "fluid"
      aledis ← make_rcp .Discretization "ale"
    else
      structdis ← make_rcp .Discretization "structure"
      fluiddis ← make_rcp .DiscretizationFaces "fluid"
      if problem.xfluidfluid then
        xfluiddis := some (← make_rcp .DiscretizationXFEM "xfluid")
      aledis ← make_rcp .Discretization "ale"
    set_writer structdis
    set_writer fluiddis
    if let some x := xfluiddis then set_writer x
    set_writer aledis
    add_dis "structure" structdis
    add_dis "fluid" fluiddis
    if let some x := xfluiddis then add_dis "xfluid" x
    add_dis "ale" aledis
    add_element_reader structdis "--STRUCTURE ELEMENTS"
    match xfluiddis with
    | some x => add_element_reader x "--FLUID ELEMENTS"
    | none => add_element_reader fluiddis "--FLUID ELEMENTS"
    add_element_reader aledis "--ALE ELEMENTS"
  | .gas_fsi | .thermo_fsi =>
    if distype = .nurbs then
      FOUR_C_THROW "Nurbs discretization not possible for fs3i!"
    let structdis ← make_rcp .Discretization "structure"
    let fluiddis ← make_rcp .DiscretizationFaces "fluid"
    let aledis ← make_rcp .Discretization "ale"
    let fluidscatradis ← make_rcp .Discretization "scatra1"
    let structscatradis ← make_rcp .Discretization "scatra2"
    set_writer structdis
    set_writer fluiddis
    set_writer aledis
    set_writer fluidscatradis
    set_writer structscatradis
    add_dis "structure" structdis
    add_dis "fluid" fluiddis
    add_dis "ale" aledis
    add_dis "scatra1" fluidscatradis
    add_dis "scatra2" structscatradis
    add_element_reader structdis "--STRUCTURE ELEMENTS"
    add_element_reader fluiddis "--FLUID ELEMENTS"
    add_element_reader fluidscatradis "--TRANSPORT ELEMENTS"
    add_element_reader structscatradis "--TRANSPORT2 ELEMENTS"
  | .biofilm_fsi =>
    if distype = .nurbs then
      FOUR_C_THROW "Nurbs discretization not possible for biofilm problems!"
    let structdis ← make_rcp .Discretization "structure"
    let fluiddis ← make_rcp .DiscretizationFaces "fluid"
    let aledis ← make_rcp .Discretization "ale"
    let structaledis ← make_rcp .Discretization "structale"
    set_writer structdis
    set_writer fluiddis
    set_writer aledis
    set_writer structaledis
    add_dis "structure" structdis
    add_dis "fluid" fluiddis
    add_dis "ale" aledis
    add_dis "structale" structaledis
    add_element_reader structdis "--STRUCTURE ELEMENTS"
    add_element_reader fluiddis "--FLUID ELEMENTS"
    let fluidscatradis ← make_rcp .Discretization "scatra1"
    set_writer fluidscatradis
    add_dis "scatra1" fluidscatradis
    let structscatradis ← make_rcp .Discretization "scatra2"
    set_writer structscatradis
    add_dis "scatra2" structscatradis
  | .fsi_xfem | .fluid_xfem =>
    let structdis ← make_rcp .Discretization "structure"
    set_writer structdis
    add_dis "structure" structdis
    add_advanced_reader structdis "STRUCTURE"
    if problem.xfluidfluid then
      let fluiddis ← make_rcp .DiscretizationFaces "fluid"
      set_writer fluiddis
      add_dis "fluid" fluiddis
      let xfluiddis ← make_rcp .DiscretizationXFEM "xfluid"
      set_writer xfluiddis
      add_dis "xfluid" xfluiddis
      add_element_reader xfluiddis "--FLUID ELEMENTS"
    else
      let fluiddis ← make_rcp .DiscretizationXFEM "fluid"
      set_writer fluiddis
      add_dis "fluid" fluiddis
      add_advanced_reader fluiddis "FLUID"
    let aledis ← make_rcp .Discretization "ale"
    set_writer aledis
    add_dis "ale" aledis
    add_element_reader aledis "--ALE ELEMENTS"
  | .fpsi_xfem =>
    let structdis ← make_rcp .Discretization "structure"
    let fluiddis ← make_rcp .DiscretizationXFEM "fluid"
    let porofluiddis ← make_rcp .DiscretizationFaces "porofluid"
    let aledis ← make_rcp .Discretization "ale"
    set_writer structdis
    set_writer fluiddis
    set_writer porofluiddis
    set_writer aledis
    add_dis "structure" structdis
    add_dis "porofluid" porofluiddis
    add_dis "fluid" fluiddis
    add_dis "ale" aledis
    add_element_reader structdis "--STRUCTURE ELEMENTS"
    add_advanced_reader fluiddis "FLUID"
    add_element_reader aledis "--ALE ELEMENTS"
  | .ale =>
    let aledis ← make_rcp (if distype = .nurbs then .NurbsDiscretization else .Discretization) "ale"
    set_writer aledis
    add_dis "ale" aledis
    add_element_reader aledis "--ALE ELEMENTS"
  | .fluid | .fluid_redmodels =>
    let mut fluiddis := 0
    if distype = .hdg then
      fluiddis ← make_rcp .DiscretizationHDG "fluid"
      set_writer fluiddis
    else if distype = .nurbs then
      fluiddis ← make_rcp .NurbsDiscretization "fluid"
      set_writer fluiddis
    else if problem.x_wall then
      fluiddis ← make_rcp .DiscretizationXWall "fluid"
      set_writer fluiddis
    else
      fluiddis ← make_rcp .DiscretizationFaces "fluid"
      set_writer fluiddis
    add_dis "fluid" fluiddis
    add_advanced_reader fluiddis "FLUID"
  | .lubrication =>
    let lubricationdis ← make_rcp .Discretization "lubrication"
    set_writer lubricationdis
    add_dis "lubrication" lubricationdis
    add_element_reader lubricationdis "--LUBRICATION ELEMENTS"
  | .cardiac_monodomain | .scatra =>
    let mut fluiddis := 0
    let mut scatradis := 0
    match distype with
    | .nurbs =>
      fluiddis ← make_rcp .NurbsDiscretization "fluid"
      scatradis ← make_rcp .NurbsDiscretization "scatra"
    | .hdg =>
      fluiddis ← make_rcp .DiscretizationFaces "fluid"
      scatradis ← make_rcp .DiscretizationHDG "scatra"
    | _ =>
      fluiddis ← make_rcp .DiscretizationFaces "fluid"
      scatradis ← make_rcp .Discretization "scatra"
    set_writer fluiddis
    set_writer scatradis
    add_dis "fluid" fluiddis
    add_dis "scatra" scatradis
    add_element_reader fluiddis "--FLUID ELEMENTS"
    add_element_reader scatradis "--TRANSPORT ELEMENTS"
  | .sti =>
    if distype = .nurbs then
      FOUR_C_THROW "Scatra-thermo interaction does not work for nurbs discretizations yet!"
    let scatradis ← make_rcp .Discretization "scatra"
    let thermdis ← make_rcp .Discretization "thermo"
    set_writer scatradis
    set_writer thermdis
    add_dis "scatra" scatradis
    add_dis "thermo" thermdis
    add_element_reader scatradis "--TRANSPORT ELEMENTS"
  | .fluid_ale =>
    let mut fluiddis := 0
    let mut xfluiddis : Option Nat := none
    let mut aledis := 0
    if distype = .hdg then
      fluiddis ← make_rcp .DiscretizationHDG "fluid"
      aledis ← make_rcp .Discretization "ale"
    else if distype = .nurbs then
      fluiddis ← make_rcp .NurbsDiscretization "fluid"
      aledis ← make_rcp .NurbsDiscretization "ale"
    else if problem.x_wall then
      fluiddis ← make_rcp .DiscretizationXWall "fluid"
      aledis ← make_rcp .Discretization "ale"
    else
      fluiddis ← make_rcp .DiscretizationFaces "fluid"
      if problem.xfluidfluid then
        xfluiddis := some (← make_rcp .DiscretizationXFEM "xfluid")
      aledis ← make_rcp .Discretization "ale"
    set_writer fluiddis
    if let some x := xfluiddis then set_writer x
    set_writer aledis
    add_dis "fluid" fluiddis
    if let some x := xfluiddis then add_dis "xfluid" x
    add_dis "ale" aledis
    match xfluiddis with
    | some x => add_element_reader x "--FLUID ELEMENTS"
    | none => add_element_reader fluiddis "--FLUID ELEMENTS"
    add_element_reader aledis "--ALE ELEMENTS"
  | .tsi =>
    let cls := if distype = .nurbs then DisClass.NurbsDiscretization else DisClass.Discretization
    let structdis ← make_rcp cls "structure"
    let thermdis ← make_rcp cls "thermo"
    set_writer structdis
    set_writer thermdis
    add_dis "structure" structdis
    add_dis "thermo" thermdis
    add_advanced_reader structdis "STRUCTURE"
    add_advanced_reader thermdis "THERMO"
  | .thermo =>
    let thermdis ← make_rcp (if distype = .nurbs then .NurbsDiscretization else .Discretization) "thermo"
    set_writer thermdis
    add_dis "thermo" thermdis
    add_element_reader thermdis "--THERMO ELEMENTS"
  | .structure =>
    let structdis ← make_rcp (if distype = .nurbs then .NurbsDiscretization else .Discretization) "structure"
    set_writer structdis
    add_dis "structure" structdis
    add_advanced_reader structdis "STRUCTURE"
  | .polymernetwork =>
    let structdis ← make_rcp .Discretization "structure"
    let pboxdis ← make_rcp .Discretization "boundingbox"
    set_writer structdis
    set_writer pboxdis
    add_dis "structure" structdis
    add_dis "boundingbox" pboxdis
    add_element_reader structdis "--STRUCTURE ELEMENTS"
    add_element_reader pboxdis "--PERIODIC BOUNDINGBOX ELEMENTS"
  | .loma =>
    let fluiddis ← make_rcp .DiscretizationFaces "fluid"
    let scatradis ← make_rcp .Discretization "scatra"
    set_writer fluiddis
    set_writer scatradis
    add_dis "fluid" fluiddis
    add_dis "scatra" scatradis
    add_element_reader fluiddis "--FLUID ELEMENTS"
    add_element_reader scatradis "--TRANSPORT ELEMENTS"
  | .fluid_xfem_ls =>
    let structdis ← make_rcp .Discretization "structure"
    let fluiddis ← make_rcp
      (if problem.problem_type = .fluid_xfem_ls then .DiscretizationXFEM else .DiscretizationFaces)
      "fluid"
    let scatradis ← make_rcp .Discretization "scatra"
    set_writer structdis
    set_writer fluiddis
    set_writer scatradis
    add_dis "structure" structdis
    add_dis "fluid" fluiddis
    add_dis "scatra" scatradis
    add_element_reader structdis "--STRUCTURE ELEMENTS"
    add_advanced_reader fluiddis "FLUID"
    add_element_reader scatradis "--TRANSPORT ELEMENTS"
  | .elch =>
    let cls := if distype = .nurbs then DisClass.NurbsDiscretization else DisClass.Discretization
    let fluiddis ← make_rcp
      (if distype = .nurbs then .NurbsDiscretization else .DiscretizationFaces) "fluid"
    let scatradis ← make_rcp cls "scatra"
    let aledis ← make_rcp cls "ale"
    let scatra_micro_dis ← make_rcp cls "scatra_micro"
    set_writer fluiddis
    set_writer scatradis
    set_writer aledis
    set_writer scatra_micro_dis
    add_dis "fluid" fluiddis
    add_dis "scatra" scatradis
    add_dis "ale" aledis
    add_dis "scatra_micro" scatra_micro_dis
    add_element_reader fluiddis "--FLUID ELEMENTS"
    add_element_reader scatradis "--TRANSPORT ELEMENTS"
    add_element_reader aledis "--ALE ELEMENTS"
    add_element_reader scatra_micro_dis "--TRANSPORT2 ELEMENTS"
  | .art_net =>
    let arterydis ← make_rcp .Discretization "artery"
    if distype = .nurbs then
      FOUR_C_THROW "Nurbs discretization not possible for artery"
    let scatradis ← make_rcp .Discretization "artery_scatra"
    add_dis "artery" arterydis
    add_dis "artery_scatra" scatradis
    set_writer arterydis
    set_writer scatradis
    add_element_reader arterydis "--ARTERY ELEMENTS"
    add_element_reader scatradis "--TRANSPORT ELEMENTS"
  | .red_airways =>
    let airwaydis ← make_rcp .Discretization "red_airway"
    set_writer airwaydis
    add_dis "red_airway" airwaydis
    add_element_reader airwaydis "--REDUCED D AIRWAYS ELEMENTS"
  | .poroelast | .poromultiphase =>
    let cls := if distype = .nurbs then DisClass.NurbsDiscretization else DisClass.Discretization
    let structdis ← make_rcp cls "structure"
    let porofluiddis ← make_rcp cls "porofluid"
    set_writer structdis
    set_writer porofluiddis
    add_dis "structure" structdis
    add_dis "porofluid" porofluiddis
    add_element_reader structdis "--STRUCTURE ELEMENTS"
    add_element_reader porofluiddis "--FLUID ELEMENTS"
    if problem.poro_multi_phase_artery_coupling then
      let arterydis ← make_rcp .Discretization "artery"
      set_writer arterydis
      add_dis "artery" arterydis
      add_element_reader arterydis "--ARTERY ELEMENTS"
  | .poromultiphasescatra =>
    let cls := if distype = .nurbs then DisClass.NurbsDiscretization else DisClass.Discretization
    let structdis ← make_rcp cls "structure"
    let porofluiddis ← make_rcp cls "porofluid"
    let scatradis ← make_rcp cls "scatra"
    set_writer structdis
    set_writer porofluiddis
    set_writer scatradis
    add_dis "structure" structdis
    add_dis "porofluid" porofluiddis
    add_dis "scatra" scatradis
    add_element_reader structdis "--STRUCTURE ELEMENTS"
    add_element_reader porofluiddis "--FLUID ELEMENTS"
    add_element_reader scatradis "--TRANSPORT ELEMENTS"
    if problem.poro_multi_phase_scatra_artery_coupling then
      let arterydis ← make_rcp .Discretization "artery"
      set_writer arterydis
      add_dis "artery" arterydis
      add_element_reader arterydis "--ARTERY ELEMENTS"
      let artscatradis ← make_rcp .Discretization "artery_scatra"
      set_writer artscatradis
      add_dis "artery_scatra" artscatradis
      add_element_reader artscatradis "--TRANSPORT ELEMENTS"
  | .porofluidmultiphase =>
    let porofluiddis ← make_rcp
      (if distype = .nurbs then .NurbsDiscretization else .Discretization) "porofluid"
    set_writer porofluiddis
    add_dis "porofluid" porofluiddis
    add_element_reader porofluiddis "--FLUID ELEMENTS"
    if problem.poro_fluid_multi_phase_artery_coupling then
      let arterydis ← make_rcp .Discretization "artery"
      set_writer arterydis
      add_dis "artery" arterydis
      add_element_reader arterydis "--ARTERY ELEMENTS"
  | .fpsi =>
    let structdis ← make_rcp .Discretization "structure"
    let porofluiddis ← make_rcp .Discretization "porofluid"
    let fluiddis ← make_rcp .DiscretizationFaces "fluid"
    let aledis ← make_rcp .Discretization "ale"
    set_writer structdis
    set_writer porofluiddis
    set_writer fluiddis
    set_writer aledis
    add_dis "structure" structdis
    add_dis "porofluid" porofluiddis
    add_dis "fluid" fluiddis
    add_dis "ale" aledis
    add_element_reader fluiddis "--FLUID ELEMENTS"
    add_element_reader structdis "--STRUCTURE ELEMENTS"
  | .fbi =>
    let structdis ← make_rcp .Discretization "structure"
    let fluiddis ← make_rcp .DiscretizationFaces "fluid"
    set_writer structdis
    set_writer fluiddis
    add_dis "structure" structdis
    add_dis "fluid" fluiddis
    add_element_reader structdis "--STRUCTURE ELEMENTS"
    add_advanced_reader fluiddis "FLUID"
  | .immersed_fsi =>
    let structdis ← make_rcp .Discretization "structure"
    let fluiddis ← make_rcp .DiscretizationFaces "fluid"
    set_writer structdis
    set_writer fluiddis
    add_dis "structure" structdis
    add_dis "fluid" fluiddis
    add_element_reader structdis "--STRUCTURE ELEMENTS"
    add_element_reader fluiddis "--FLUID ELEMENTS"
  | .fps3i =>
    let structdis ← make_rcp .Discretization "structure"
    let porofluiddis ← make_rcp .Discretization "porofluid"
    let fluiddis ← make_rcp .DiscretizationFaces "fluid"
    let aledis ← make_rcp .Discretization "ale"
    set_writer structdis
    set_writer porofluiddis
    set_writer fluiddis
    set_writer aledis
    add_dis "structure" structdis
    add_dis "porofluid" porofluiddis
    add_dis "fluid" fluiddis
    add_dis "ale" aledis
    add_element_reader fluiddis "--FLUID ELEMENTS"
    add_element_reader structdis "--STRUCTURE ELEMENTS"
    let fluidscatradis ← make_rcp .Discretization "scatra1"
    set_writer fluidscatradis
    add_dis "scatra1" fluidscatradis
    let structscatradis ← make_rcp .Discretization "scatra2"
    set_writer structscatradis
    add_dis "scatra2" structscatradis
  | .poroscatra =>
    let structdis ← make_rcp .Discretization "structure"
    let porofluiddis ← make_rcp .Discretization "porofluid"
    let scatradis ← make_rcp .Discretization "scatra"
    set_writer structdis
    set_writer porofluiddis
    set_writer scatradis
    add_dis "structure" structdis
    add_dis "porofluid" porofluiddis
    add_dis "scatra" scatradis
    add_element_reader structdis "--STRUCTURE ELEMENTS"
    add_element_reader porofluiddis "--FLUID ELEMENTS"
    add_element_reader scatradis "--TRANSPORT ELEMENTS"
  | .ehl =>
    let structdis ← make_rcp .Discretization "structure"
    let lubricationdis ← make_rcp .Discretization "lubrication"
    set_writer structdis
    set_writer lubricationdis
    add_dis "structure" structdis
    add_dis "lubrication" lubricationdis
    add_element_reader structdis "--STRUCTURE ELEMENTS"
    add_element_reader lubricationdis "--LUBRICATION ELEMENTS"
  | .ssi | .ssti =>
    let structdis ← make_rcp .Discretization "structure"
    let scatradis ← make_rcp .Discretization "scatra"
    set_writer structdis
    set_writer scatradis
    add_dis "structure" structdis
    add_dis "scatra" scatradis
    if problem.add_manifold then
      let scatra_manifold_dis ← make_rcp .Discretization "scatra_manifold"
      set_writer scatra_manifold_dis
      add_dis "scatra_manifold" scatra_manifold_dis
    add_element_reader structdis "--STRUCTURE ELEMENTS"
    add_element_reader scatradis "--TRANSPORT ELEMENTS"
    if problem.problem_type = .ssti then
      let thermdis ← make_rcp .Discretization "thermo"
      set_writer thermdis
      add_dis "thermo" thermdis
      add_element_reader thermdis "--TRANSPORT ELEMENTS"
  | .particle | .pasi =>
    let structdis ← make_rcp .Discretization "structure"
    set_writer structdis
    add_dis "structure" structdis
    add_element_reader structdis "--STRUCTURE ELEMENTS"
  | .level_set =>
    let scatradis ← make_rcp .Discretization "scatra"
    set_writer scatradis
    add_dis "scatra" scatradis
    add_element_reader scatradis "--TRANSPORT ELEMENTS"
  | .np_support => pure ()
  | .elemag =>
    let elemagdis ← make_rcp .DiscretizationHDG "elemag"
    set_writer elemagdis
    add_dis "elemag" elemagdis
    add_element_reader elemagdis "--ELECTROMAGNETIC ELEMENTS"
  | .redairways_tissue =>
    let structdis ← make_rcp .Discretization "structure"
    let airwaydis ← make_rcp .Discretization "red_airway"
    set_writer structdis
    set_writer airwaydis
    add_dis "structure" structdis
    add_dis "red_airway" airwaydis
    add_element_reader structdis "--STRUCTURE ELEMENTS"
    add_element_reader airwaydis "--REDUCED D AIRWAYS ELEMENTS"
  | .other _ => FOUR_C_THROW "Unknown problem type: %d"
  -- add artery or airways discretizations only for the following problem types
  match problem.problem_type with
  | .fsi_redmodels | .fluid_ale | .fluid_redmodels =>
    if distype = .polynomial then
      let arterydis ← make_rcp .Discretization "artery"
      set_writer arterydis
      add_dis "artery" arterydis
      add_element_reader arterydis "--ARTERY ELEMENTS"
      let airwaydis ← make_rcp .Discretization "red_airway"
      set_writer airwaydis
      add_dis "red_airway" airwaydis
      add_element_reader airwaydis "--REDUCED D AIRWAYS ELEMENTS"
  | _ => pure ()
  if read_mesh then
    call .read_and_partition
    match problem.problem_type with
    | .elch | .fsi | .fsi_redmodels | .scatra | .structure => call .read_micro_fields
    | .np_support => call .read_microfields_np_support
    | _ => pure ()

/-- Run `read_fields` on a fresh problem: the result (normal return or the
message of the fatal error) and the world at the return or at the throw. -/
def run_read_fields (problem : Problem) (read_mesh : Bool) : Except String Unit × World :=
  ((read_fields problem read_mesh).run.run World.initial)

/-- The writer attached to the discretization with handle `dis`, if any. -/
def World.writer_of (w : World) (dis : Nat) : Option Nat :=
  (w.discretizations[dis]?).bind fun d => d.writer

/-- The calls made before `meshreader.read_and_partition()`; all calls when the
mesh is not read. -/
def World.before_read (w : World) : List Event :=
  w.trace.takeWhile fun e => e != Event.read_and_partition

/-- Check that every registered discretization has a writer that was
constructed for it and set into it before the mesh is read. -/
def World.writers_attached (w : World) : Bool :=
  w.discretizationmap.all fun e =>
    match w.writer_of e.2 with
    | some writer =>
      w.writers[writer]? == some e.2 && w.before_read.contains (Event.set_writer e.2 writer)
    | none => false

/-- Check that no two discretizations hold the same writer. -/
def World.writers_exclusive (w : World) : Bool :=
  (List.range w.discretizations.length).all fun i =>
    (List.range w.discretizations.length).all fun j =>
      match w.writer_of i with
      | some writer => w.writer_of j != some writer || i == j
      | none => true

/-- The check of `read_fields` on one problem: when it returns normally, the
writers are attached and exclusive. -/
def check_writers (problem : Problem) (read_mesh : Bool) : Bool :=
  match run_read_fields problem read_mesh with
  | (.ok _, w) => w.writers_attached && w.writers_exclusive
  | (.error _, _) => true

/-- The two flags that the dispatch of `read_fields` reads for the problem type
(`false` where it reads fewer). -/
def Problem.flags (p : Problem) : Bool × Bool :=
  match p.problem_type with
  | .fsi | .fsi_redmodels | .fluid_ale => (p.x_wall, p.xfluidfluid)
  | .fluid | .fluid_redmodels => (p.x_wall, false)
  | .fsi_xfem | .fluid_xfem => (p.xfluidfluid, false)
  | .poroelast | .poromultiphase => (p.poro_multi_phase_artery_coupling, false)
  | .poromultiphasescatra => (p.poro_multi_phase_scatra_artery_coupling, false)
  | .porofluidmultiphase => (p.poro_fluid_multi_phase_artery_coupling, false)
  | .ssi | .ssti => (p.add_manifold, false)
  | _ => (false, false)

/-- The problem of the given type in which the flags read by the dispatch have
the values `f` and `g` and all other flags are off. -/
def Problem.of_flags (pt : ProblemType) (dt : ShapeFunctionType) (f g : Bool) : Problem :=
  match pt with
  | .fsi | .fsi_redmodels | .fluid_ale => ⟨pt, dt, f, g, false, false, false, false⟩
  | .fluid | .fluid_redmodels => ⟨pt, dt, f, false, false, false, false, false⟩
  | .fsi_xfem | .fluid_xfem => ⟨pt, dt, false, f, false, false, false, false⟩
  | .poroelast | .poromultiphase => ⟨pt, dt, false, false, f, false, false, false⟩
  | .poromultiphasescatra => ⟨pt, dt, false, false, false, f, false, false⟩
  | .porofluidmultiphase => ⟨pt, dt, false, false, false, false, f, false⟩
  | .ssi | .ssti => ⟨pt, dt, false, false, false, false, false, f⟩
  | _ => ⟨pt, dt, false, false, false, false, false, false⟩

end Global

namespace Global

/-- The material types that `read_micro_fields` tests. The enumeration
`Core::Materials::MaterialType` is declared outside the sources; `m_other`
stands for every other type. -/
inductive MaterialType where
  | m_struct_multiscale | m_scatra_multiscale | m_newman_multiscale | m_elchmat | m_other
  deriving DecidableEq, Repr

/-- What the scan of `read_micro_fields` reads from a material: its type and
the id of its parameters. -/
structure Material where
  material_type : MaterialType
  id : Int
  deriving DecidableEq, Repr

/-- The material of a column element: the material itself and, for an
`ElchMat`, the material `elchphase->mat_by_id(elchphase->mat_id(0))` of its
first phase (not read for other materials). -/
structure ElementMaterial where
  actmat : Material
  wrapped : Material
  deriving DecidableEq, Repr

/-- The call `my_multimat_IDs.insert(id)` on a `std::set<int>`; the set is kept
as a list without repetitions (only its size and membership are read). -/
def set_insert (s : List Int) (id : Int) : List Int :=
  if id ∈ s then s else s ++ [id]

/-- The calls that `read_micro_fields` and `read_microfields_np_support` make
on the communicators, the problems and the material registry, in the order in
which they happen. -/
inductive MicroEvent where
  | get_dis (name : String)
  | redistribute
  | sum_all (foundmicromat : Int)
  | broadcast_nummicromat
  | gather_all (foundmicromatmyrank : Int)
  | comm_split (color key : Int)
  | set_sub_comm
  | broadcast_microcount (microcount : Int)
  | mat_factory (matid : Int)
  | broadcast_microdisnum (microdisnum : Int)
  | problem_instance (microdisnum : Int)
  | broadcast_length (length : Int)
  | broadcast_name (name : Str)
  | dat_file_reader (name : Str)
  | replace_dof_set
  | add_dis (microdisnum : Int) (name : String)
  | read_parameter (microdisnum : Int)
  | set_read_from_problem (microdisnum : Int)
  | read_micro_problem (microdisnum : Int)
  | broadcast_restart_step (restart_step : Int)
  | set_restart_step (restart_step : Int)
  | reset_read_from_problem
  deriving DecidableEq, Repr

/-- The state that the reading of the micro fields changes: the problem from
which the material registry reads (`readfromproblem_`, 0 is the macro problem)
and the calls made so far. -/
structure MicroState where
  read_from_problem : Int
  trace : List MicroEvent
  deriving DecidableEq, Repr

/-- The state at entry: the registry reads from the macro problem. -/
def MicroState.entry : MicroState := ⟨0, []⟩

/-- Enter calls in the trace. -/
def MicroState.log (st : MicroState) (events : List MicroEvent) : MicroState :=
  { st with trace := st.trace ++ events }

/-- Modelled from the spec: `Mat::PAR::Bundle::set_read_from_problem` (the
class is outside the sources): the registry reads from the given problem. -/
def MicroState.set_read_from_problem (st : MicroState) (microdisnum : Int) : MicroState :=
  { read_from_problem := microdisnum
    trace := st.trace ++ [MicroEvent.set_read_from_problem microdisnum] }

/-- Modelled from the spec: `Mat::PAR::Bundle::reset_read_from_problem` (the
class is outside the sources): "the problem number from which to call
materials again" is set "to zero (i.e. macro problem)". -/
def MicroState.reset_read_from_problem (st : MicroState) : MicroState :=
  { read_from_problem := 0
    trace := st.trace ++ [MicroEvent.reset_read_from_problem] }

/-- The operator `/` of `std::filesystem::path` on POSIX paths, as a string:
an absolute right side replaces the left side, otherwise the right side is
appended, after a separator if the left side does not end in one. -/
def path_append (p n : Str) : Str :=
  if n.head? = some '/' then n
  else if p = [] then n
  else if p.getLast? = some '/' then p ++ n
  else p ++ '/' :: n

/-- What `read_micro_fields` reads on one rank: the first ids of the three
multiscale material types (-1 when there is none), the materials of the column
elements of the macro discretization, the rank in the local communicator, what
the collective calls deliver there, the material map with the micro
discretization number and micro input file of each material, the directory of
the macro input file, and whether the nested reading succeeds. -/
structure MicroInput where
  id_struct : Int
  id_scatra : Int
  id_elch : Int
  /-- The names of the discretizations of the macro problem. -/
  discretizations : List String
  elements : List ElementMaterial
  /-- The rank `lcomm->MyPID()`. -/
  MyPID : Int
  /-- The vector that `lcomm->GatherAll` delivers for the own contribution. -/
  gather_all : Int → List Int
  /-- The value of `MPI_UNDEFINED`. -/
  MPI_UNDEFINED : Int
  /-- The ids of `problem.materials()->map()`, in ascending order. -/
  materials : List Int
  /-- The number `micromat->micro_dis_num()` of the material with the id. -/
  micro_dis_num : Int → Int
  /-- The name `micromat->micro_input_file_name()` of the material with the id. -/
  micro_input_file_name : Int → Str
  input_path : Str
  /-- Whether `np_type()` is `no_nested_parallelism`. -/
  no_nested_parallelism : Bool
  /-- The step `problem.restart()`. -/
  restart : Int
  /-- Whether the construction of the reader of the micro input file throws. -/
  micro_reader_fails : Str → Bool
  /-- Whether `read_parameter` throws on the micro problem. -/
  read_parameter_fails : Int → Bool
  /-- Whether reading the materials, mesh, functions, results or conditions of
  the micro problem throws. -/
  micro_reading_fails : Int → Bool

/-- The safety check of `read_micro_fields` on the three ids: the function
returns at once, throws, or goes on with the name of the macro discretization. -/
inductive MicroCheck where
  | returns
  | proceeds (macro_dis_name : String)
  deriving DecidableEq, Repr

/-- Lines 1385 to 1398 of `read_micro_fields`: the early return, the safety
check and the name of the macro discretization. -/
def micro_check (id_struct id_scatra id_elch : Int) : Except String MicroCheck :=
  if id_struct = -1 ∧ id_scatra = -1 ∧ id_elch = -1 then .ok .returns
  else if (id_struct ≠ -1 ∧ id_scatra ≠ -1) ∨ (id_struct ≠ -1 ∧ id_elch ≠ -1)
      ∨ (id_scatra ≠ -1 ∧ id_elch ≠ -1) then
    .error "Cannot have more than one multi-scale material!"
  else if id_struct ≠ -1 then .ok (.proceeds "structure")
  else .ok (.proceeds "scatra")

/-- Lines 1424 to 1451 of `read_micro_fields`: the ids of the multiscale
materials of the column elements of the macro discretization. -/
def scan_elements (id_elch : Int) (macro_dis_name : String) (elements : List ElementMaterial) :
    List Int :=
  elements.foldl
    (fun my_multimat_IDs actele =>
      let actmat :=
        if id_elch ≠ -1 ∧ actele.actmat.material_type = .m_elchmat then actele.wrapped
        else actele.actmat
      if (actmat.material_type = .m_struct_multiscale ∧ macro_dis_name = "structure")
          ∨ (actmat.material_type = .m_scatra_multiscale ∧ macro_dis_name = "scatra")
          ∨ (actmat.material_type = .m_newman_multiscale ∧ macro_dis_name = "scatra") then
        set_insert my_multimat_IDs actmat.id
      else my_multimat_IDs)
    []

/-- The loop of lines 1479 to 1483: the colour is incremented for every rank
with micro material, up to and including the own rank. -/
def color_loop (foundmicromatmyrank : Int) : List Int → Int → Int
  | [], color => color
  | foundmyrank :: rest, color =>
    let color := if foundmyrank ≠ -1 then color + 1 else color
    if foundmyrank = foundmicromatmyrank then color
    else color_loop foundmicromatmyrank rest color

/-- Lines 1476 to 1488 of `read_micro_fields`: the colour of a rank. -/
def elect_color (MPI_UNDEFINED foundmicromat foundmicromatmyrank : Int)
    (foundmyranks : List Int) : Int :=
  if foundmicromat = 1 then color_loop foundmicromatmyrank foundmyranks (-1)
  else MPI_UNDEFINED

/-- Lines 1577 to 1580: the micro input file name, made relative to the
directory of the macro input file unless it begins with `/`. -/
def resolve_micro_inputfile_name (input_path micro_inputfile_name : Str) : Str :=
  if micro_inputfile_name.head? ≠ some '/' then path_append input_path micro_inputfile_name
  else micro_inputfile_name

/-- Lines 1528 to 1574: the number and the name of the micro discretization of
a material, for the structure case and for the scalar transport case. -/
def micro_dis_of (inp : MicroInput) (macro_dis_name : String) (matid : Int) :
    Except String (Int × String) :=
  if macro_dis_name = "structure" then .ok (inp.micro_dis_num matid, "structure")
  else if inp.id_scatra ≠ -1 ∨ inp.id_elch ≠ -1 then
    .ok (inp.micro_dis_num matid, "scatra_multiscale_" ++ toString (inp.micro_dis_num matid))
  else .error "How the heck did you get here?!"

/-- Lines 1520 to 1659 of `read_micro_fields`: the reading of the micro problem
of one material of the rank. -/
def read_micro_material (inp : MicroInput) (macro_dis_name : String) (matid : Int)
    (st : MicroState) : Except String Unit × MicroState :=
  let st := st.log [.mat_factory matid]
  match micro_dis_of inp macro_dis_name matid with
  | .error msg => (.error msg, st)
  | .ok (microdisnum, micro_dis_name) =>
    let st := st.log [.broadcast_microdisnum microdisnum, .problem_instance microdisnum]
    let micro_inputfile_name :=
      resolve_micro_inputfile_name inp.input_path (inp.micro_input_file_name matid)
    let st := st.log [.broadcast_length micro_inputfile_name.length,
      .broadcast_name micro_inputfile_name, .dat_file_reader micro_inputfile_name]
    if inp.micro_reader_fails micro_inputfile_name then (.error "micro input file", st)
    else
      let st := st.log (if inp.no_nested_parallelism then [.replace_dof_set] else [])
      let st := st.log [.add_dis microdisnum micro_dis_name, .read_parameter microdisnum]
      if inp.read_parameter_fails microdisnum then (.error "micro parameters", st)
      else
        let st := st.set_read_from_problem microdisnum
        let st := st.log [.read_micro_problem microdisnum]
        if inp.micro_reading_fails microdisnum then (.error "micro problem", st)
        else
          let st := st.log [.broadcast_restart_step inp.restart,
            .set_restart_step inp.restart]
          (.ok (), st.reset_read_from_problem)

/-- The loop of lines 1514 to 1661 over the material map. -/
def read_micro_materials (inp : MicroInput) (macro_dis_name : String)
    (my_multimat_IDs : List Int) : List Int → MicroState → Except String Unit × MicroState
  | [], st => (.ok (), st)
  | matid :: rest, st =>
    if matid ∈ my_multimat_IDs then
      match read_micro_material inp macro_dis_name matid st with
      | (.ok _, st1) => read_micro_materials inp macro_dis_name my_multimat_IDs rest st1
      | (.error msg, st1) => (.error msg, st1)
    else read_micro_materials inp macro_dis_name my_multimat_IDs rest st

/-- Lines 1505 to 1510: the number of micro problems of the rank. -/
def count_micro (my_multimat_IDs materials : List Int) : Nat :=
  (materials.filter fun matid => decide (matid ∈ my_multimat_IDs)).length

/-- Lines 1453 to 1460: whether the rank has an element with micro material. -/
def foundmicromat (my_multimat_IDs : List Int) : Int :=
  if my_multimat_IDs.length ≠ 0 then 1 else 0

/-- Lines 1453 to 1460: the own rank where micro material was found, else -1. -/
def foundmicromatmyrank (MyPID : Int) (my_multimat_IDs : List Int) : Int :=
  if my_multimat_IDs.length ≠ 0 then MyPID else -1

/-- The colour of the rank, from what `GatherAll` delivers (lines 1468 to 1488). -/
def my_color (inp : MicroInput) (my_multimat_IDs : List Int) : Int :=
  elect_color inp.MPI_UNDEFINED (foundmicromat my_multimat_IDs)
    (foundmicromatmyrank inp.MyPID my_multimat_IDs)
    (inp.gather_all (foundmicromatmyrank inp.MyPID my_multimat_IDs))

/-- Lines 1453 to 1495 of `read_micro_fields`: the collective calls that
determine the colour, and the split of the global communicator. -/
def elect_and_split (inp : MicroInput) (my_multimat_IDs : List Int) (st : MicroState) :
    MicroState :=
  st.log [.sum_all (foundmicromat my_multimat_IDs), .broadcast_nummicromat,
    .gather_all (foundmicromatmyrank inp.MyPID my_multimat_IDs),
    .comm_split (my_color inp my_multimat_IDs) 0]

/-- Lines 1497 to 1663 of `read_micro_fields`: the reading of the micro
problems on a rank with micro material. -/
def read_micro_problems (inp : MicroInput) (macro_dis_name : String)
    (my_multimat_IDs : List Int) (st : MicroState) : Except String Unit × MicroState :=
  if foundmicromat my_multimat_IDs = 1 then
    let st := st.log [.set_sub_comm,
      .broadcast_microcount (count_micro my_multimat_IDs inp.materials)]
    match read_micro_materials inp macro_dis_name my_multimat_IDs inp.materials st with
    | (.ok _, st1) => (.ok (), st1.reset_read_from_problem)
    | (.error msg, st1) => (.error msg, st1)
  else (.ok (), st)

/-- Embedding of `Global::read_micro_fields` (4C_global_data_read.cpp, lines
1375 to 1664) on one rank: the result (normal return or the message of the
fatal error) and the state at the return or at the throw. -/
def read_micro_fields (inp : MicroInput) (st : MicroState) : Except String Unit × MicroState :=
  match micro_check inp.id_struct inp.id_scatra inp.id_elch with
  | .error msg => (.error msg, st)
  | .ok .returns => (.ok (), st)
  | .ok (.proceeds macro_dis_name) =>
    let st := st.log [.get_dis macro_dis_name]
    if macro_dis_name ∉ inp.discretizations then (.error "discretization not found", st)
    else
      let st := st.log (if macro_dis_name = "structure" then [.redistribute] else [])
      let my_multimat_IDs := scan_elements inp.id_elch macro_dis_name inp.elements
      read_micro_problems inp macro_dis_name my_multimat_IDs
        (elect_and_split inp my_multimat_IDs st)

/-- What `read_microfields_np_support` reads on a supporting rank: the size of
and the rank in the local communicator, the rank in the global communicator,
and what it receives by broadcast: the number of ranks with micro material,
the number of micro problems of its group, and for each of them the number of
the micro discretization and the name of the micro input file. -/
structure SupportInput where
  NumProc : Nat
  MyPID : Nat
  global_MyPID : Int
  nummicromat : Nat
  microcount : Nat
  microdisnum : Nat → Int
  micro_inputfile_name : Nat → Str
  /-- The restart step after the broadcast in the group. -/
  restart : Int
  micro_reader_fails : Str → Bool
  read_parameter_fails : Int → Bool
  micro_reading_fails : Int → Bool

/-- The statement `supgrouplayout[k]++`; `none` when `k` is past the end. -/
def increment_at : List Nat → Nat → Option (List Nat)
  | [], _ => none
  | g :: rest, 0 => some ((g + 1) :: rest)
  | g :: rest, k + 1 => (increment_at rest k).map fun r => g :: r

/-- The loop of lines 1686 to 1689 for `k, k+1, ...`, `count` times. -/
def fill_remaining : Nat → Nat → List Nat → Option (List Nat)
  | 0, _, layout => some layout
  | count + 1, k, layout => (increment_at layout k).bind fun l => fill_remaining count (k + 1) l

/-- Lines 1680 to 1689 of `read_microfields_np_support`: the sizes of the
groups of supporting ranks; `none` when the filling of the remainder writes
past the end of the layout. -/
def supgrouplayout (NumProc nummicromat : Nat) : Option (List Nat) :=
  let procpergroup := NumProc / nummicromat
  let remainingProcs := NumProc - procpergroup * nummicromat
  fill_remaining remainingProcs 0 (List.replicate nummicromat procpergroup)

/-- The do-while loop of lines 1693 to 1699 on the rest of the layout; `none`
when the loop reads past the end of the layout. -/
def support_color_loop (MyPID : Nat) : List Nat → Int → Nat → Option Int
  | [], _, _ => none
  | group :: rest, color, gsum =>
    if gsum + group ≤ MyPID then support_color_loop MyPID rest (color + 1) (gsum + group)
    else some (color + 1)

/-- Lines 1716 to 1778: the reading of the n-th micro problem of the group on a
supporting rank. -/
def read_micro_support (inp : SupportInput) (n : Nat) (st : MicroState) :
    Except String Unit × MicroState :=
  let microdisnum := inp.microdisnum n
  let micro_inputfile_name := inp.micro_inputfile_name n
  let st := st.log [.broadcast_microdisnum microdisnum, .problem_instance microdisnum,
    .broadcast_length micro_inputfile_name.length, .broadcast_name micro_inputfile_name,
    .dat_file_reader micro_inputfile_name]
  if inp.micro_reader_fails micro_inputfile_name then (.error "micro input file", st)
  else
    let st := st.log [.add_dis microdisnum "structure", .read_parameter microdisnum]
    if inp.read_parameter_fails microdisnum then (.error "micro parameters", st)
    else
      let st := st.set_read_from_problem microdisnum
      let st := st.log [.read_micro_problem microdisnum]
      if inp.micro_reading_fails microdisnum then (.error "micro problem", st)
      else
        let st := st.log [.broadcast_restart_step inp.restart, .set_restart_step inp.restart]
        (.ok (), st.reset_read_from_problem)

/-- The loop of lines 1714 to 1779: the micro problems `n, n+1, ...`, `count`
of them. -/
def read_micro_supports (inp : SupportInput) : Nat → Nat → MicroState →
    Except String Unit × MicroState
  | 0, _, st => (.ok (), st)
  | count + 1, n, st =>
    match read_micro_support inp n st with
    | (.ok _, st1) => read_micro_supports inp count (n + 1) st1
    | (.error msg, st1) => (.error msg, st1)

/-- Embedding of `Global::read_microfields_np_support` (lines 1669 to 1780) on
one supporting rank. The division by `nummicromat = 0` and an access past the
end of the layout are undefined in C++ and are errors here. -/
def read_microfields_np_support (inp : SupportInput) (st : MicroState) :
    Except String Unit × MicroState :=
  let st := st.log [.broadcast_nummicromat]
  if inp.nummicromat = 0 then (.error "division by zero", st)
  else
    match supgrouplayout inp.NumProc inp.nummicromat with
    | none => (.error "supgrouplayout written out of range", st)
    | some layout =>
      match support_color_loop inp.MyPID layout (-1) 0 with
      | none => (.error "supgrouplayout read out of range", st)
      | some color =>
        let st := st.log [.comm_split color inp.global_MyPID, .set_sub_comm,
          .broadcast_microcount inp.microcount]
        read_micro_supports inp inp.microcount 0 st

/-- The check of a trace: `none` when a `set_read_from_problem` is not followed
by `reset_read_from_problem` before the next material is taken up
(`Mat::factory`, `Problem::instance`); otherwise whether a reset is pending at
the end. -/
def pending_reset : Option Bool → MicroEvent → Option Bool
  | none, _ => none
  | some _, .set_read_from_problem _ => some true
  | some _, .reset_read_from_problem => some false
  | some pending, .mat_factory _ => if pending then none else some false
  | some pending, .problem_instance _ => if pending then none else some false
  | some pending, _ => some pending

/-- Every `set_read_from_problem` of the trace is followed by a
`reset_read_from_problem` before the next material is taken up and before the
end of the trace. -/
def resets_follow_sets (trace : List MicroEvent) : Bool :=
  trace.foldl pending_reset (some false) == some false

/-- The vector that `GatherAll` delivers when the ranks `k, k+1, ...` contribute
their `foundmicromatmyrank`: the rank itself where micro material was found,
-1 elsewhere. -/
def gathered_from (k : Nat) : List Bool → List Int
  | [] => []
  | found :: rest => (if found then (k : Int) else -1) :: gathered_from (k + 1) rest

/-- The colours of the ranks with micro material, in rank order, when `found`
tells for each rank whether it found micro material. -/
def participating_colors (MPI_UNDEFINED : Int) (found : List Bool) : List Int :=
  (List.range found.length).filterMap fun (r : Nat) =>
    if found[r]? = some true then
      some (elect_color MPI_UNDEFINED 1 (r : Int) (gathered_from 0 found))
    else none

/-- The registry reads from the macro problem, and in the trace every
`set_read_from_problem` has been followed by its reset. -/
def macro_slot_restored (st : MicroState) : Prop :=
  st.read_from_problem = 0 ∧ st.trace.foldl pending_reset (some false) = some false


/-- Example data: rank 2 of three local ranks in a structure problem with the
structural multiscale materials 1 and 3 on its elements; the ranks 0 and 2
found micro material. -/
def example_micro_input : MicroInput where
  id_struct := 1
  id_scatra := -1
  id_elch := -1
  discretizations := ["structure"]
  elements := [⟨⟨.m_struct_multiscale, 1⟩, ⟨.m_other, 0⟩⟩, ⟨⟨.m_other, 2⟩, ⟨.m_other, 0⟩⟩,
    ⟨⟨.m_struct_multiscale, 3⟩, ⟨.m_other, 0⟩⟩, ⟨⟨.m_struct_multiscale, 1⟩, ⟨.m_other, 0⟩⟩]
  MyPID := 2
  gather_all := fun _ => [0, -1, 2]
  MPI_UNDEFINED := -32766
  materials := [1, 2, 3]
  micro_dis_num := fun matid => matid
  micro_input_file_name := fun matid =>
    if matid = 1 then "micro.dat".toList else "/abs/micro3.dat".toList
  input_path := "/home/run".toList
  no_nested_parallelism := true
  restart := 0
  micro_reader_fails := fun _ => false
  read_parameter_fails := fun _ => false
  micro_reading_fails := fun _ => false

/-- Example data: supporting rank 1 of three supporting ranks for two ranks
with micro material; its group reads one micro problem. -/
def example_support_input : SupportInput where
  NumProc := 3
  MyPID := 1
  global_MyPID := 4
  nummicromat := 2
  microcount := 1
  microdisnum := fun _ => 1
  micro_inputfile_name := fun _ => "/home/run/micro.dat".toList
  restart := 0
  micro_reader_fails := fun _ => false
  read_parameter_fails := fun _ => false
  micro_reading_fails := fun _ => false

end Global

namespace Core.Conditions

/-- The geometry types that `read_conditions` switches on. The enumeration is
declared outside the sources at hand; `geometry_type_no_geom` stands for every
value other than the four named ones, all of which take the `default` branch. -/
inductive GeometryType
  | geometry_type_point
  | geometry_type_line
  | geometry_type_surface
  | geometry_type_volume
  | geometry_type_no_geom
  deriving DecidableEq, Repr

/-- A condition as far as `read_conditions` touches it: its id, its geometry
type and its nodal cloud. -/
structure Condition where
  id : Int
  g_type : GeometryType
  nodes : List Int
  deriving DecidableEq, Repr

/-- Member `Condition::set_nodes`. -/
def Condition.set_nodes (c : Condition) (nodes : List Int) : Condition :=
  { c with nodes := nodes }

/-- Member `Condition::copy_without_geometry`: the copy keeps id, type and
nodal cloud; the geometry it drops is not part of this model. -/
def Condition.copy_without_geometry (c : Condition) : Condition := c

/-- A condition definition: its section name, its description, and what
`condition->read(reader, cond)` puts into the multimap `cond`, in the order
in which the multimap is walked. -/
structure ConditionDefinition where
  name : String
  description : String
  read : List (Int × Condition)
  deriving DecidableEq, Repr

end Core.Conditions

namespace Core.FE

/-- A discretization as far as `read_conditions` touches it: the global node
ids held by each rank of its communicator, and the conditions set on it. -/
structure Discretization where
  name : String
  rank_nodes : List (List Int)
  conditions : List (String × Core.Conditions.Condition)
  deriving DecidableEq, Repr

/-- Member `Discretization::have_global_node` on rank `MyPID`. -/
def Discretization.have_global_node (dis : Discretization) (MyPID : Nat) (node : Int) : Bool :=
  decide (node ∈ dis.rank_nodes.getD MyPID [])

/-- Member `Discretization::set_condition`. -/
def Discretization.set_condition (dis : Discretization) (name : String)
    (cond : Core.Conditions.Condition) : Discretization :=
  { dis with conditions := dis.conditions ++ [(name, cond)] }

end Core.FE

namespace Global

open Core.Conditions Core.FE

/-- The node sets filled by the four `read_design` calls of `read_conditions`
(DNODE, DLINE, DSURF, DVOL); `read_design` itself is defined outside the
sources at hand. -/
structure DesignTopology where
  dnode_fenode : List (List Int)
  dline_fenode : List (List Int)
  dsurf_fenode : List (List Int)
  dvol_fenode : List (List Int)
  deriving DecidableEq, Repr

/-- The conversion `static_cast<unsigned>` of an `int`. -/
def static_cast_unsigned (i : Int) : Nat := (i % 2 ^ 32).toNat

/-- The message of the range check of `read_conditions` for the design object
kind `what` (DPoint, DLine, DSurface, DVolume). -/
def range_message (what : String) (first : Int) (size : Nat) : String :=
  what ++ " " ++ toString first ++ " not in range [0:" ++ toString size ++ "[\n" ++ what
    ++ " condition on non existent " ++ what ++ "?"

/-- One case of the switch in `read_conditions`: the range check
`curr->first < 0 or static_cast<unsigned>(curr->first) >= dX_fenode.size()`
followed by `dX_fenode[curr->first]`. -/
def design_nodes (what : String) (dX_fenode : List (List Int)) (first : Int) :
    Except String (List Int) :=
  if first < 0 ∨ static_cast_unsigned first ≥ dX_fenode.length then
    .error (range_message what first dX_fenode.length)
  else
    .ok (dX_fenode.getD first.toNat [])

/-- The switch over `curr->second->g_type()` in `read_conditions`. -/
def add_nodes (topology : DesignTopology) (first : Int) (cond : Condition) :
    Except String Condition :=
  match cond.g_type with
  | .geometry_type_point =>
    match design_nodes "DPoint" topology.dnode_fenode first with
    | .error e => .error e
    | .ok nodes => .ok (cond.set_nodes nodes)
  | .geometry_type_line =>
    match design_nodes "DLine" topology.dline_fenode first with
    | .error e => .error e
    | .ok nodes => .ok (cond.set_nodes nodes)
  | .geometry_type_surface =>
    match design_nodes "DSurface" topology.dsurf_fenode first with
    | .error e => .error e
    | .ok nodes => .ok (cond.set_nodes nodes)
  | .geometry_type_volume =>
    match design_nodes "DVolume" topology.dvol_fenode first with
    | .error e => .error e
    | .ok nodes => .ok (cond.set_nodes nodes)
  | .geometry_type_no_geom => .error "geometry type unspecified"

/-- The inner loop `for (int node : *nodes)` on one rank: `foundit` after the
loop, which stops at the first node the rank holds. -/
def foundit (dis : Discretization) (rank : Nat) : List Int → Int
  | [] => 0
  | node :: rest => if dis.have_global_node rank node then 1 else foundit dis rank rest

/-- The reduction `dis->get_comm().SumAll(&foundit, &found, 1)`: every rank of
the communicator walks the same condition. -/
def sum_all_foundit (dis : Discretization) (nodes : List Int) : Int :=
  ((List.range dis.rank_nodes.length).map fun rank => foundit dis rank nodes).sum

/-- The message of the nodal cloud check of `read_conditions`. -/
def no_nodal_cloud_message (description : String) (id : Int) : String :=
  description ++ " condition " ++ toString id ++ " has no nodal cloud"

/-- The loop over `problem.discretization_range()` for one condition. -/
def sort_into_discretizations (condition : ConditionDefinition) (cond : Condition) :
    List Discretization → Except String (List Discretization)
  | [] => .ok []
  | dis :: rest =>
    if cond.nodes.length = 0 then
      .error (no_nodal_cloud_message condition.description cond.id)
    else
      let dis := if sum_all_foundit dis cond.nodes ≠ 0 then
          dis.set_condition condition.name cond.copy_without_geometry
        else dis
      match sort_into_discretizations condition cond rest with
      | .error e => .error e
      | .ok rest => .ok (dis :: rest)

/-- The body of the loop over the multimap `cond` in `read_conditions`. -/
def read_condition (topology : DesignTopology) (condition : ConditionDefinition)
    (discretizations : List Discretization) (curr : Int × Condition) :
    Except String (List Discretization) :=
  match add_nodes topology curr.1 curr.2 with
  | .error e => .error e
  | .ok cond => sort_into_discretizations condition cond discretizations

/-- The loop over the multimap `cond` of one condition definition. -/
def read_condition_definition (topology : DesignTopology) (condition : ConditionDefinition) :
    List (Int × Condition) → List Discretization → Except String (List Discretization)
  | [], discretizations => .ok discretizations
  | curr :: rest, discretizations =>
    match read_condition topology condition discretizations curr with
    | .error e => .error e
    | .ok discretizations => read_condition_definition topology condition rest discretizations

/-- Function `Global::read_conditions`, given the node sets read by
`read_design` and the list of condition definitions with what each reads. -/
def read_conditions (topology : DesignTopology) :
    List ConditionDefinition → List Discretization → Except String (List Discretization)
  | [], discretizations => .ok discretizations
  | condition :: condlist, discretizations =>
    match read_condition_definition topology condition condition.read discretizations with
    | .error e => .error e
    | .ok discretizations => read_conditions topology condlist discretizations

/-- The list of design objects that belongs to a geometry type. -/
def design_objects (topology : DesignTopology) : GeometryType → Option (List (List Int))
  | .geometry_type_point => some topology.dnode_fenode
  | .geometry_type_line => some topology.dline_fenode
  | .geometry_type_surface => some topology.dsurf_fenode
  | .geometry_type_volume => some topology.dvol_fenode
  | .geometry_type_no_geom => none

/-- Example data: one design point without nodes, two design lines. -/
def example_topology : DesignTopology :=
  ⟨[[]], [[1, 2], [3]], [], []⟩

/-- Example data: a structure discretization on two ranks. -/
def example_discretization : Discretization :=
  ⟨"structure", [[1, 2], [2, 3]], []⟩

/-- Example data: a point condition on design point 0. -/
def example_point_condition : ConditionDefinition :=
  ⟨"Dirichlet", "Point Dirichlet", [(0, ⟨7, .geometry_type_point, []⟩)]⟩

/-- Example data: a line condition on design line 1. -/
def example_line_condition : ConditionDefinition :=
  ⟨"Dirichlet", "Line Dirichlet", [(1, ⟨8, .geometry_type_line, []⟩)]⟩

end Global

namespace Global

open Core.Utils Core.IO

/-- A material definition of `Input::valid_materials()` as far as
`read_materials` touches it: what `mat->read(reader)` returns, the ids of the
materials of this type found in the input, in order. The parameter data of a
material plays no part in the checks and is left out. -/
structure MaterialDefinition where
  name : String
  read : List Int
  deriving DecidableEq, Repr

/-- Member `id_exists` of the material registry, whose ids are kept in a list. -/
def id_exists (mmap : List Int) (id : Int) : Bool := decide (id ∈ mmap)

/-- The loop over `read_materials` (the vector returned by `mat->read`) in
`Global::read_materials`: an id that exists already aborts, every other id is
inserted. -/
def insert_materials : List Int → List Int → Except String (List Int)
  | [], mmap => .ok mmap
  | id :: rest, mmap =>
    if id_exists mmap id then
      .error ("More than one material with " ++ "\x27MAT " ++ toString id ++ "\x27")
    else insert_materials rest (mmap ++ [id])

/-- The loop over `matlist` in `Global::read_materials`. -/
def insert_all_materials : List MaterialDefinition → List Int → Except String (List Int)
  | [], mmap => .ok mmap
  | mat :: matlist, mmap =>
    match insert_materials mat.read mmap with
    | .error e => .error e
    | .ok mmap => insert_all_materials matlist mmap

/-- The loop that forces the construction of every material in the registry,
called with the ids in the order of the map; `construction_error` stands for
`Mat::make_parameter`, which is defined outside the sources at hand and may
throw. -/
def construct_materials (construction_error : Int → Option String) :
    List Int → Except String Unit
  | [] => .ok ()
  | id :: rest =>
    match construction_error id with
    | some e => .error e
    | none => construct_materials construction_error rest

/-- The extraction `stream >> word` into a `std::string`: leading whitespace is
skipped and the run of characters up to the next whitespace is taken; `none`
when the stream ends before a character was taken (the stream fails). The
second component is the rest of the stream. -/
def extract_word (stream : Str) : Option (Str × Str) :=
  let s := stream.dropWhile isspace
  if s = [] then none
  else some (s.takeWhile (fun c => !isspace c), s.dropWhile (fun c => !isspace c))

/-- The state after `(condline) >> mat >> number >> name`: the three strings,
which stay empty from the first failed extraction on, and whether the stream
has failed (`not(condline)`). -/
structure MaterialLine where
  mat : Str
  number : Str
  name : Str
  failed : Bool
  deriving DecidableEq, Repr

/-- The statement `(condline) >> mat >> number >> name`. -/
def extract_material_line (section_i : Str) : MaterialLine :=
  match extract_word section_i with
  | none => ⟨[], [], [], true⟩
  | some (mat, s1) =>
    match extract_word s1 with
    | none => ⟨mat, [], [], true⟩
    | some (number, s2) =>
      match extract_word s2 with
      | none => ⟨mat, number, [], true⟩
      | some (name, _) => ⟨mat, number, name, false⟩

/-- The value of a run of decimal digits. -/
def digits_value (digits : Str) : Nat :=
  digits.foldl (fun acc c => 10 * acc + (c.toNat - '0'.toNat)) 0

/-- The C function `strtol(s, &ptr, 10)` with a 64-bit `long`: leading
whitespace, an optional sign, then decimal digits; `none` when there is no
digit, in which case `ptr == s`; a value out of range is replaced by
`LONG_MAX` or `LONG_MIN`. -/
def strtol (s : Str) : Option Int :=
  let s := s.dropWhile isspace
  let signed : Bool × Str :=
    match s with
    | '-' :: rest => (true, rest)
    | '+' :: rest => (false, rest)
    | _ => (false, s)
  let digits := signed.2.takeWhile Char.isDigit
  if digits = [] then none
  else
    let value : Int := if signed.1 then -(digits_value digits : Int) else digits_value digits
    some (if value > 2 ^ 63 - 1 then 2 ^ 63 - 1 else if value < -2 ^ 63 then -2 ^ 63 else value)

/-- The conversion `static_cast<int>` of a `long`. -/
def static_cast_int (value : Int) : Int :=
  (value + 2 ^ 31) % 2 ^ 32 - 2 ^ 31

/-- The body of the loop "check if every material was identified" in
`Global::read_materials` for one line of the section. -/
def check_material_line (mmap : List Int) (section_i : Str) : Except String Unit :=
  let condline := extract_material_line section_i
  if condline.failed ∨ condline.mat ≠ "MAT".toList then
    .error ("invalid material line in " ++ "\x27" ++ String.mk condline.name ++ "\x27")
  else
    match strtol condline.number with
    | none =>
      .error ("failed to read material object number " ++ "\x27" ++ String.mk condline.number
        ++ "\x27")
    | some value =>
      let matid := static_cast_int value
      if id_exists mmap matid then .ok ()
      else
        .error ("Material " ++ "\x27MAT " ++ toString matid ++ "\x27 with name \x27"
          ++ String.mk condline.name ++ "\x27 could not be identified")

/-- The loop "check if every material was identified". -/
def check_material_lines (mmap : List Int) : List Str → Except String Unit
  | [] => .ok ()
  | section_i :: rest =>
    match check_material_line mmap section_i with
    | .error e => .error e
    | .ok _ => check_material_lines mmap rest

/-- Function `Global::read_materials`: the registry after the call, or the
message of the abort. `mmap` is the registry on entry. -/
def read_materials (strip : Str → Str) (fs : FileSystem) (reader : DatFileReader)
    (matlist : List MaterialDefinition) (construction_error : Int → Option String)
    (mmap : List Int) : Except String (List Int) :=
  match insert_all_materials matlist mmap with
  | .error e => .error e
  | .ok mmap =>
    match construct_materials construction_error (mmap.insertionSort (fun a b => a ≤ b)) with
    | .error e => .error e
    | .ok _ =>
      match check_material_lines mmap (reader.lines_in_section strip fs "--MATERIALS").1 with
      | .error e => .error e
      | .ok _ => .ok mmap

/-- Example data: a reader whose section `--MATERIALS` holds two materials. -/
def reader_with_materials : DatFileReader where
  top_level_file_ := "deck.dat"
  outflag_ := 0
  lines_ := ["--MATERIALS".toList, "MAT 1 MAT_ElastHyper NUMMAT 1 MATIDS 2".toList,
    "MAT 2 ELAST_CoupNeoHooke YOUNG 1.0".toList]
  excludepositions_ := fun _ => none
  positions_ := fun k => if k = "--MATERIALS" then some (1, 3) else none
  knownsections_ := fun _ => none

/-- Example data: the material definitions that read the two materials. -/
def example_matlist : List MaterialDefinition :=
  [⟨"MAT_ElastHyper", [1]⟩, ⟨"MAT_Struct_StVenantKirchhoff", []⟩, ⟨"ELAST_CoupNeoHooke", [2]⟩]

end Global

namespace PaSI

/-- An interface vector (`Core::LinAlg::Vector<double>`); the entries are
rational numbers, which stand for the values of the doubles. -/
abbrev Vector := List ℚ

/-- Method `Update(a, A, b)` of the vector class: `this = a * A + b * this`,
entry by entry. -/
def Vector.Update (a : ℚ) (A : Vector) (b : ℚ) (this : Vector) : Vector :=
  List.zipWith (fun x y => a * x + b * y) A this

/-- The difference `x - y`, entry by entry. -/
def Vector.sub (x y : Vector) : Vector :=
  List.zipWith (fun a b => a - b) x y

/-- The members of `PasiPartTwoWayCoup` that the outer loop and its
convergence check read: the iteration limit, the four tolerances and the flag
that lets a run proceed without convergence. -/
structure PasiPartTwoWayCoup where
  itmax_ : Int
  convtolrelativedisp_ : ℚ
  convtolscaleddisp_ : ℚ
  convtolrelativeforce_ : ℚ
  convtolscaledforce_ : ℚ
  ignoreconvcheck_ : Bool
  deriving DecidableEq

/-- The four norms that `convergence_check` compares with the tolerances: the
relative and the dof and time step scaled norm of the interface displacement
increment and of the interface force increment. -/
structure IncrementNorms where
  relativedisp : ℚ
  scaleddisp : ℚ
  relativeforce : ℚ
  scaledforce : ℚ
  deriving DecidableEq

/-- Modelled from the spec: the test "all four configured tolerances are
satisfied" of `PasiPartTwoWayCoup::convergence_check`, whose body is not part
of the sources (only its declaration in 4C_pasi_partitioned_twowaycoup.hpp). -/
def PasiPartTwoWayCoup.tolerances_satisfied (algo : PasiPartTwoWayCoup)
    (norms : IncrementNorms) : Bool :=
  decide (norms.relativedisp ≤ algo.convtolrelativedisp_)
    && decide (norms.scaleddisp ≤ algo.convtolscaleddisp_)
    && decide (norms.relativeforce ≤ algo.convtolrelativeforce_)
    && decide (norms.scaledforce ≤ algo.convtolscaledforce_)

/-- Modelled from the spec: `PasiPartTwoWayCoup::convergence_check(itnum)`,
whose body is not part of the sources; it "returns converged iff all four
configured tolerances are satisfied, or iff itnum ≥ itmax_ and the ignore
convergence check escape flag is set". -/
def PasiPartTwoWayCoup.convergence_check (algo : PasiPartTwoWayCoup)
    (norms : IncrementNorms) (itnum : Int) : Bool :=
  algo.tolerances_satisfied norms || (decide (itnum ≥ algo.itmax_) && algo.ignoreconvcheck_)

/-- How a run of the outer loop ends: it returns to the time loop after
`itnum` iterations, or it aborts in iteration `itnum`. -/
inductive OuterLoopEnd where
  | returns (itnum : Int)
  | aborts (itnum : Int)
  deriving DecidableEq, Repr

/-- Modelled from the spec: the iterations of `PasiPartTwoWayCoup::outerloop`
after iteration `itnum`; the body of the function is not part of the sources.
Each iteration solves the two fields, builds the increments, whose norms in
iteration `k` are `norms k`, and runs `convergence_check`; the loop ends when
the check returns converged, and it is "fatally aborting only if itnum exceeds
itmax_ without the escape flag set". `none` when `fuel` iterations did not end
the loop. -/
def PasiPartTwoWayCoup.outerloop_from (algo : PasiPartTwoWayCoup) (norms : Int → IncrementNorms) :
    Nat → Int → Option OuterLoopEnd
  | 0, _ => none
  | fuel + 1, itnum =>
    let itnum := itnum + 1
    if algo.convergence_check (norms itnum) itnum then some (.returns itnum)
    else if itnum > algo.itmax_ ∧ algo.ignoreconvcheck_ = false then some (.aborts itnum)
    else algo.outerloop_from norms fuel itnum

/-- Modelled from the spec: `PasiPartTwoWayCoup::outerloop`, see
`outerloop_from`; the iteration counter starts at zero and `itmax_ + 1`
iterations end every run. -/
def PasiPartTwoWayCoup.outerloop (algo : PasiPartTwoWayCoup) (norms : Int → IncrementNorms) :
    Option OuterLoopEnd :=
  algo.outerloop_from norms (algo.itmax_.toNat + 1) 0

/-- The interface states of `PasiPartTwoWayCoup`: the interface displacement
and force and their increments of the outer loop. -/
structure InterfaceStates where
  intfdispnp_ : Vector
  intfforcenp_ : Vector
  intfdispincnp_ : Vector
  intfforceincnp_ : Vector
  deriving DecidableEq

/-- Modelled from the spec: `PasiPartTwoWayCoup::reset_increment_states`, whose
body is not part of the sources; by its declaration it resets "the interface
displacement increment and the interface force increment states to the
interface displacement and the interface force" handed in. -/
def InterfaceStates.reset_increment_states (st : InterfaceStates)
    (intfdispnp intfforcenp : Vector) : InterfaceStates :=
  { st with
    intfdispincnp_ := Vector.Update 1 intfdispnp 0 st.intfdispincnp_
    intfforceincnp_ := Vector.Update 1 intfforcenp 0 st.intfforceincnp_ }

/-- Modelled from the spec: `PasiPartTwoWayCoup::build_increment_states`, whose
body is not part of the sources; it finalizes the increments, "increments =
new − old interface state", the old state being what the reset left in them. -/
def InterfaceStates.build_increment_states (st : InterfaceStates) : InterfaceStates :=
  { st with
    intfdispincnp_ := Vector.Update 1 st.intfdispnp_ (-1) st.intfdispincnp_
    intfforceincnp_ := Vector.Update 1 st.intfforcenp_ (-1) st.intfforceincnp_ }

/-- Modelled from the spec: the solves of the structure and of the particle
field between the reset and the build of the increments; they leave new
interface states and do not touch the increments. -/
def InterfaceStates.solve_fields (st : InterfaceStates) (intfdispnp intfforcenp : Vector) :
    InterfaceStates :=
  { st with intfdispnp_ := intfdispnp, intfforcenp_ := intfforcenp }

/-- Example data: the limit of two iterations, all tolerances 1/100, the
escape flag as given. -/
def example_algo (ignoreconvcheck : Bool) : PasiPartTwoWayCoup :=
  ⟨2, 1 / 100, 1 / 100, 1 / 100, 1 / 100, ignoreconvcheck⟩

/-- Example data: increments ten times above the tolerances of `example_algo`
in every iteration. -/
def example_norms_above : Int → IncrementNorms :=
  fun _ => ⟨1 / 10, 1 / 10, 1 / 10, 1 / 10⟩

/-- Example data: increments below the tolerances of `example_algo`. -/
def example_norms_below : IncrementNorms :=
  ⟨1 / 1000, 1 / 1000, 1 / 1000, 1 / 1000⟩

end PaSI

namespace Mat.PAR

/-- Modelled from the spec: the class `Mat::PAR::InelasticDeformationDirection`,
which is not part of the sources (only its unit test is): it holds the growth
direction matrix of a growth direction vector. The entries are rational
numbers, which stand for the values of the doubles. -/
structure InelasticDeformationDirection where
  growth_dir_mat_ : Matrix (Fin 3) (Fin 3) ℚ

/-- Modelled from the spec: the constructor
`InelasticDeformationDirection(growthdirection)`, which is not part of the
sources: the growth direction matrix is the outer product of the growth
direction with itself, divided by its squared length. -/
def InelasticDeformationDirection.create (growthdirection : Fin 3 → ℚ) :
    InelasticDeformationDirection :=
  ⟨fun i j => growthdirection i * growthdirection j
    / (growthdirection 0 * growthdirection 0 + growthdirection 1 * growthdirection 1
      + growthdirection 2 * growthdirection 2)⟩

end Mat.PAR

namespace Core.IO

end Core.IO

namespace Global

/-- The broadcasts on the sub-communicator that `read_micro_fields` sends and
`read_microfields_np_support` receives. -/
inductive SubBroadcast where
  | microcount
  | microdisnum
  | length
  | name
  | restart_step
  deriving DecidableEq, Repr

/-- The broadcast on the sub-communicator that a call is, if it is one. -/
def sub_broadcast_of : MicroEvent → Option SubBroadcast
  | .broadcast_microcount _ => some .microcount
  | .broadcast_microdisnum _ => some .microdisnum
  | .broadcast_length _ => some .length
  | .broadcast_name _ => some .name
  | .broadcast_restart_step _ => some .restart_step
  | _ => none

/-- The broadcasts on the sub-communicator among the calls of a trace, in the
order of the calls. -/
def sub_broadcasts (trace : List MicroEvent) : List SubBroadcast :=
  trace.filterMap sub_broadcast_of

/-- The number of micro problems read in a trace (readings of the materials,
mesh and conditions of a micro problem). -/
def read_cycles (trace : List MicroEvent) : Nat :=
  trace.countP fun e =>
    match e with
    | .read_micro_problem _ => true
    | _ => false

/-- The broadcasts of one micro problem, in the order in which both functions
issue them: number of the micro discretization, length of the file name, file
name, restart step. -/
def cycle_broadcasts : List SubBroadcast :=
  [.microdisnum, .length, .name, .restart_step]

end Global

namespace Core.LinearSolver

/-- The preconditioner classes that `create_preconditioner` instantiates. -/
inductive Preconditioner where
  | IFPACKPreconditioner
  | MueLuPreconditioner
  | MueLuContactSpPreconditioner
  | TekoPreconditioner
  | AmGnxnPreconditioner
  | KrylovProjectionPreconditioner (preconditioner : Preconditioner)
  deriving DecidableEq, Repr

/-- The members of `IterativeSolver` on one rank as far as `setup`,
`allow_reuse_preconditioner` and `create_preconditioner` touch them. -/
structure IterativeSolver where
  /-- The names of the sublists of `params()`. -/
  sublists : List String
  /-- The entry "reuse preconditioner" of the sublist "Belos Parameters", if set. -/
  reuse_preconditioner : Option Bool
  /-- The entry "reuse" of the sublist "Belos Parameters", if set. -/
  reuse : Option Int
  /-- The counter `ncall_` of the calls of `solve` since the preconditioner was created. -/
  ncall_ : Int
  /-- The member `preconditioner_`; `none` while it is `Teuchos::null`. -/
  preconditioner_ : Option Preconditioner
  /-- The number of calls of `create_preconditioner` made so far. -/
  created : Nat
  deriving DecidableEq, Repr

/-- The operator `%` on `int`: it has no defined result for a zero divisor and
for `INT_MIN % -1`. -/
def c_rem (a b : Int) : Option Int :=
  if b = 0 ∨ (a = -2 ^ 31 ∧ b = -1) then none else some (Int.tmod a b)

/-- The local flag
`create = reset or not ncall() or not reuse or (ncall() % reuse) == 0` of
`allow_reuse_preconditioner`, with the operands evaluated from left to right
as far as needed; `none` when the remainder is evaluated without a defined
result. -/
def IterativeSolver.create (s : IterativeSolver) (reuse : Int) (reset : Bool) : Option Bool :=
  if reset then some true
  else if s.ncall_ = 0 then some true
  else if reuse = 0 then some true
  else (c_rem s.ncall_ reuse).map fun r => decide (r = 0)

/-- The local decision `lAllowReuse` of `allow_reuse_preconditioner` on one
rank: 1 when the preconditioner may be reused, else 0. -/
def IterativeSolver.lAllowReuse (s : IterativeSolver) (reuse : Int) (reset : Bool) :
    Option Int :=
  (s.create reuse reset).map fun create =>
    let bAllowReuse := if create then false else s.reuse_preconditioner.getD true
    if bAllowReuse = true then 1 else 0

/-- The local decisions of all ranks of the communicator, each rank with its
arguments `reuse` and `reset`. -/
def local_decisions : List (IterativeSolver × Int × Bool) → Option (List Int)
  | [] => some []
  | r :: rest =>
    match r.1.lAllowReuse r.2.1 r.2.2, local_decisions rest with
    | some l, some ls => some (l :: ls)
    | _, _ => none

/-- Function `IterativeSolver::allow_reuse_preconditioner(reuse, reset)`,
called on all ranks of the communicator: `SumAll` adds the local decisions and
every rank returns whether the sum is the number of ranks. -/
def allow_reuse_preconditioner (ranks : List (IterativeSolver × Int × Bool)) : Option Bool :=
  (local_decisions ranks).map fun ls =>
    let nProc : Int := ranks.length
    let gAllowReuse := ls.sum
    decide (gAllowReuse = nProc)

/-- Function `IterativeSolver::create_preconditioner`: the class is chosen by
the first of the five sublists that exists, and wrapped when a projector is
given. -/
def IterativeSolver.create_preconditioner (s : IterativeSolver) (projector : Bool) :
    Except String Preconditioner :=
  let chosen : Except String Preconditioner :=
    if "IFPACK Parameters" ∈ s.sublists then .ok .IFPACKPreconditioner
    else if "MueLu Parameters" ∈ s.sublists then .ok .MueLuPreconditioner
    else if "MueLu (Contact) Parameters" ∈ s.sublists then .ok .MueLuContactSpPreconditioner
    else if "Teko Parameters" ∈ s.sublists then .ok .TekoPreconditioner
    else if "AMGnxn Parameters" ∈ s.sublists then .ok .AmGnxnPreconditioner
    else .error "Unknown preconditioner chosen for iterative linear solver."
  match chosen with
  | .error e => .error e
  | .ok preconditioner =>
    if projector then .ok (.KrylovProjectionPreconditioner preconditioner)
    else .ok preconditioner

/-- The part of `IterativeSolver::setup` on one rank after the collective
decision `allow` (the value of `allow_reuse_preconditioner`) is known: when a
preconditioner is to be created, `ncall_` is reset and `create_preconditioner`
is called; then `preconditioner_->setup` is called, which needs a
preconditioner. -/
def IterativeSolver.setup_after (s : IterativeSolver) (allow : Bool) (projector : Bool) :
    Except String IterativeSolver :=
  let create := !allow
  let created : Except String IterativeSolver :=
    if create then
      match { s with ncall_ := 0 }.create_preconditioner projector with
      | .error e => .error e
      | .ok preconditioner =>
        .ok { s with ncall_ := 0, preconditioner_ := some preconditioner,
                     created := s.created + 1 }
    else .ok s
  match created with
  | .error e => .error e
  | .ok s =>
    match s.preconditioner_ with
    | none => .error "preconditioner_ is null"
    | some _ => .ok s

/-- The setups of the ranks `rest`, given the collective decision. -/
def setup_ranks (allow projector : Bool) : List IterativeSolver →
    Except String (List IterativeSolver)
  | [] => .ok []
  | s :: rest =>
    match s.setup_after allow projector, setup_ranks allow projector rest with
    | .ok s1, .ok rest1 => .ok (s1 :: rest1)
    | .error e, _ => .error e
    | _, .error e => .error e

/-- Function `IterativeSolver::setup`, called on all ranks of the communicator,
each rank with its flag `reset`: the new states of the ranks, or the message of
a fatal error. -/
def setup (ranks : List (IterativeSolver × Bool)) (projector : Bool) :
    Except String (List IterativeSolver) :=
  if ∃ r ∈ ranks, "Belos Parameters" ∉ r.1.sublists then
    .error "Do not have belos parameter list"
  else
    match allow_reuse_preconditioner (ranks.map fun r => (r.1, r.1.reuse.getD 0, r.2)) with
    | none => .error "remainder without defined result"
    | some allow => setup_ranks allow projector (ranks.map fun r => r.1)

/-- The condition under which a rank lets the preconditioner be reused. -/
def IterativeSolver.wants_reuse (s : IterativeSolver) (reuse : Int) (reset : Bool) : Prop :=
  s.reuse_preconditioner.getD true = true ∧ reset = false ∧ s.ncall_ ≠ 0 ∧ reuse ≠ 0
    ∧ Int.tmod s.ncall_ reuse ≠ 0

/-- Example data: a solver after three calls of `solve`, with `reuse` set to 5. -/
def example_solver : IterativeSolver :=
  ⟨["Belos Parameters", "IFPACK Parameters"], none, some 5, 3, some .IFPACKPreconditioner, 1⟩

/-- Example data: a solver after five calls of `solve`, with `reuse` set to 5. -/
def example_solver_due : IterativeSolver :=
  ⟨["Belos Parameters", "IFPACK Parameters"], none, some 5, 5, some .IFPACKPreconditioner, 1⟩

end Core.LinearSolver

namespace Global

end Global

namespace Global

/-- The ids on which the loop that forces the construction of the materials
calls `mat.get()`: every id of the walk up to and including one whose
construction throws. -/
def forced_materials (construction_error : Int → Option String) : List Int → List Int
  | [] => []
  | id :: rest =>
    match construction_error id with
    | some _ => [id]
    | none => id :: forced_materials construction_error rest

end Global

namespace Core.Communication

/-- The content of a `PackBuffer` or `UnpackBuffer`: the sequence of values
written, one entry for a value of a basic type. -/
abbrev PackBuffer := List Int

/-- Modelled from the spec: the class `PackBuffer::SizeMarker`, which is not
part of the sources: what is written while the marker lives is preceded by its
size, the format that `extract_from_pack` reads into a `std::vector<char>`, as
`unpack` does for the data of the base class. -/
def size_marker (object : PackBuffer) : PackBuffer :=
  (object.length : Int) :: object

/-- The function `extract_int`; `none` when the buffer is exhausted. -/
def extract_int : PackBuffer → Option (Int × PackBuffer)
  | [] => none
  | value :: rest => some (value, rest)

/-- The function `extract_from_pack` for a `bool`. -/
def extract_bool (buffer : PackBuffer) : Option (Bool × PackBuffer) :=
  (extract_int buffer).map fun r => (decide (r.1 ≠ 0), r.2)

/-- The function `extract_from_pack` for a `std::vector<char>`: the size and
then as many entries; `none` when the buffer holds fewer. -/
def extract_vector : PackBuffer → Option (PackBuffer × PackBuffer)
  | [] => none
  | size :: rest =>
    if 0 ≤ size ∧ size.toNat ≤ rest.length then
      some (rest.take size.toNat, rest.drop size.toNat)
    else none

end Core.Communication

namespace Discret.Elements

open Core.Communication

/-- The data of a `SolidPoroPressureBased` element that `pack` writes: the data
of the base class `Core::Elements::Element`, the cell type (as its `int`
value), the solid element properties, the implementation type of the poro
element properties (as its `int` value), the flag `material_post_setup_`, and
the two calculation variants. The types of the base class data, of the
properties and of the variants are declared outside the sources at hand. -/
structure SolidPoroPressureBased (Element Properties SolidCalc PoroCalc : Type) where
  element : Element
  celltype_ : Int
  solid_ele_property_ : Properties
  impltype : Int
  material_post_setup_ : Bool
  solid_calc_variant_ : SolidCalc
  solidporo_press_based_calc_variant_ : PoroCalc

/-- The functions that `pack` and `unpack` call and that are defined outside
the sources at hand: the id of the element type, `pack` and `unpack` of the
base class, `add_to_pack` and `extract_from_pack` for the solid element
properties, the creation of the two calculation variants, and `pack` and
`unpack` of their data. -/
structure PackFunctions (Element Properties SolidCalc PoroCalc : Type) where
  unique_par_object_id : Int
  /-- What `Core::Elements::Element::pack(data)` adds to the buffer. -/
  element_pack : Element → PackBuffer
  /-- The call `Core::Elements::Element::unpack(base_buffer)`. -/
  element_unpack : Element → PackBuffer → Except String Element
  add_to_pack_properties : Properties → PackBuffer
  extract_properties : PackBuffer → Option (Properties × PackBuffer)
  create_solid_calculation_interface : Int → Properties → Except String SolidCalc
  create_solid_poro_pressure_based_calculation_interface : Int → Except String PoroCalc
  pack_solid : SolidCalc → PackBuffer
  unpack_solid : SolidCalc → PackBuffer → Option (SolidCalc × PackBuffer)
  pack_poro : PoroCalc → PackBuffer
  unpack_poro : PoroCalc → PackBuffer → Option (PoroCalc × PackBuffer)

/-- What `SolidPoroPressureBased::pack` writes while its size marker lives, in
the order of the statements. -/
def object_data {Element Properties SolidCalc PoroCalc : Type}
    (f : PackFunctions Element Properties SolidCalc PoroCalc)
    (e : SolidPoroPressureBased Element Properties SolidCalc PoroCalc) : PackBuffer :=
  [f.unique_par_object_id] ++ f.element_pack e.element ++ [e.celltype_]
    ++ f.add_to_pack_properties e.solid_ele_property_ ++ [e.impltype]
    ++ [if e.material_post_setup_ then 1 else 0]
    ++ f.pack_solid e.solid_calc_variant_
    ++ f.pack_poro e.solidporo_press_based_calc_variant_

/-- Function `SolidPoroPressureBased::pack`: the buffer after the call on an
empty buffer. -/
def pack {Element Properties SolidCalc PoroCalc : Type}
    (f : PackFunctions Element Properties SolidCalc PoroCalc)
    (e : SolidPoroPressureBased Element Properties SolidCalc PoroCalc) : PackBuffer :=
  size_marker (object_data f e)

/-- Function `SolidPoroPressureBased::unpack` on the element `e`: the element
after the call, or the message of the fatal error. An extraction from an
exhausted buffer is an error. -/
def unpack {Element Properties SolidCalc PoroCalc : Type}
    (f : PackFunctions Element Properties SolidCalc PoroCalc)
    (e : SolidPoroPressureBased Element Properties SolidCalc PoroCalc) (buffer : PackBuffer) :
    Except String (SolidPoroPressureBased Element Properties SolidCalc PoroCalc) :=
  match extract_int buffer with
  | none => .error "buffer exhausted"
  | some (id, buffer) =>
    if id ≠ f.unique_par_object_id then .error "wrong instance type data"
    else
      match extract_vector buffer with
      | none => .error "buffer exhausted"
      | some (basedata, buffer) =>
        match f.element_unpack e.element basedata with
        | .error msg => .error msg
        | .ok element =>
          match extract_int buffer with
          | none => .error "buffer exhausted"
          | some (celltype_, buffer) =>
            match f.extract_properties buffer with
            | none => .error "buffer exhausted"
            | some (solid_ele_property_, buffer) =>
              match extract_int buffer with
              | none => .error "buffer exhausted"
              | some (impltype, buffer) =>
                match extract_bool buffer with
                | none => .error "buffer exhausted"
                | some (material_post_setup_, buffer) =>
                  match f.create_solid_calculation_interface celltype_ solid_ele_property_ with
                  | .error msg => .error msg
                  | .ok solid_calc_variant_ =>
                    match f.create_solid_poro_pressure_based_calculation_interface
                        celltype_ with
                    | .error msg => .error msg
                    | .ok solidporo_press_based_calc_variant_ =>
                      match f.unpack_solid solid_calc_variant_ buffer with
                      | none => .error "buffer exhausted"
                      | some (solid_calc_variant_, buffer) =>
                        match f.unpack_poro solidporo_press_based_calc_variant_ buffer with
                        | none => .error "buffer exhausted"
                        | some (solidporo_press_based_calc_variant_, buffer) =>
                          if buffer = [] then
                            .ok ⟨element, celltype_, solid_ele_property_, impltype,
                              material_post_setup_, solid_calc_variant_,
                              solidporo_press_based_calc_variant_⟩
                          else .error "Buffer not fully consumed."

/-- Example data: functions for elements whose base class data is a list of
values, whose properties are one value (the kinematic type), whose solid
calculation data is one value and whose poro calculation has no data. -/
def example_functions : PackFunctions (List Int) Int Int Unit where
  unique_par_object_id := 42
  element_pack := fun element => size_marker element
  element_unpack := fun _ basedata => .ok basedata
  add_to_pack_properties := fun kintype => [kintype]
  extract_properties := extract_int
  create_solid_calculation_interface := fun _ _ => .ok 0
  create_solid_poro_pressure_based_calculation_interface := fun _ => .ok ()
  pack_solid := fun data => [data]
  unpack_solid := fun _ buffer => extract_int buffer
  pack_poro := fun _ => []
  unpack_poro := fun _ buffer => some ((), buffer)

/-- Example data: an element with id 7 and owner 0 in its base class data. -/
def example_element : SolidPoroPressureBased (List Int) Int Int Unit :=
  ⟨[7, 0], 12, 1, 3, true, 5, ()⟩

/-- Example data: the element `SolidPoroPressureBased(-1, -1)`. -/
def example_fresh_element : SolidPoroPressureBased (List Int) Int Int Unit :=
  ⟨[-1, -1], 0, 0, 0, false, 0, ()⟩

end Discret.Elements

/-! ## Theorems -/

open Core Core.FE Core.Utils Core.IO Global

/-! ### Lists and whitespace -/

theorem dropWhile_eq_self_of_head {α : Type} (p : α → Bool) (l : List α)
    (h : ∀ c, l.head? = some c → p c = false) : l.dropWhile p = l := by
  cases l with
  | nil => rfl
  | cons c t => simp [List.dropWhile, h c rfl]

theorem trim_eq_self (s : Str) (hh : ∀ c, s.head? = some c → isspace c = false)
    (hl : ∀ c, s.getLast? = some c → isspace c = false) : trim s = s := by
  unfold trim
  rw [dropWhile_eq_self_of_head isspace s hh,
    dropWhile_eq_self_of_head isspace s.reverse (by simpa using hl), List.reverse_reverse]

theorem trim_eq_self_of_no_space (s : Str) (h : ∀ c ∈ s, isspace c = false) : trim s = s := by
  apply trim_eq_self
  · intro c hc
    exact h c (List.mem_of_mem_head? hc)
  · intro c hc
    exact h c (List.mem_of_mem_getLast? hc)

theorem before_comment_cons_cons (c d : Char) (rest : Str) :
    before_comment (c :: d :: rest)
      = if c == '/' && d == '/' then [] else c :: before_comment (d :: rest) := by
  rw [before_comment]

theorem strip_comment_header_ne_nil (raw : Str) (h : is_section_header raw = true) :
    strip_comment raw ≠ [] := by
  cases raw with
  | nil => simp [is_section_header] at h
  | cons c raw2 =>
    cases raw2 with
    | nil => simp [is_section_header] at h
    | cons d rest =>
      have hcd : c = '-' ∧ d = '-' := by
        simpa [is_section_header] using h
      obtain ⟨rfl, rfl⟩ := hcd
      have ht : before_comment ('-' :: '-' :: rest) = '-' :: before_comment ('-' :: rest) := by
        rw [before_comment_cons_cons]
        rfl
      unfold strip_comment trim
      rw [ht]
      have hd : List.dropWhile isspace ('-' :: before_comment ('-' :: rest))
          = '-' :: before_comment ('-' :: rest) := by
        simp [List.dropWhile, isspace]
      rw [hd]
      intro hnil
      have hnil2 : List.dropWhile isspace ('-' :: before_comment ('-' :: rest)).reverse = [] := by
        simpa using hnil
      rw [List.dropWhile_eq_nil_iff] at hnil2
      have := hnil2 '-' (by simp)
      simp [isspace] at this

theorem split_at_equals_cons (a e b : Char) (tail : Str) :
    split_at_equals (a :: e :: b :: tail) =
      if isspace a && e == '=' && isspace b then some ([a], b :: tail)
      else (split_at_equals (e :: b :: tail)).map fun kv => (a :: kv.1, kv.2) := by
  rw [split_at_equals]

theorem split_at_equals_eq_none (line : Str)
    (h : ∀ pre a b post, line = pre ++ a :: '=' :: b :: post → ¬(isspace a = true ∧ isspace b = true)) :
    split_at_equals line = none := by
  induction line with
  | nil => rfl
  | cons a rest ih =>
    cases rest with
    | nil => rfl
    | cons e rest2 =>
      cases rest2 with
      | nil => rfl
      | cons b tail =>
        have ih2 : split_at_equals (e :: b :: tail) = none := by
          apply ih
          intro pre a2 b2 post hpre
          exact h (a :: pre) a2 b2 post (by simp [hpre])
        by_cases hc : (isspace a && e == '=' && isspace b) = true
        · exfalso
          simp only [Bool.and_eq_true, beq_iff_eq] at hc
          obtain ⟨⟨ha, he⟩, hb⟩ := hc
          exact h [] a b tail (by simp [he]) ⟨ha, hb⟩
        · rw [split_at_equals_cons, if_neg hc, ih2]
          rfl

theorem split_at_equals_none_iff {line : Str} :
    split_at_equals line = none ↔
      ∀ pre a b post, line = pre ++ a :: '=' :: b :: post →
        ¬(isspace a = true ∧ isspace b = true) := by
  constructor
  · intro h pre
    induction pre generalizing line with
    | nil =>
      intro a b post hl hab
      subst hl
      rw [List.nil_append, split_at_equals_cons] at h
      simp [hab.1, hab.2] at h
    | cons c pre ih =>
      intro a b post hl hab
      subst hl
      cases pre with
      | nil =>
        rw [List.cons_append, List.nil_append, split_at_equals_cons] at h
        split at h
        · simp at h
        · simp only [Option.map_eq_none'] at h
          exact ih h a b post rfl hab
      | cons d pre2 =>
        cases pre2 with
        | nil =>
          rw [List.cons_append, List.cons_append, List.nil_append, split_at_equals_cons] at h
          split at h
          · simp at h
          · simp only [Option.map_eq_none'] at h
            exact ih h a b post rfl hab
        | cons d2 pre3 =>
          rw [List.cons_append, List.cons_append, List.cons_append, split_at_equals_cons] at h
          split at h
          · simp at h
          · simp only [Option.map_eq_none'] at h
            exact ih h a b post rfl hab
  · exact split_at_equals_eq_none line

theorem split_at_whitespace_append (K W V : Str) (hK : ∀ c ∈ K, isspace c = false)
    (hW : W ≠ []) (hWs : ∀ c ∈ W, isspace c = true)
    (hVh : ∀ c, V.head? = some c → isspace c = false) :
    split_at_whitespace (K ++ W ++ V) = some (K, V) := by
  obtain ⟨w, W2, rfl⟩ := List.exists_cons_of_ne_nil hW
  have hw : isspace w = true := hWs w (by simp)
  have hW2 : ∀ c ∈ W2, isspace c = true := fun c hc => hWs c (by simp [hc])
  have h1 : List.takeWhile (fun c => !isspace c) (K ++ (w :: W2) ++ V) = K := by
    rw [List.append_assoc, List.takeWhile_append_of_pos (by simpa using hK)]
    simp [List.takeWhile, hw]
  have h2 : List.dropWhile (fun c => !isspace c) (K ++ (w :: W2) ++ V) = (w :: W2) ++ V := by
    rw [List.append_assoc, List.dropWhile_append_of_pos (by simpa using hK)]
    simp [List.dropWhile, hw]
  have h3 : List.dropWhile isspace ((w :: W2) ++ V) = V := by
    rw [List.dropWhile_append_of_pos (by simpa [hw] using hW2)]
    exact dropWhile_eq_self_of_head isspace V hVh
  unfold split_at_whitespace
  simp only [h1, h2, h3]
  rfl

theorem split_at_whitespace_eq_none (line : Str) (h : ∀ c ∈ line, isspace c = false) :
    split_at_whitespace line = none := by
  have h2 : List.dropWhile (fun c => !isspace c) line = [] := by
    rw [List.dropWhile_eq_nil_iff]
    simpa using h
  unfold split_at_whitespace
  simp [h2]

/-! ### The section queries of the reader -/

/-- C2: two successive calls of `lines_in_section(S)` yield the same sequence,
`S` is recorded as used after the first call, the second call leaves the record
of used sections as the first call left it, and neither call changes the line
data or the two section indexes. -/
theorem lines_in_section_twice (strip : Str → Str) (fs : FileSystem) (r : DatFileReader)
    (S : String) :
    (((r.lines_in_section strip fs S).2).lines_in_section strip fs S).1
        = (r.lines_in_section strip fs S).1
      ∧ (r.lines_in_section strip fs S).2.knownsections_ S = some true
      ∧ (((r.lines_in_section strip fs S).2).lines_in_section strip fs S).2.knownsections_
          = (r.lines_in_section strip fs S).2.knownsections_
      ∧ (r.lines_in_section strip fs S).2.lines_ = r.lines_
      ∧ (r.lines_in_section strip fs S).2.positions_ = r.positions_
      ∧ (r.lines_in_section strip fs S).2.excludepositions_ = r.excludepositions_
      ∧ (((r.lines_in_section strip fs S).2).lines_in_section strip fs S).2.lines_ = r.lines_
      ∧ (((r.lines_in_section strip fs S).2).lines_in_section strip fs S).2.positions_
          = r.positions_
      ∧ (((r.lines_in_section strip fs S).2).lines_in_section strip fs S).2.excludepositions_
          = r.excludepositions_
      ∧ (r.lines_in_section strip fs S).1 = r.line_range strip fs S := by
  refine ⟨rfl, by simp [DatFileReader.lines_in_section, DatFileReader.record_section_used],
    ?_, rfl, rfl, rfl, rfl, rfl, rfl, rfl⟩
  funext k
  simp only [DatFileReader.lines_in_section, DatFileReader.record_section_used]
  split <;> rfl

/-- C3: `has_section(name)` is true exactly when the section exists (has an
entry in one of the two indexes) and `line_range(name)` is not empty, which is
the case exactly when `line_range(name)` is not empty; it is false for a name
without entry in either index and for a section in memory all of whose lines
are blank or comments; being a query that returns only the flag, it leaves the
record of used sections untouched. -/
theorem has_section_iff (strip : Str → Str) (fs : FileSystem) (r : DatFileReader)
    (name : String) :
    (r.has_section strip fs name = true ↔
        (r.section_exists name = true ∧ r.line_range strip fs name ≠ []))
      ∧ (r.has_section strip fs name = true ↔ r.line_range strip fs name ≠ [])
      ∧ (r.excludepositions_ name = none → r.positions_ name = none →
          r.has_section strip fs name = false)
      ∧ (∀ a b, r.excludepositions_ name = none → r.positions_ name = some (a, b) →
          (∀ l ∈ pre_read_range r.lines_ a b, strip l = []) →
          r.has_section strip fs name = false)
      ∧ (∀ known, { r with knownsections_ := known }.has_section strip fs name
          = r.has_section strip fs name) := by
  have hne : r.excludepositions_ name = none → r.positions_ name = none →
      r.line_range strip fs name = [] := by
    intro h1 h2
    simp [DatFileReader.line_range, h1, h2, pre_read_range]
  refine ⟨?_, ?_, ?_, ?_, fun _ => rfl⟩
  · simp [DatFileReader.has_section, List.isEmpty_iff]
  · constructor
    · intro h
      simp only [DatFileReader.has_section, Bool.and_eq_true, Bool.not_eq_true',
        List.isEmpty_eq_false] at h
      exact h.2
    · intro h
      have hex : r.section_exists name = true := by
        by_contra hcon
        simp only [DatFileReader.section_exists, Bool.or_eq_true, Option.isSome_iff_ne_none,
          not_or, not_not] at hcon
        exact h (hne hcon.1 hcon.2)
      simp [DatFileReader.has_section, hex, List.isEmpty_iff, h]
  · intro h1 h2
    simp [DatFileReader.has_section, hne h1 h2]
  · intro a b h1 h2 h3
    have : r.line_range strip fs name = [] := by
      simp only [DatFileReader.line_range, h1, h2, List.filter_eq_nil_iff]
      intro l hl
      simp [h3 l hl]
    simp [DatFileReader.has_section, this]

/-! ### Key and value -/

/-- C5 (amended): `read_key_value` splits at an equals sign that has whitespace
on both sides when the line contains one, otherwise at the first maximal run
of whitespace, and trims both sides. For every key `K` without whitespace,
every non-empty whitespace run `W` and every non-empty value `V` whose first
and last characters are not whitespace, provided the line `K W V` contains no
equals sign with whitespace on both sides, `read_key_value(K W V) = (K, V)`,
all later whitespace staying inside `V`. So `"FOO   bar baz"` gives
`("FOO", "bar baz")`, and `"FOO = bar baz"` gives `("FOO", "bar baz")`, not
`("FOO", "= bar baz")`. -/
theorem read_key_value_split (K W V : Str) (hK : ∀ c ∈ K, isspace c = false)
    (hW : W ≠ []) (hWs : ∀ c ∈ W, isspace c = true) (_hV : V ≠ [])
    (hVh : ∀ c, V.head? = some c → isspace c = false)
    (hVl : ∀ c, V.getLast? = some c → isspace c = false)
    (hEq : ∀ pre a b post, K ++ W ++ V = pre ++ a :: '=' :: b :: post →
      ¬(isspace a = true ∧ isspace b = true)) :
    read_key_value (K ++ W ++ V) = .ok (K, V)
      ∧ (∀ line kv, split_at_equals line = some kv →
          read_key_value line = .ok (trim kv.1, trim kv.2))
      ∧ (∀ line, split_at_equals line = none → ∀ kv, split_at_whitespace line = some kv →
          read_key_value line = .ok (trim kv.1, trim kv.2))
      ∧ read_key_value "FOO   bar baz".toList = .ok ("FOO".toList, "bar baz".toList)
      ∧ read_key_value "FOO = bar baz".toList = .ok ("FOO".toList, "bar baz".toList)
      ∧ read_key_value "FOO = bar baz".toList ≠ .ok ("FOO".toList, "= bar baz".toList) := by
  refine ⟨?_, ?_, ?_, by decide, by decide, by decide⟩
  · unfold read_key_value
    rw [split_at_equals_eq_none _ hEq, split_at_whitespace_append K W V hK hW hWs hVh]
    simp only [trim_eq_self_of_no_space K hK, trim_eq_self V hVh hVl]
  · intro line kv h
    simp [read_key_value, h]
  · intro line h kv h2
    simp [read_key_value, h, h2]

/-- Witness of C5 (amended): key `FOO`, three blanks, value `bar baz`. -/
theorem read_key_value_split_witness :
    read_key_value ("FOO".toList ++ "   ".toList ++ "bar baz".toList)
        = .ok ("FOO".toList, "bar baz".toList)
      ∧ (∀ line kv, split_at_equals line = some kv →
          read_key_value line = .ok (trim kv.1, trim kv.2))
      ∧ (∀ line, split_at_equals line = none → ∀ kv, split_at_whitespace line = some kv →
          read_key_value line = .ok (trim kv.1, trim kv.2))
      ∧ read_key_value "FOO   bar baz".toList = .ok ("FOO".toList, "bar baz".toList)
      ∧ read_key_value "FOO = bar baz".toList = .ok ("FOO".toList, "bar baz".toList)
      ∧ read_key_value "FOO = bar baz".toList ≠ .ok ("FOO".toList, "= bar baz".toList) :=
  read_key_value_split "FOO".toList "   ".toList "bar baz".toList (by decide) (by decide)
    (by decide) (by decide) (by decide) (by decide)
    (split_at_equals_none_iff.mp (by decide))

/-- Counterexample to C5 as stated: the key `FOO` has no whitespace, `" "` is a
non-empty whitespace run and `"= bar baz"` is a trimmed non-empty value, yet
`read_key_value("FOO = bar baz")` is `("FOO", "bar baz")` and not
`("FOO", "= bar baz")`. -/
theorem read_key_value_equals_in_value :
    (∀ c ∈ "FOO".toList, isspace c = false)
      ∧ " ".toList ≠ [] ∧ (∀ c ∈ " ".toList, isspace c = true)
      ∧ "= bar baz".toList ≠ [] ∧ trim "= bar baz".toList = "= bar baz".toList
      ∧ "FOO".toList ++ " ".toList ++ "= bar baz".toList = "FOO = bar baz".toList
      ∧ read_key_value ("FOO".toList ++ " ".toList ++ "= bar baz".toList)
          = .ok ("FOO".toList, "bar baz".toList)
      ∧ read_key_value ("FOO".toList ++ " ".toList ++ "= bar baz".toList)
          ≠ .ok ("FOO".toList, "= bar baz".toList) := by
  decide

/-- C6: for every line that contains no whitespace and no equals sign,
`read_key_value` fails (throws) instead of returning a pair. -/
theorem read_key_value_fails (line : Str)
    (h : ∀ c ∈ line, isspace c = false ∧ c ≠ '=') :
    ∃ msg, read_key_value line = .error msg := by
  have h1 : split_at_equals line = none := by
    apply split_at_equals_eq_none
    intro pre a b post hl hab
    have : isspace a = false := (h a (by simp [hl])).1
    simp [this] at hab
  have h2 : split_at_whitespace line = none :=
    split_at_whitespace_eq_none line fun c hc => (h c hc).1
  exact ⟨"line cannot be read", by simp [read_key_value, h1, h2]⟩

/-- Witness of C6: the one-word line `FOO`. -/
theorem read_key_value_fails_witness :
    ∃ msg, read_key_value "FOO".toList = .error msg :=
  read_key_value_fails "FOO".toList (by decide)

/-! ### Reading and broadcasting the file -/

theorem stored_lines_append (a b : List Str) :
    stored_lines (a ++ b) = stored_lines a ++ stored_lines b := by
  simp [stored_lines]

theorem stored_lines_cons (l : Str) (rest : List Str) :
    stored_lines (l :: rest) = stored_lines [l] ++ stored_lines rest :=
  stored_lines_append [l] rest

theorem stored_lines_singleton (raw : Str) :
    stored_lines [raw] = if (strip_comment raw).isEmpty then [] else [strip_comment raw] := by
  by_cases h : (strip_comment raw).isEmpty = true <;> simp [stored_lines, List.filter_cons, h]

theorem stored_lines_header (raw : Str) (h : is_section_header raw = true) :
    stored_lines [raw] = [strip_comment raw] := by
  rw [stored_lines_singleton, if_neg]
  simpa using strip_comment_header_ne_nil raw h

theorem mem_stored_lines (lines : List Str) (l : Str) :
    l ∈ stored_lines lines ↔ l ≠ [] ∧ ∃ raw ∈ lines, l = strip_comment raw := by
  simp only [stored_lines, List.mem_filter, List.mem_map]
  constructor
  · rintro ⟨⟨raw, hr, rfl⟩, hne⟩
    exact ⟨by simpa using hne, raw, hr, rfl⟩
  · rintro ⟨hne, raw, hr, rfl⟩
    exact ⟨⟨raw, hr, rfl⟩, by simpa using hne⟩

theorem stored_lines_of_fixed (lines : List Str)
    (h : ∀ l ∈ lines, strip_comment l = l ∧ l ≠ []) : stored_lines lines = lines := by
  induction lines with
  | nil => rfl
  | cons l rest ih =>
    have hl := h l (by simp)
    rw [stored_lines_cons, ih (fun x hx => h x (by simp [hx])), stored_lines_singleton, hl.1,
      if_neg (by simpa using hl.2)]
    rfl

theorem read_dat_line_offset (file : String) (exclude : List String) (st : ReadDat) (raw : Str) :
    (read_dat_line file exclude st raw).offset = st.offset + raw.length + 1 := by
  simp only [read_dat_line]
  split
  · split <;> rfl
  · split
    · split <;> rfl
    · split
      · split <;> rfl
      · split
        · rfl
        · split <;> rfl

theorem read_dat_fold_offset (file : String) (exclude : List String) (lines : List Str)
    (st : ReadDat) :
    (lines.foldl (read_dat_line file exclude) st).offset = st.offset + byte_length lines := by
  induction lines generalizing st with
  | nil => simp [byte_length]
  | cons l rest ih =>
    rw [List.foldl_cons, ih, read_dat_line_offset]
    simp only [byte_length, List.map_cons, List.sum_cons]
    omega

theorem isSome_map_insert {V : Type} (m : StdMap V) (k : String) (v : V) (n : String)
    (h : (map_insert m k v n).isSome = true) : n = k ∨ (m n).isSome = true := by
  unfold map_insert at h
  by_cases hn : n = k
  · exact Or.inl hn
  · rw [if_neg hn] at h
    exact Or.inr h

theorem indexes_separate_step (file : String) (exclude : List String) (st : ReadDat) (raw : Str)
    (h : indexes_separate exclude st) :
    indexes_separate exclude (read_dat_line file exclude st raw) := by
  obtain ⟨hp, he⟩ := h
  simp only [read_dat_line]
  split
  · split
    · rename_i hx
      refine ⟨hp, fun n hn => ?_⟩
      rcases isSome_map_insert _ _ _ n hn with h1 | h1
      · exact h1 ▸ hx
      · exact he n h1
    · rename_i hx
      refine ⟨fun n hn => ?_, he⟩
      rcases isSome_map_insert _ _ _ n hn with h1 | h1
      · exact h1 ▸ hx
      · exact hp n h1
  · split
    · split <;> exact ⟨hp, he⟩
    · split
      · rename_i hx
        split
        · refine ⟨hp, fun n hn => ?_⟩
          rcases isSome_map_insert _ _ _ n hn with h1 | h1
          · exact h1 ▸ hx
          · exact he n h1
        · exact ⟨hp, he⟩
      · rename_i hx
        split
        · exact ⟨hp, he⟩
        · split
          · refine ⟨fun n hn => ?_, he⟩
            rcases isSome_map_insert _ _ _ n hn with h1 | h1
            · exact h1 ▸ hx
            · exact hp n h1
          · exact ⟨hp, he⟩

theorem indexes_separate_fold (file : String) (exclude : List String) (lines : List Str)
    (st : ReadDat) (h : indexes_separate exclude st) :
    indexes_separate exclude (lines.foldl (read_dat_line file exclude) st) := by
  induction lines generalizing st with
  | nil => exact h
  | cons l rest ih => exact ih _ (indexes_separate_step file exclude st l h)

theorem read_dat_line_header (file : String) (exclude : List String) (st : ReadDat) (raw : Str)
    (h : is_section_header raw = true) :
    (read_dat_line file exclude st raw).current = some (section_name raw)
      ∧ (read_dat_line file exclude st raw).lines_
          = (if section_name raw ∈ exclude then st.lines_ else st.lines_ ++ stored_lines [raw])
      ∧ (section_name raw ∈ exclude →
          (read_dat_line file exclude st raw).excludepositions_ (section_name raw)
            = some ⟨file, st.offset + raw.length + 1, 0⟩)
      ∧ (∀ n, n ≠ section_name raw →
          (read_dat_line file exclude st raw).excludepositions_ n = st.excludepositions_ n)
      ∧ (section_name raw ∉ exclude →
          (read_dat_line file exclude st raw).positions_ (section_name raw)
            = some (st.lines_.length + 1, st.lines_.length + 1))
      ∧ (∀ n, n ≠ section_name raw →
          (read_dat_line file exclude st raw).positions_ n = st.positions_ n) := by
  rw [stored_lines_header raw h]
  simp only [read_dat_line, h, if_true]
  split
  · rename_i hx
    exact ⟨rfl, rfl, fun _ => by simp [map_insert], fun n hn => by simp [map_insert, hn],
      fun hx2 => absurd hx hx2, fun n _ => rfl⟩
  · rename_i hx
    exact ⟨rfl, rfl, fun hx2 => absurd hx2 hx, fun n _ => rfl, fun _ => by simp [map_insert],
      fun n hn => by simp [map_insert, hn]⟩

theorem read_dat_line_body (file : String) (exclude : List String) (st : ReadDat) (raw : Str)
    (h : is_section_header raw = false) :
    (read_dat_line file exclude st raw).current = st.current
      ∧ (read_dat_line file exclude st raw).lines_
          = (if st.current.any (fun n => decide (n ∈ exclude)) then st.lines_
             else st.lines_ ++ stored_lines [raw])
      ∧ (∀ name sp, st.current = some name → name ∈ exclude →
          st.excludepositions_ name = some sp →
          (read_dat_line file exclude st raw).excludepositions_ name
            = some { sp with length := sp.length + 1 })
      ∧ (∀ n, st.current ≠ some n →
          (read_dat_line file exclude st raw).excludepositions_ n = st.excludepositions_ n)
      ∧ (∀ name range, st.current = some name → name ∉ exclude →
          st.positions_ name = some range →
          (read_dat_line file exclude st raw).positions_ name
            = some (range.1, range.2 + (stored_lines [raw]).length))
      ∧ (∀ n, st.current ≠ some n →
          (read_dat_line file exclude st raw).positions_ n = st.positions_ n) := by
  rw [stored_lines_singleton]
  simp only [read_dat_line, h, Bool.false_eq_true, if_false]
  split
  · rename_i hc
    split
    · rename_i he
      simp [hc, he]
    · rename_i he
      simp [hc, he]
  · rename_i name hc
    split
    · rename_i hx
      split
      · rename_i sp hsp
        refine ⟨rfl, by simp [hc, hx], ?_, ?_, ?_, fun n _ => rfl⟩
        · intro name2 sp2 h1 _ h3
          rw [hc] at h1
          cases h1
          rw [hsp] at h3
          cases h3
          simp [map_insert]
        · intro n hn
          have : n ≠ name := fun hcon => hn (hcon ▸ hc)
          simp [map_insert, this]
        · intro name2 range h1 h2 _
          rw [hc] at h1
          cases h1
          exact absurd hx h2
      · rename_i hsp
        refine ⟨rfl, by simp [hc, hx], ?_, fun n _ => rfl, ?_, fun n _ => rfl⟩
        · intro name2 sp2 h1 _ h3
          rw [hc] at h1
          cases h1
          rw [hsp] at h3
          cases h3
        · intro name2 range h1 h2 _
          rw [hc] at h1
          cases h1
          exact absurd hx h2
    · rename_i hx
      have hexc : ∀ name2 sp2, some name = some name2 → name2 ∈ exclude →
          st.excludepositions_ name2 = some sp2 → False := by
        intro name2 sp2 h1 h2 _
        cases h1
        exact hx h2
      split
      · rename_i he
        refine ⟨rfl, by simp [hc, hx, he], ?_, fun n _ => rfl, ?_, fun n _ => rfl⟩
        · intro name2 sp2 h1 h2 h3
          exact (hexc name2 sp2 (hc ▸ h1) h2 h3).elim
        · intro name2 range h1 _ h3
          rw [hc] at h1
          cases h1
          simp [he, h3]
      · rename_i he
        split
        · rename_i range hr
          refine ⟨rfl, by simp [hc, hx, he], ?_, fun n _ => rfl, ?_, ?_⟩
          · intro name2 sp2 h1 h2 h3
            exact (hexc name2 sp2 (hc ▸ h1) h2 h3).elim
          · intro name2 range2 h1 _ h3
            rw [hc] at h1
            cases h1
            rw [hr] at h3
            cases h3
            simp [map_insert, he]
          · intro n hn
            have : n ≠ name := fun hcon => hn (hcon ▸ hc)
            simp [map_insert, this]
        · rename_i hr
          refine ⟨rfl, by simp [hc, hx, he], ?_, fun n _ => rfl, ?_, fun n _ => rfl⟩
          · intro name2 sp2 h1 h2 h3
            exact (hexc name2 sp2 (hc ▸ h1) h2 h3).elim
          · intro name2 range2 h1 _ h3
            rw [hc] at h1
            cases h1
            rw [hr] at h3
            cases h3

theorem deck_text_append (a b : List DeckSection) :
    deck_text (a ++ b) = deck_text a ++ deck_text b := by
  induction a with
  | nil => rfl
  | cons s rest ih => simp [deck_text, ih]

theorem parse_deck_text (lines : List Str) :
    (parse_deck lines).1 ++ deck_text (parse_deck lines).2 = lines
      ∧ (∀ l ∈ (parse_deck lines).1, is_section_header l = false)
      ∧ (∀ s ∈ (parse_deck lines).2, is_section_header s.header = true
          ∧ ∀ l ∈ s.body, is_section_header l = false) := by
  induction lines with
  | nil => simp [parse_deck, deck_text]
  | cons l rest ih =>
    obtain ⟨h1, h2, h3⟩ := ih
    by_cases hl : is_section_header l = true
    · simp only [parse_deck, hl, if_true, deck_text, List.nil_append, h1]
      refine ⟨trivial, by simp, ?_⟩
      intro s hs
      rcases List.mem_cons.mp hs with h | h
      · subst h
        exact ⟨hl, h2⟩
      · exact h3 s h
    · simp only [parse_deck, hl, Bool.false_eq_true, if_false, List.cons_append, h1]
      refine ⟨trivial, ?_, h3⟩
      intro x hx
      rcases List.mem_cons.mp hx with h | h
      · subst h
        simpa using hl
      · exact h2 x h

theorem read_dat_fold_body (file : String) (exclude : List String) (body : List Str)
    (hb : ∀ l ∈ body, is_section_header l = false) (st : ReadDat) :
    (body.foldl (read_dat_line file exclude) st).current = st.current
      ∧ (body.foldl (read_dat_line file exclude) st).lines_
          = (if st.current.any (fun n => decide (n ∈ exclude)) then st.lines_
             else st.lines_ ++ stored_lines body)
      ∧ (∀ name sp, st.current = some name → name ∈ exclude →
          st.excludepositions_ name = some sp →
          (body.foldl (read_dat_line file exclude) st).excludepositions_ name
            = some { sp with length := sp.length + body.length })
      ∧ (∀ n, st.current ≠ some n →
          (body.foldl (read_dat_line file exclude) st).excludepositions_ n
            = st.excludepositions_ n)
      ∧ (∀ name range, st.current = some name → name ∉ exclude →
          st.positions_ name = some range →
          (body.foldl (read_dat_line file exclude) st).positions_ name
            = some (range.1, range.2 + (stored_lines body).length))
      ∧ (∀ n, st.current ≠ some n →
          (body.foldl (read_dat_line file exclude) st).positions_ n = st.positions_ n) := by
  induction body generalizing st with
  | nil =>
    refine ⟨rfl, by simp [stored_lines], ?_, fun n _ => rfl, ?_, fun n _ => rfl⟩
    · intro name sp _ _ h3
      simpa using h3
    · intro name range _ _ h3
      simpa [stored_lines] using h3
  | cons l rest ih =>
    have hl := read_dat_line_body file exclude st l (hb l (by simp))
    have hr := ih (fun x hx => hb x (by simp [hx])) (read_dat_line file exclude st l)
    rw [List.foldl_cons]
    refine ⟨hr.1.trans hl.1, ?_, ?_, ?_, ?_, ?_⟩
    · rw [hr.2.1, hl.1, hl.2.1, stored_lines_cons l rest]
      split <;> simp
    · intro name sp h1 h2 h3
      have := hr.2.2.1 name _ (hl.1.trans h1) h2 (hl.2.2.1 name sp h1 h2 h3)
      rw [this]
      simp only [List.length_cons]
      congr 2
      omega
    · intro n hn
      rw [hr.2.2.2.1 n (by rw [hl.1]; exact hn), hl.2.2.2.1 n hn]
    · intro name range h1 h2 h3
      have := hr.2.2.2.2.1 name _ (hl.1.trans h1) h2 (hl.2.2.2.2.1 name range h1 h2 h3)
      rw [this, stored_lines_cons l rest, List.length_append]
      simp only [Nat.add_assoc]
    · intro n hn
      rw [hr.2.2.2.2.2 n (by rw [hl.1]; exact hn), hl.2.2.2.2.2 n hn]

theorem read_dat_fold_sections (file : String) (exclude : List String) (secs : List DeckSection)
    (hsec : ∀ s ∈ secs, is_section_header s.header = true
      ∧ ∀ l ∈ s.body, is_section_header l = false) (st : ReadDat) :
    ((deck_text secs).foldl (read_dat_line file exclude) st).lines_
        = st.lines_ ++ stored_lines
            (deck_text (secs.filter fun s => decide (section_name s.header ∉ exclude)))
      ∧ (∀ n, (∀ s ∈ secs, section_name s.header ≠ n) →
          ((deck_text secs).foldl (read_dat_line file exclude) st).excludepositions_ n
            = st.excludepositions_ n)
      ∧ (∀ n, (∀ s ∈ secs, section_name s.header ≠ n) →
          ((deck_text secs).foldl (read_dat_line file exclude) st).positions_ n
            = st.positions_ n) := by
  induction secs generalizing st with
  | nil =>
    refine ⟨by simp [deck_text, stored_lines], fun n _ => rfl, fun n _ => rfl⟩
  | cons s rest ih =>
    have hs := hsec s (by simp)
    have hh := read_dat_line_header file exclude st s.header hs.1
    have hb := read_dat_fold_body file exclude s.body hs.2 (read_dat_line file exclude st s.header)
    have hr := ih (fun x hx => hsec x (by simp [hx]))
      (s.body.foldl (read_dat_line file exclude) (read_dat_line file exclude st s.header))
    simp only [deck_text, List.foldl_cons, List.foldl_append]
    refine ⟨?_, ?_, ?_⟩
    · rw [hr.1, hb.2.1, hh.1, hh.2.1]
      by_cases hx : section_name s.header ∈ exclude
      · simp [hx, List.filter_cons]
      · have key : ∀ X, stored_lines (s.header :: (s.body ++ X))
            = stored_lines [s.header] ++ (stored_lines s.body ++ stored_lines X) := by
          intro X
          rw [stored_lines_cons, stored_lines_append]
        simp [hx, List.filter_cons, deck_text, key]
    · intro n hn
      have hne : section_name s.header ≠ n := hn s (by simp)
      rw [hr.2.1 n (fun x hx => hn x (by simp [hx])),
        hb.2.2.2.1 n (by rw [hh.1]; intro hcon; exact hne (Option.some.inj hcon)),
        hh.2.2.2.1 n (Ne.symm hne)]
    · intro n hn
      have hne : section_name s.header ≠ n := hn s (by simp)
      rw [hr.2.2 n (fun x hx => hn x (by simp [hx])),
        hb.2.2.2.2.2 n (by rw [hh.1]; intro hcon; exact hne (Option.some.inj hcon)),
        hh.2.2.2.2.2 n (Ne.symm hne)]

theorem read_dat_fold_preamble (file : String) (exclude : List String) (preamble : List Str)
    (hpre : ∀ l ∈ preamble, is_section_header l = false) :
    (preamble.foldl (read_dat_line file exclude) ReadDat.start).lines_
      = stored_lines preamble := by
  have h := (read_dat_fold_body file exclude preamble hpre ReadDat.start).2.1
  simpa [ReadDat.start] using h

theorem read_dat_lines_deck (file : String) (exclude : List String)
    (preamble : List Str) (secs : List DeckSection)
    (hpre : ∀ l ∈ preamble, is_section_header l = false)
    (hsec : ∀ s ∈ secs, is_section_header s.header = true
      ∧ ∀ l ∈ s.body, is_section_header l = false) :
    (read_dat_lines file exclude (preamble ++ deck_text secs)).lines_
      = stored_lines (preamble
          ++ deck_text (secs.filter fun s => decide (section_name s.header ∉ exclude))) := by
  unfold read_dat_lines
  rw [List.foldl_append, (read_dat_fold_sections file exclude secs hsec _).1,
    read_dat_fold_preamble file exclude preamble hpre, stored_lines_append]

/-- C4: the reading rank keeps and broadcasts, and a non-reading rank rebuilds,
exactly what `read_dat` keeps of the lines of the file that lie outside the
excluded sections (the preamble and, header included, every section whose name
is not configured as excluded; each line without its comment and surrounding
whitespace, lines without content dropped), so no line of an excluded section
is among them; where those lines carry no comment or surrounding whitespace
and none is blank, the content is these lines themselves; for an excluded
section only the descriptor with the file path, the byte offset of its first
line and its line count is shared; and no section name has an entry in both
section indexes. Every file is such a deck: its lines are a preamble followed
by sections (last part of the statement). -/
theorem read_dat_broadcast_excludes (file : String) (outflag : Int) (exclude : List String)
    (preamble : List Str) (secs : List DeckSection)
    (hpre : ∀ l ∈ preamble, is_section_header l = false)
    (hsec : ∀ s ∈ secs, is_section_header s.header = true
      ∧ ∀ l ∈ s.body, is_section_header l = false) :
    ((read_dat_lines file exclude (preamble ++ deck_text secs)).broadcast.rebuild file
        outflag).lines_
        = stored_lines (preamble
            ++ deck_text (secs.filter fun s => decide (section_name s.header ∉ exclude)))
      ∧ (read_dat_lines file exclude (preamble ++ deck_text secs)).broadcast.lines
        = stored_lines (preamble
            ++ deck_text (secs.filter fun s => decide (section_name s.header ∉ exclude)))
      ∧ ((∀ l ∈ preamble
            ++ deck_text (secs.filter fun s => decide (section_name s.header ∉ exclude)),
            strip_comment l = l ∧ l ≠ []) →
          ((read_dat_lines file exclude (preamble ++ deck_text secs)).broadcast.rebuild file
              outflag).lines_
            = preamble
              ++ deck_text (secs.filter fun s => decide (section_name s.header ∉ exclude)))
      ∧ (∀ l ∈ ((read_dat_lines file exclude (preamble ++ deck_text secs)).broadcast.rebuild
            file outflag).lines_,
          ∃ raw ∈ preamble
              ++ deck_text (secs.filter fun s => decide (section_name s.header ∉ exclude)),
            l = strip_comment raw)
      ∧ (∀ before s after, secs = before ++ s :: after → section_name s.header ∈ exclude →
          (∀ t ∈ after, section_name t.header ≠ section_name s.header) →
          ((read_dat_lines file exclude (preamble ++ deck_text secs)).broadcast.rebuild file
              outflag).excludepositions_ (section_name s.header)
            = some ⟨file, byte_length (preamble ++ deck_text before ++ [s.header]),
                s.body.length⟩)
      ∧ (∀ name,
          ¬(((read_dat_lines file exclude (preamble ++ deck_text secs)).broadcast.rebuild file
                outflag).positions_ name).isSome = true
            ∨ ¬(((read_dat_lines file exclude (preamble ++ deck_text secs)).broadcast.rebuild
                file outflag).excludepositions_ name).isSome = true)
      ∧ (∀ name,
          (((read_dat_lines file exclude (preamble ++ deck_text secs)).broadcast.rebuild
              file outflag).excludepositions_ name).isSome = true → name ∈ exclude)
      ∧ (∀ name,
          (((read_dat_lines file exclude (preamble ++ deck_text secs)).broadcast.rebuild
              file outflag).positions_ name).isSome = true → name ∉ exclude)
      ∧ (∀ lines : List Str, (parse_deck lines).1 ++ deck_text (parse_deck lines).2 = lines
          ∧ (∀ l ∈ (parse_deck lines).1, is_section_header l = false)
          ∧ (∀ s ∈ (parse_deck lines).2, is_section_header s.header = true
              ∧ ∀ l ∈ s.body, is_section_header l = false)) := by
  have hlines := read_dat_lines_deck file exclude preamble secs hpre hsec
  have hsep : indexes_separate exclude (read_dat_lines file exclude (preamble ++ deck_text secs)) :=
    indexes_separate_fold file exclude _ _
      ⟨fun n hn => by simp [ReadDat.start] at hn, fun n hn => by simp [ReadDat.start] at hn⟩
  refine ⟨hlines, hlines, ?_, ?_, ?_, ?_, hsep.2, hsep.1, parse_deck_text⟩
  · intro hfix
    exact hlines.trans (stored_lines_of_fixed _ hfix)
  · intro l hl
    have hl2 : l ∈ (read_dat_lines file exclude (preamble ++ deck_text secs)).lines_ := hl
    rw [hlines] at hl2
    exact ((mem_stored_lines _ l).mp hl2).2
  · intro before s after hsecs hx hafter
    subst hsecs
    have hs := hsec s (by simp)
    have hafter_wf : ∀ t ∈ after, is_section_header t.header = true
        ∧ ∀ l ∈ t.body, is_section_header l = false :=
      fun t ht => hsec t (by simp [ht])
    show (read_dat_lines file exclude (preamble ++ deck_text (before ++ s :: after))).excludepositions_
      (section_name s.header) = _
    have htext : preamble ++ deck_text (before ++ s :: after)
        = (preamble ++ deck_text before) ++ s.header :: (s.body ++ deck_text after) := by
      rw [deck_text_append]
      simp [deck_text]
    unfold read_dat_lines
    rw [htext, List.foldl_append, List.foldl_cons, List.foldl_append]
    generalize hst1 : List.foldl (read_dat_line file exclude) ReadDat.start
      (preamble ++ deck_text before) = st1
    have hoff : st1.offset = byte_length (preamble ++ deck_text before) := by
      rw [← hst1, read_dat_fold_offset]
      simp [ReadDat.start]
    have hh := read_dat_line_header file exclude st1 s.header hs.1
    have hb := read_dat_fold_body file exclude s.body hs.2 (read_dat_line file exclude st1 s.header)
    have hdesc := hb.2.2.1 (section_name s.header) _ hh.1 hx (hh.2.2.1 hx)
    rw [(read_dat_fold_sections file exclude after hafter_wf _).2.1 (section_name s.header)
      hafter, hdesc, hoff]
    simp [byte_length, Nat.add_assoc]
  · intro name
    by_cases h : (((read_dat_lines file exclude (preamble ++ deck_text secs)).broadcast.rebuild
        file outflag).positions_ name).isSome = true
    · exact Or.inr fun h2 => hsep.1 name h (hsep.2 name h2)
    · exact Or.inl h

/-- Witness of C4: the example deck behind a comment line, with the node
coordinates configured as excluded: of the four lines outside that section the
three with content are broadcast, and the section is described by the offset 60
and the count 2. -/
theorem read_dat_broadcast_excludes_witness :
    (∀ l ∈ ["// fluid deck".toList], is_section_header l = false)
      ∧ (∀ s ∈ example_deck, is_section_header s.header = true
          ∧ ∀ l ∈ s.body, is_section_header l = false)
      ∧ ((read_dat_lines "deck.dat" ["--NODE COORDS"]
            (["// fluid deck".toList] ++ deck_text example_deck)).broadcast.rebuild "deck.dat"
            0).lines_
          = stored_lines (["// fluid deck".toList] ++ deck_text
              (example_deck.filter fun s => decide (section_name s.header ∉ ["--NODE COORDS"])))
      ∧ stored_lines (["// fluid deck".toList] ++ deck_text
            (example_deck.filter fun s => decide (section_name s.header ∉ ["--NODE COORDS"])))
          = ["--PROBLEM TYP".toList, "PROBLEMTYP  Fluid".toList, "--END".toList]
      ∧ (read_dat_lines "deck.dat" ["--NODE COORDS"]
            (["// fluid deck".toList] ++ deck_text example_deck)).excludepositions_
            "--NODE COORDS"
          = some ⟨"deck.dat", 60, 2⟩ :=
  ⟨by decide, by decide,
    (read_dat_broadcast_excludes "deck.dat" 0 ["--NODE COORDS"] ["// fluid deck".toList]
      example_deck (by decide) (by decide)).1,
    by decide, by decide⟩

/-! ### The lines of a section kept in memory -/

theorem run_read_fields_of_flags (p : Problem) (read_mesh : Bool) :
    run_read_fields p read_mesh =
      run_read_fields
        (Problem.of_flags p.problem_type p.spatial_approximation_type p.flags.1 p.flags.2)
        read_mesh := by
  obtain ⟨pt, dt, xw, xff, a1, a2, a3, am⟩ := p
  cases pt <;> rfl

theorem writers_attached_sound (w : World) (h : w.writers_attached = true) :
    ∀ e ∈ w.discretizationmap, ∃ writer, w.writer_of e.2 = some writer
      ∧ w.writers[writer]? = some e.2 ∧ Event.set_writer e.2 writer ∈ w.before_read := by
  intro e he
  have h1 := (List.all_eq_true.mp h) e he
  cases hw : w.writer_of e.2 with
  | none => simp [hw] at h1
  | some writer =>
    simp only [hw, Bool.and_eq_true, beq_iff_eq] at h1
    exact ⟨writer, rfl, h1.1, by simpa using h1.2⟩

theorem writer_of_lt (w : World) (i writer : Nat) (h : w.writer_of i = some writer) :
    i < w.discretizations.length := by
  by_contra hlt
  have : w.discretizations[i]? = none := List.getElem?_eq_none (by omega)
  simp [World.writer_of, this] at h

theorem writers_exclusive_sound (w : World) (h : w.writers_exclusive = true) :
    ∀ i j writer, w.writer_of i = some writer → w.writer_of j = some writer → i = j := by
  intro i j writer hi hj
  have h1 := (List.all_eq_true.mp h) i (List.mem_range.mpr (writer_of_lt w i writer hi))
  have h2 := (List.all_eq_true.mp h1) j (List.mem_range.mpr (writer_of_lt w j writer hj))
  simpa [hi, hj] using h2

set_option maxHeartbeats 4000000 in
theorem check_writers_of_flags (pt : ProblemType) (dt : ShapeFunctionType) (read_mesh : Bool) :
    ∀ f g, check_writers (Problem.of_flags pt dt f g) read_mesh = true := by
  cases pt <;> cases dt <;> cases read_mesh <;> first
    | decide!
    | (intro f g; rfl)

theorem check_writers_all (p : Problem) (read_mesh : Bool) :
    check_writers p read_mesh = true := by
  have h := check_writers_of_flags p.problem_type p.spatial_approximation_type read_mesh
    p.flags.1 p.flags.2
  unfold check_writers at h ⊢
  rw [run_read_fields_of_flags]
  exact h

/-- C7: for problem type fluid with spatial approximation nurbs, whatever the
flags, `read_fields` returns normally having registered exactly one
discretization, under the name "fluid"; it is a `NurbsDiscretization`; its
writer is constructed and set before the discretization is registered, hence
before `read_and_partition` is called (which happens last, and only when the
mesh is read). -/
theorem read_fields_fluid_nurbs (p : Problem) (read_mesh : Bool)
    (hpt : p.problem_type = .fluid) (hdt : p.spatial_approximation_type = .nurbs) :
    run_read_fields p read_mesh =
        (.ok (),
          { discretizations := [⟨"fluid", .NurbsDiscretization, some 0⟩]
            writers := [0]
            discretizationmap := [("fluid", 0)]
            meshreader := [(0, "FLUID")]
            trace := [.set_writer 0 0, .add_dis "fluid" 0, .add_advanced_reader 0 "FLUID"]
              ++ (if read_mesh then [Event.read_and_partition] else []) })
      ∧ (run_read_fields p read_mesh).2.discretizationmap.length = 1
      ∧ Event.set_writer 0 0 ∈ (run_read_fields p read_mesh).2.before_read := by
  obtain ⟨pt, dt, xw, xff, a1, a2, a3, am⟩ := p
  simp only at hpt hdt
  subst hpt hdt
  rw [run_read_fields_of_flags]
  simp only [Problem.flags, Problem.of_flags]
  cases xw <;> cases read_mesh <;> decide

/-- Witness of C7: the fluid problem with nurbs and the wall model switched on. -/
theorem read_fields_fluid_nurbs_witness :
    run_read_fields ⟨.fluid, .nurbs, true, false, false, false, false, false⟩ true =
        (.ok (),
          { discretizations := [⟨"fluid", .NurbsDiscretization, some 0⟩]
            writers := [0]
            discretizationmap := [("fluid", 0)]
            meshreader := [(0, "FLUID")]
            trace := [.set_writer 0 0, .add_dis "fluid" 0, .add_advanced_reader 0 "FLUID"]
              ++ (if true then [Event.read_and_partition] else []) })
      ∧ (run_read_fields ⟨.fluid, .nurbs, true, false, false, false, false, false⟩
          true).2.discretizationmap.length = 1
      ∧ Event.set_writer 0 0 ∈ (run_read_fields
          ⟨.fluid, .nurbs, true, false, false, false, false, false⟩ true).2.before_read :=
  read_fields_fluid_nurbs ⟨.fluid, .nurbs, true, false, false, false, false, false⟩ true rfl rfl

/-- C8: for a problem type that the dispatch of `read_fields` does not handle,
`read_fields` aborts with the fatal error "Unknown problem type"; at the throw
no discretization is registered in the problem (none has even been created)
and the mesh has not been read. -/
theorem read_fields_unknown_problem_type (p : Problem) (read_mesh : Bool) (code : Nat)
    (hpt : p.problem_type = .other code) :
    (run_read_fields p read_mesh).1 = .error "Unknown problem type: %d"
      ∧ (run_read_fields p read_mesh).2.discretizationmap = []
      ∧ (run_read_fields p read_mesh).2.discretizations = []
      ∧ Event.read_and_partition ∉ (run_read_fields p read_mesh).2.trace
      ∧ (run_read_fields p read_mesh).2 = World.initial := by
  obtain ⟨pt, dt, xw, xff, a1, a2, a3, am⟩ := p
  simp only at hpt
  subst hpt
  have h : run_read_fields ⟨.other code, dt, xw, xff, a1, a2, a3, am⟩ read_mesh
      = (.error "Unknown problem type: %d", World.initial) := rfl
  rw [h]
  simp [World.initial]

/-- Witness of C8: an unhandled problem type with the mesh to be read. -/
theorem read_fields_unknown_problem_type_witness :
    (run_read_fields ⟨.other 0, .polynomial, false, false, false, false, false, false⟩ true).1
        = .error "Unknown problem type: %d"
      ∧ (run_read_fields ⟨.other 0, .polynomial, false, false, false, false, false, false⟩
          true).2.discretizationmap = []
      ∧ (run_read_fields ⟨.other 0, .polynomial, false, false, false, false, false, false⟩
          true).2.discretizations = []
      ∧ Event.read_and_partition ∉ (run_read_fields
          ⟨.other 0, .polynomial, false, false, false, false, false, false⟩ true).2.trace
      ∧ (run_read_fields ⟨.other 0, .polynomial, false, false, false, false, false, false⟩
          true).2 = World.initial :=
  read_fields_unknown_problem_type
    ⟨.other 0, .polynomial, false, false, false, false, false, false⟩ true 0 rfl

/-- C9: for each of the problem types biofilm_fsi, gas_fsi, thermo_fsi, sti and
art_net with spatial approximation nurbs, `read_fields` aborts with a fatal
error, and at the throw no discretization is registered in the problem: no
call of `add_dis` (nor any other call on the problem, a discretization or the
mesh reader) has been made. -/
theorem read_fields_nurbs_rejected (p : Problem) (read_mesh : Bool)
    (hpt : p.problem_type = .biofilm_fsi ∨ p.problem_type = .gas_fsi
      ∨ p.problem_type = .thermo_fsi ∨ p.problem_type = .sti ∨ p.problem_type = .art_net)
    (hdt : p.spatial_approximation_type = .nurbs) :
    (∃ msg, (run_read_fields p read_mesh).1 = .error msg)
      ∧ (run_read_fields p read_mesh).2.discretizationmap = []
      ∧ (run_read_fields p read_mesh).2.trace = [] := by
  obtain ⟨pt, dt, xw, xff, a1, a2, a3, am⟩ := p
  simp only at hpt hdt
  subst hdt
  rw [run_read_fields_of_flags]
  rcases hpt with h | h | h | h | h <;> subst h <;> simp only [Problem.flags, Problem.of_flags] <;>
    cases read_mesh <;> exact ⟨⟨_, rfl⟩, by decide, by decide⟩

/-- Witness of C9: biofilm_fsi with nurbs. -/
theorem read_fields_nurbs_rejected_witness :
    (∃ msg, (run_read_fields ⟨.biofilm_fsi, .nurbs, false, false, false, false, false, false⟩
        true).1 = .error msg)
      ∧ (run_read_fields ⟨.biofilm_fsi, .nurbs, false, false, false, false, false, false⟩
          true).2.discretizationmap = []
      ∧ (run_read_fields ⟨.biofilm_fsi, .nurbs, false, false, false, false, false, false⟩
          true).2.trace = [] :=
  read_fields_nurbs_rejected ⟨.biofilm_fsi, .nurbs, false, false, false, false, false, false⟩
    true (Or.inl rfl) rfl

/-- C10: whenever `read_fields` does not abort, every discretization it has
registered in the problem has a writer that was constructed for it and set
into it before `read_and_partition` is called (before the return when the mesh
is not read), and no writer is attached to two discretizations. -/
theorem read_fields_writers (p : Problem) (read_mesh : Bool)
    (h : (run_read_fields p read_mesh).1 = .ok ()) :
    (∀ e ∈ (run_read_fields p read_mesh).2.discretizationmap,
        ∃ writer, (run_read_fields p read_mesh).2.writer_of e.2 = some writer
          ∧ (run_read_fields p read_mesh).2.writers[writer]? = some e.2
          ∧ Event.set_writer e.2 writer ∈ (run_read_fields p read_mesh).2.before_read)
      ∧ (∀ i j writer, (run_read_fields p read_mesh).2.writer_of i = some writer →
          (run_read_fields p read_mesh).2.writer_of j = some writer → i = j) := by
  have hc := check_writers_all p read_mesh
  unfold check_writers at hc
  generalize run_read_fields p read_mesh = out at h hc
  obtain ⟨res, w⟩ := out
  simp only at h
  subst h
  simp only [Bool.and_eq_true] at hc
  exact ⟨writers_attached_sound w hc.1, writers_exclusive_sound w hc.2⟩

/-- Witness of C10: fsi with reduced models, polynomial shape functions and an
embedded fluid, which registers six discretizations. -/
theorem read_fields_writers_witness :
    (∀ e ∈ (run_read_fields ⟨.fsi_redmodels, .polynomial, false, true, false, false, false,
          false⟩ true).2.discretizationmap,
        ∃ writer, (run_read_fields ⟨.fsi_redmodels, .polynomial, false, true, false, false,
            false, false⟩ true).2.writer_of e.2 = some writer
          ∧ (run_read_fields ⟨.fsi_redmodels, .polynomial, false, true, false, false, false,
            false⟩ true).2.writers[writer]? = some e.2
          ∧ Event.set_writer e.2 writer ∈ (run_read_fields ⟨.fsi_redmodels, .polynomial, false,
            true, false, false, false, false⟩ true).2.before_read)
      ∧ (∀ i j writer, (run_read_fields ⟨.fsi_redmodels, .polynomial, false, true, false, false,
            false, false⟩ true).2.writer_of i = some writer →
          (run_read_fields ⟨.fsi_redmodels, .polynomial, false, true, false, false, false,
            false⟩ true).2.writer_of j = some writer → i = j) :=
  read_fields_writers ⟨.fsi_redmodels, .polynomial, false, true, false, false, false, false⟩
    true (by decide)

/-! ### The micro fields -/

theorem color_loop_gathered (rest : List Bool) (k r : Nat) (c : Int) (hk : k ≤ r)
    (hr : rest[r - k]? = some true) :
    color_loop r (gathered_from k rest) c = c + 1 + ((rest.take (r - k)).count true : Nat) := by
  induction rest generalizing k c with
  | nil => simp at hr
  | cons b rest ih =>
    by_cases hrk : r = k
    · subst hrk
      simp only [Nat.sub_self, List.getElem?_cons_zero, Option.some.injEq] at hr
      subst hr
      simp [gathered_from, color_loop]
    · have hlt : k + 1 ≤ r := by omega
      have hsub : r - k = (r - (k + 1)) + 1 := by omega
      rw [hsub, List.getElem?_cons_succ] at hr
      have hne1 : ((if b = true then (k : Int) else -1) = (r : Int)) = False := by
        apply eq_false
        split <;> omega
      rw [hsub, gathered_from, color_loop]
      simp only [hne1, if_false]
      rw [ih (k + 1) _ hlt hr]
      cases b <;> simp [List.take_succ_cons, List.count_cons]; omega

theorem elect_color_participating (U : Int) (found : List Bool) (r : Nat)
    (hr : found[r]? = some true) :
    elect_color U 1 r (gathered_from 0 found) = ((found.take r).count true : Nat) := by
  have h := color_loop_gathered found 0 r (-1) (Nat.zero_le r) (by simpa using hr)
  simp only [elect_color, if_true]
  rw [h]
  simp

theorem participating_colors_eq (U : Int) (found : List Bool) :
    participating_colors U found = (List.range (found.count true)).map fun c => (c : Int) := by
  have h1 : participating_colors U found
      = (List.range found.length).filterMap fun (r : Nat) =>
          if found[r]? = some true then some (((found.take r).count true : Nat) : Int)
          else none := by
    unfold participating_colors
    apply List.filterMap_congr
    intro r _
    by_cases hr : found[r]? = some true
    · simp only [hr, if_true, elect_color_participating U found r hr]
    · simp only [hr, if_false]
  rw [h1]
  clear h1
  induction found using List.reverseRecOn with
  | nil => simp
  | append_singleton init b ih =>
    have hcongr : (List.range init.length).filterMap (fun (r : Nat) =>
          if (init ++ [b])[r]? = some true
            then some ((((init ++ [b]).take r).count true : Nat) : Int) else none)
        = (List.range init.length).filterMap (fun (r : Nat) =>
          if init[r]? = some true then some (((init.take r).count true : Nat) : Int)
          else none) := by
      apply List.filterMap_congr
      intro r hr
      have hlt : r < init.length := List.mem_range.mp hr
      rw [List.getElem?_append_left hlt, List.take_append_of_le_length (Nat.le_of_lt hlt)]
    rw [List.length_append, List.length_singleton, List.range_succ, List.filterMap_append,
      hcongr, ih]
    cases b
    · simp
    · simp [List.range_succ]

theorem read_micro_material_trace (inp : MicroInput) (macro_dis_name : String) (matid : Int)
    (st : MicroState) (d : Int × String) (hd : micro_dis_of inp macro_dis_name matid = .ok d) :
    ∃ rest, (read_micro_material inp macro_dis_name matid st).2.trace
      = st.trace ++ [MicroEvent.mat_factory matid, MicroEvent.broadcast_microdisnum d.1,
          MicroEvent.problem_instance d.1,
          MicroEvent.broadcast_length
            (resolve_micro_inputfile_name inp.input_path
              (inp.micro_input_file_name matid)).length,
          MicroEvent.broadcast_name
            (resolve_micro_inputfile_name inp.input_path (inp.micro_input_file_name matid)),
          MicroEvent.dat_file_reader
            (resolve_micro_inputfile_name inp.input_path (inp.micro_input_file_name matid))]
        ++ rest := by
  obtain ⟨microdisnum, micro_dis_name⟩ := d
  simp only [read_micro_material, hd, MicroState.log, MicroState.set_read_from_problem,
    MicroState.reset_read_from_problem]
  split
  · exact ⟨[], by simp⟩
  · split
    · exact ⟨_, by simp only [List.append_assoc, List.cons_append, List.nil_append]; rfl⟩
    · split
      · exact ⟨_, by simp only [List.append_assoc, List.cons_append, List.nil_append]; rfl⟩
      · exact ⟨_, by simp only [List.append_assoc, List.cons_append, List.nil_append]; rfl⟩

theorem read_micro_material_extends (inp : MicroInput) (macro_dis_name : String) (matid : Int)
    (st : MicroState) :
    ∃ ev, (read_micro_material inp macro_dis_name matid st).2.trace = st.trace ++ ev := by
  cases hd : micro_dis_of inp macro_dis_name matid with
  | error msg =>
    exact ⟨[MicroEvent.mat_factory matid], by simp [read_micro_material, hd, MicroState.log]⟩
  | ok d =>
    obtain ⟨rest, h⟩ := read_micro_material_trace inp macro_dis_name matid st d hd
    exact ⟨_, by rw [h, List.append_assoc]⟩

theorem read_micro_materials_extends (inp : MicroInput) (macro_dis_name : String)
    (ids materials : List Int) (st : MicroState) :
    ∃ ev, (read_micro_materials inp macro_dis_name ids materials st).2.trace
      = st.trace ++ ev := by
  induction materials generalizing st with
  | nil => exact ⟨[], by simp [read_micro_materials]⟩
  | cons matid rest ih =>
    simp only [read_micro_materials]
    split
    · obtain ⟨ev1, h1⟩ := read_micro_material_extends inp macro_dis_name matid st
      split
      · rename_i st1 heq
        obtain ⟨ev2, h2⟩ := ih st1
        rw [heq] at h1
        exact ⟨ev1 ++ ev2, by rw [h2, h1, List.append_assoc]⟩
      · rename_i st1 heq
        rw [heq] at h1
        exact ⟨ev1, h1⟩
    · exact ih st

theorem read_micro_material_restores (inp : MicroInput) (macro_dis_name : String) (matid : Int)
    (st : MicroState) (hst : macro_slot_restored st)
    (hok : (read_micro_material inp macro_dis_name matid st).1 = .ok ()) :
    macro_slot_restored (read_micro_material inp macro_dis_name matid st).2 := by
  obtain ⟨_, hp⟩ := hst
  revert hok
  simp only [read_micro_material, MicroState.log, MicroState.set_read_from_problem,
    MicroState.reset_read_from_problem, macro_slot_restored]
  split
  · intro h; simp at h
  · split
    · intro h; simp at h
    · split
      · intro h; simp at h
      · split
        · intro h; simp at h
        · intro _
          refine ⟨rfl, ?_⟩
          cases inp.no_nested_parallelism <;> simp [List.foldl_append, hp, pending_reset]

theorem read_micro_materials_restores (inp : MicroInput) (macro_dis_name : String)
    (ids materials : List Int) (st : MicroState) (hst : macro_slot_restored st)
    (hok : (read_micro_materials inp macro_dis_name ids materials st).1 = .ok ()) :
    macro_slot_restored (read_micro_materials inp macro_dis_name ids materials st).2 := by
  induction materials generalizing st with
  | nil => simpa [read_micro_materials] using hst
  | cons matid rest ih =>
    revert hok
    simp only [read_micro_materials]
    split
    · have h1 := read_micro_material_restores inp macro_dis_name matid st hst
      split
      · rename_i u st1 heq
        rw [heq] at h1
        intro hok
        exact ih st1 (h1 (by cases u; rfl)) hok
      · intro h; simp at h
    · exact ih st hst

theorem read_micro_problems_extends (inp : MicroInput) (macro_dis_name : String)
    (ids : List Int) (st : MicroState) :
    ∃ ev, (read_micro_problems inp macro_dis_name ids st).2.trace = st.trace ++ ev := by
  unfold read_micro_problems
  split
  · obtain ⟨ev, hev⟩ := read_micro_materials_extends inp macro_dis_name ids inp.materials
      (st.log [MicroEvent.set_sub_comm,
        MicroEvent.broadcast_microcount (count_micro ids inp.materials)])
    simp only
    split
    · rename_i st1 heq
      rw [heq] at hev
      simp only [MicroState.log] at hev
      exact ⟨_, by
        simp only [MicroState.reset_read_from_problem, hev, List.append_assoc]
        rfl⟩
    · rename_i st1 heq
      rw [heq] at hev
      simp only [MicroState.log] at hev
      exact ⟨_, by
        simp only [hev, List.append_assoc]
        rfl⟩
  · exact ⟨[], by simp⟩

theorem read_micro_fields_split (inp : MicroInput) (st : MicroState) (macro_dis_name : String)
    (hcheck : micro_check inp.id_struct inp.id_scatra inp.id_elch
      = .ok (.proceeds macro_dis_name))
    (hdis : macro_dis_name ∈ inp.discretizations) :
    MicroEvent.comm_split
        (my_color inp (scan_elements inp.id_elch macro_dis_name inp.elements)) 0
      ∈ (read_micro_fields inp st).2.trace := by
  simp only [read_micro_fields, hcheck, hdis, not_true_eq_false, if_false]
  obtain ⟨ev, hev⟩ := read_micro_problems_extends inp macro_dis_name
    (scan_elements inp.id_elch macro_dis_name inp.elements)
    (elect_and_split inp (scan_elements inp.id_elch macro_dis_name inp.elements)
      ((st.log [MicroEvent.get_dis macro_dis_name]).log
        (if macro_dis_name = "structure" then [MicroEvent.redistribute] else [])))
  rw [hev]
  simp [elect_and_split, MicroState.log]

theorem read_micro_problems_restores (inp : MicroInput) (macro_dis_name : String)
    (ids : List Int) (st : MicroState) (hst : macro_slot_restored st)
    (hok : (read_micro_problems inp macro_dis_name ids st).1 = .ok ()) :
    macro_slot_restored (read_micro_problems inp macro_dis_name ids st).2 := by
  revert hok
  unfold read_micro_problems
  split
  · have hst1 : macro_slot_restored (st.log [MicroEvent.set_sub_comm,
        MicroEvent.broadcast_microcount (count_micro ids inp.materials)]) := by
      obtain ⟨h1, h2⟩ := hst
      exact ⟨h1, by simp [MicroState.log, List.foldl_append, h2, pending_reset]⟩
    have h := read_micro_materials_restores inp macro_dis_name ids inp.materials _ hst1
    simp only
    split
    · rename_i u st1 heq
      rw [heq] at h
      intro _
      have h2 := (h (by cases u; rfl)).2
      exact ⟨rfl, by
        simp only [MicroState.reset_read_from_problem, List.foldl_append, h2]
        rfl⟩
    · intro hok
      simp at hok
  · intro _
    exact hst

theorem read_micro_fields_restores (inp : MicroInput) (st : MicroState)
    (hst : macro_slot_restored st) (hok : (read_micro_fields inp st).1 = .ok ()) :
    macro_slot_restored (read_micro_fields inp st).2 := by
  revert hok
  unfold read_micro_fields
  split
  · intro hok
    simp at hok
  · intro _
    exact hst
  · rename_i macro_dis_name _
    simp only
    split
    · intro hok
      simp at hok
    · apply read_micro_problems_restores
      obtain ⟨h1, h2⟩ := hst
      refine ⟨h1, ?_⟩
      by_cases hm : macro_dis_name = "structure" <;>
        simp [elect_and_split, MicroState.log, List.foldl_append, h2, pending_reset, hm]

theorem read_micro_support_restores (inp : SupportInput) (n : Nat) (st : MicroState)
    (hst : macro_slot_restored st) (hok : (read_micro_support inp n st).1 = .ok ()) :
    macro_slot_restored (read_micro_support inp n st).2 := by
  obtain ⟨_, hp⟩ := hst
  revert hok
  simp only [read_micro_support, MicroState.log, MicroState.set_read_from_problem,
    MicroState.reset_read_from_problem, macro_slot_restored]
  split
  · intro h; simp at h
  · split
    · intro h; simp at h
    · split
      · intro h; simp at h
      · intro _
        exact ⟨rfl, by simp [List.foldl_append, hp, pending_reset]⟩

theorem read_micro_supports_restores (inp : SupportInput) (count n : Nat) (st : MicroState)
    (hst : macro_slot_restored st) (hok : (read_micro_supports inp count n st).1 = .ok ()) :
    macro_slot_restored (read_micro_supports inp count n st).2 := by
  induction count generalizing n st with
  | zero => simpa [read_micro_supports] using hst
  | succ count ih =>
    revert hok
    simp only [read_micro_supports]
    have h1 := read_micro_support_restores inp n st hst
    split
    · rename_i u st1 heq
      rw [heq] at h1
      intro hok
      exact ih (n + 1) st1 (h1 (by cases u; rfl)) hok
    · intro h; simp at h

theorem read_microfields_np_support_restores (inp : SupportInput) (st : MicroState)
    (hst : macro_slot_restored st) (hok : (read_microfields_np_support inp st).1 = .ok ()) :
    macro_slot_restored (read_microfields_np_support inp st).2 := by
  revert hok
  simp only [read_microfields_np_support]
  split
  · intro h; simp at h
  · split
    · intro h; simp at h
    · split
      · intro h; simp at h
      · apply read_micro_supports_restores
        obtain ⟨h1, h2⟩ := hst
        exact ⟨h1, by simp [MicroState.log, List.foldl_append, h2, pending_reset]⟩

theorem read_micro_material_error (inp : MicroInput) (macro_dis_name : String) (matid : Int)
    (st : MicroState) (msg : String)
    (h : (read_micro_material inp macro_dis_name matid st).1 = .error msg) :
    msg ≠ "Cannot have more than one multi-scale material!" := by
  revert h
  simp only [read_micro_material, micro_dis_of]
  split
  · rename_i m heq
    intro h
    simp only [Except.error.injEq] at h
    subst h
    revert heq
    split
    · intro h; simp at h
    · split
      · intro h; simp at h
      · intro h
        simp only [Except.error.injEq] at h
        subst h
        decide
  · split
    · intro h
      simp only [Except.error.injEq] at h
      subst h
      decide
    · split
      · intro h
        simp only [Except.error.injEq] at h
        subst h
        decide
      · split
        · intro h
          simp only [Except.error.injEq] at h
          subst h
          decide
        · intro h
          simp at h

theorem read_micro_materials_error (inp : MicroInput) (macro_dis_name : String)
    (ids materials : List Int) (st : MicroState) (msg : String)
    (h : (read_micro_materials inp macro_dis_name ids materials st).1 = .error msg) :
    msg ≠ "Cannot have more than one multi-scale material!" := by
  induction materials generalizing st with
  | nil => simp [read_micro_materials] at h
  | cons matid rest ih =>
    revert h
    simp only [read_micro_materials]
    split
    · split
      · rename_i st1 heq
        exact ih st1
      · rename_i m st1 heq
        intro h
        simp only [Except.error.injEq] at h
        subst h
        exact read_micro_material_error inp macro_dis_name matid st m (by rw [heq])
    · exact ih st

theorem read_micro_problems_error (inp : MicroInput) (macro_dis_name : String)
    (ids : List Int) (st : MicroState) (msg : String)
    (h : (read_micro_problems inp macro_dis_name ids st).1 = .error msg) :
    msg ≠ "Cannot have more than one multi-scale material!" := by
  revert h
  unfold read_micro_problems
  split
  · simp only
    split
    · intro h; simp at h
    · rename_i m st1 heq
      intro h
      simp only [Except.error.injEq] at h
      subst h
      exact read_micro_materials_error inp macro_dis_name ids inp.materials _ m (by rw [heq])
  · intro h; simp at h

theorem micro_check_error (id_struct id_scatra id_elch : Int) (msg : String)
    (h : micro_check id_struct id_scatra id_elch = .error msg) :
    (id_struct ≠ -1 ∧ id_scatra ≠ -1) ∨ (id_struct ≠ -1 ∧ id_elch ≠ -1)
      ∨ (id_scatra ≠ -1 ∧ id_elch ≠ -1) := by
  unfold micro_check at h
  split at h
  · simp at h
  · split at h
    · assumption
    · split at h <;> simp at h

/-- C11: in `read_micro_fields`, on a rank that passed the checks, the
communicator split is called, with key 0, whether or not the rank found micro
material. When `found` tells for each of the N local ranks whether it found
micro material and `GatherAll` delivers their contributions, the colour of a
rank r with micro material is the number of ranks with micro material below r,
and the colour of a rank without is `MPI_UNDEFINED`; the colours of the ranks
with micro material, in rank order, are 0, 1, ..., |K|-1. -/
theorem read_micro_fields_colors (found : List Bool) (inp : MicroInput) (st : MicroState)
    (macro_dis_name : String) (r : Nat)
    (hcheck : micro_check inp.id_struct inp.id_scatra inp.id_elch
      = .ok (.proceeds macro_dis_name))
    (hdis : macro_dis_name ∈ inp.discretizations)
    (hrank : inp.MyPID = r)
    (hfound : found[r]?
      = some (decide ((scan_elements inp.id_elch macro_dis_name inp.elements).length ≠ 0)))
    (hgather : inp.gather_all
        (foundmicromatmyrank inp.MyPID (scan_elements inp.id_elch macro_dis_name inp.elements))
      = gathered_from 0 found) :
    (found[r]? = some true →
        MicroEvent.comm_split (((found.take r).count true : Nat) : Int) 0
          ∈ (read_micro_fields inp st).2.trace)
      ∧ (found[r]? = some false →
        MicroEvent.comm_split inp.MPI_UNDEFINED 0 ∈ (read_micro_fields inp st).2.trace)
      ∧ (∀ q : Nat, found[q]? = some true →
          elect_color inp.MPI_UNDEFINED 1 q (gathered_from 0 found)
            = (((found.take q).count true : Nat) : Int))
      ∧ (∀ q : Nat, found[q]? = some false →
          elect_color inp.MPI_UNDEFINED 0 (-1) (gathered_from 0 found) = inp.MPI_UNDEFINED)
      ∧ participating_colors inp.MPI_UNDEFINED found
          = (List.range (found.count true)).map fun c => (c : Int) := by
  have hsplit := read_micro_fields_split inp st macro_dis_name hcheck hdis
  refine ⟨?_, ?_, fun q hq => elect_color_participating inp.MPI_UNDEFINED found q hq,
    fun q _ => by simp [elect_color], participating_colors_eq inp.MPI_UNDEFINED found⟩
  · intro hr
    have hne : (scan_elements inp.id_elch macro_dis_name inp.elements).length ≠ 0 := by
      rw [hr] at hfound
      simpa using hfound
    have hc : my_color inp (scan_elements inp.id_elch macro_dis_name inp.elements)
        = (((found.take r).count true : Nat) : Int) := by
      unfold my_color
      rw [hgather]
      have e1 : foundmicromat (scan_elements inp.id_elch macro_dis_name inp.elements) = 1 :=
        if_pos hne
      have e2 : foundmicromatmyrank inp.MyPID
          (scan_elements inp.id_elch macro_dis_name inp.elements) = (r : Int) := by
        rw [foundmicromatmyrank, if_pos hne, hrank]
      rw [e1, e2]
      exact elect_color_participating inp.MPI_UNDEFINED found r hr
    rw [← hc]
    exact hsplit
  · intro hr
    have hne : ¬ (scan_elements inp.id_elch macro_dis_name inp.elements).length ≠ 0 := by
      rw [hr] at hfound
      simpa using hfound
    have hc : my_color inp (scan_elements inp.id_elch macro_dis_name inp.elements)
        = inp.MPI_UNDEFINED := by
      simp [my_color, foundmicromat, hne, elect_color]
    rw [← hc]
    exact hsplit

/-- C12: `read_micro_fields` throws "Cannot have more than one multi-scale
material!" exactly when at least two of the three ids (structural, scalar
transport, Newman) are not -1, and then at once; with only the structural id
it goes on with the macro discretization "structure", with only the scalar
transport id or only the Newman id with "scatra"; with none it returns at once
and leaves the state as it was (no split, no micro problem). -/
theorem read_micro_fields_safety_check (inp : MicroInput) (st : MicroState) :
    (((inp.id_struct ≠ -1 ∧ inp.id_scatra ≠ -1) ∨ (inp.id_struct ≠ -1 ∧ inp.id_elch ≠ -1)
          ∨ (inp.id_scatra ≠ -1 ∧ inp.id_elch ≠ -1)) →
        read_micro_fields inp st
          = (.error "Cannot have more than one multi-scale material!", st))
      ∧ ((read_micro_fields inp st).1
            = .error "Cannot have more than one multi-scale material!" →
          ((inp.id_struct ≠ -1 ∧ inp.id_scatra ≠ -1) ∨ (inp.id_struct ≠ -1 ∧ inp.id_elch ≠ -1)
            ∨ (inp.id_scatra ≠ -1 ∧ inp.id_elch ≠ -1)))
      ∧ (inp.id_struct ≠ -1 → inp.id_scatra = -1 → inp.id_elch = -1 →
          micro_check inp.id_struct inp.id_scatra inp.id_elch = .ok (.proceeds "structure")
            ∧ ∃ ev, (read_micro_fields inp st).2.trace
                = st.trace ++ MicroEvent.get_dis "structure" :: ev)
      ∧ (inp.id_struct = -1 →
          (inp.id_scatra ≠ -1 ∧ inp.id_elch = -1) ∨ (inp.id_scatra = -1 ∧ inp.id_elch ≠ -1) →
          micro_check inp.id_struct inp.id_scatra inp.id_elch = .ok (.proceeds "scatra")
            ∧ ∃ ev, (read_micro_fields inp st).2.trace
                = st.trace ++ MicroEvent.get_dis "scatra" :: ev)
      ∧ (inp.id_struct = -1 → inp.id_scatra = -1 → inp.id_elch = -1 →
          read_micro_fields inp st = (.ok (), st)) := by
  have hproceeds : ∀ macro_dis_name,
      micro_check inp.id_struct inp.id_scatra inp.id_elch = .ok (.proceeds macro_dis_name) →
      ∃ ev, (read_micro_fields inp st).2.trace
        = st.trace ++ MicroEvent.get_dis macro_dis_name :: ev := by
    intro macro_dis_name hc
    simp only [read_micro_fields, hc]
    split
    · exact ⟨[], by simp [MicroState.log]⟩
    · obtain ⟨ev, hev⟩ := read_micro_problems_extends inp macro_dis_name
        (scan_elements inp.id_elch macro_dis_name inp.elements)
        (elect_and_split inp (scan_elements inp.id_elch macro_dis_name inp.elements)
          ((st.log [MicroEvent.get_dis macro_dis_name]).log
            (if macro_dis_name = "structure" then [MicroEvent.redistribute] else [])))
      refine ⟨(if macro_dis_name = "structure" then [MicroEvent.redistribute] else [])
        ++ [MicroEvent.sum_all
              (foundmicromat (scan_elements inp.id_elch macro_dis_name inp.elements)),
            MicroEvent.broadcast_nummicromat,
            MicroEvent.gather_all (foundmicromatmyrank inp.MyPID
              (scan_elements inp.id_elch macro_dis_name inp.elements)),
            MicroEvent.comm_split
              (my_color inp (scan_elements inp.id_elch macro_dis_name inp.elements)) 0]
        ++ ev, ?_⟩
      rw [hev]
      simp [elect_and_split, MicroState.log]
  refine ⟨?_, ?_, ?_, ?_, ?_⟩
  · intro h
    have hc : micro_check inp.id_struct inp.id_scatra inp.id_elch
        = .error "Cannot have more than one multi-scale material!" := by
      unfold micro_check
      rw [if_neg (by omega), if_pos h]
    simp only [read_micro_fields, hc]
  · intro h
    revert h
    unfold read_micro_fields
    split
    · rename_i msg heq
      intro _
      exact micro_check_error _ _ _ msg heq
    · intro h; simp at h
    · rename_i macro_dis_name heq
      simp only
      split
      · intro h
        simp only [Except.error.injEq] at h
        exact absurd h (by decide)
      · intro h
        exact absurd rfl (read_micro_problems_error inp macro_dis_name _ _ _ h)
  · intro h1 h2 h3
    have hc : micro_check inp.id_struct inp.id_scatra inp.id_elch
        = .ok (.proceeds "structure") := by
      unfold micro_check
      rw [if_neg (by omega), if_neg (by omega), if_pos h1]
    exact ⟨hc, hproceeds _ hc⟩
  · intro h1 h2
    have hc : micro_check inp.id_struct inp.id_scatra inp.id_elch
        = .ok (.proceeds "scatra") := by
      unfold micro_check
      rw [if_neg (by omega), if_neg (by omega), if_neg (by omega)]
    exact ⟨hc, hproceeds _ hc⟩
  · intro h1 h2 h3
    have hc : micro_check inp.id_struct inp.id_scatra inp.id_elch = .ok .returns := by
      unfold micro_check
      rw [if_pos ⟨h1, h2, h3⟩]
    simp only [read_micro_fields, hc]

/-- C13: for every micro input file name n of a multiscale material and every
directory p of the macro input file, the name that `read_micro_fields`
broadcasts and hands to the reader of the micro input file is n itself when n
begins with `/`, and `p / n` otherwise; the length broadcast before it is the
length of that name. -/
theorem read_micro_material_path (inp : MicroInput) (macro_dis_name : String) (matid : Int)
    (st : MicroState) (d : Int × String)
    (hd : micro_dis_of inp macro_dis_name matid = .ok d) :
    (∃ rest, (read_micro_material inp macro_dis_name matid st).2.trace
        = st.trace ++ [MicroEvent.mat_factory matid, MicroEvent.broadcast_microdisnum d.1,
            MicroEvent.problem_instance d.1,
            MicroEvent.broadcast_length
              (if (inp.micro_input_file_name matid).head? = some '/'
                then inp.micro_input_file_name matid
                else path_append inp.input_path (inp.micro_input_file_name matid)).length,
            MicroEvent.broadcast_name
              (if (inp.micro_input_file_name matid).head? = some '/'
                then inp.micro_input_file_name matid
                else path_append inp.input_path (inp.micro_input_file_name matid)),
            MicroEvent.dat_file_reader
              (if (inp.micro_input_file_name matid).head? = some '/'
                then inp.micro_input_file_name matid
                else path_append inp.input_path (inp.micro_input_file_name matid))]
          ++ rest)
      ∧ ((inp.micro_input_file_name matid).head? ≠ some '/' → inp.input_path ≠ [] →
          inp.input_path.getLast? ≠ some '/' →
          path_append inp.input_path (inp.micro_input_file_name matid)
            = inp.input_path ++ '/' :: inp.micro_input_file_name matid) := by
  have hres : resolve_micro_inputfile_name inp.input_path (inp.micro_input_file_name matid)
      = (if (inp.micro_input_file_name matid).head? = some '/'
          then inp.micro_input_file_name matid
          else path_append inp.input_path (inp.micro_input_file_name matid)) := by
    unfold resolve_micro_inputfile_name
    by_cases h : (inp.micro_input_file_name matid).head? = some '/' <;> simp [h]
  refine ⟨?_, ?_⟩
  · rw [← hres]
    exact read_micro_material_trace inp macro_dis_name matid st d hd
  · intro h1 h2 h3
    simp [path_append, h1, h2, h3]

/-- C14: a run of `read_micro_fields` or of `read_microfields_np_support` that
is entered with the material registry reading from the macro problem and
returns normally leaves the registry reading from the macro problem, and in
its trace every `set_read_from_problem` is followed by a
`reset_read_from_problem` before the next material is taken up and before the
return, whatever the number of micro problems. -/
theorem read_micro_fields_restores_macro_slot (inp : MicroInput) (sup : SupportInput) :
    ((read_micro_fields inp MicroState.entry).1 = .ok () →
        (read_micro_fields inp MicroState.entry).2.read_from_problem = 0
          ∧ resets_follow_sets (read_micro_fields inp MicroState.entry).2.trace = true)
      ∧ ((read_microfields_np_support sup MicroState.entry).1 = .ok () →
        (read_microfields_np_support sup MicroState.entry).2.read_from_problem = 0
          ∧ resets_follow_sets (read_microfields_np_support sup MicroState.entry).2.trace
              = true) := by
  have hentry : macro_slot_restored MicroState.entry := ⟨rfl, rfl⟩
  constructor
  · intro hok
    obtain ⟨h1, h2⟩ := read_micro_fields_restores inp MicroState.entry hentry hok
    exact ⟨h1, by simp [resets_follow_sets, h2]⟩
  · intro hok
    obtain ⟨h1, h2⟩ := read_microfields_np_support_restores sup MicroState.entry hentry hok
    exact ⟨h1, by simp [resets_follow_sets, h2]⟩

theorem read_micro_fields_colors_witness :
    MicroEvent.comm_split 1 0
        ∈ (read_micro_fields example_micro_input MicroState.entry).2.trace
      ∧ participating_colors example_micro_input.MPI_UNDEFINED [true, false, true] = [0, 1] := by
  have h := read_micro_fields_colors [true, false, true] example_micro_input MicroState.entry
    "structure" 2 (by decide) (by decide) (by decide) (by decide) (by decide)
  exact ⟨h.1 (by decide), h.2.2.2.2⟩

theorem read_micro_material_path_witness :
    (∃ rest, (read_micro_material example_micro_input "structure" 1 MicroState.entry).2.trace
        = [MicroEvent.mat_factory 1, MicroEvent.broadcast_microdisnum 1,
            MicroEvent.problem_instance 1, MicroEvent.broadcast_length 19,
            MicroEvent.broadcast_name "/home/run/micro.dat".toList,
            MicroEvent.dat_file_reader "/home/run/micro.dat".toList] ++ rest)
      ∧ path_append "/home/run".toList "micro.dat".toList = "/home/run/micro.dat".toList :=
  ⟨(read_micro_material_path example_micro_input "structure" 1 MicroState.entry (1, "structure")
      (by decide)).1,
    (read_micro_material_path example_micro_input "structure" 1 MicroState.entry (1, "structure")
      (by decide)).2 (by decide) (by decide) (by decide)⟩

theorem read_micro_fields_restores_macro_slot_witness :
    (read_micro_fields example_micro_input MicroState.entry).1 = .ok ()
      ∧ (read_micro_fields example_micro_input MicroState.entry).2.read_from_problem = 0
      ∧ resets_follow_sets (read_micro_fields example_micro_input MicroState.entry).2.trace = true
      ∧ (read_microfields_np_support example_support_input MicroState.entry).1 = .ok ()
      ∧ resets_follow_sets
          (read_microfields_np_support example_support_input MicroState.entry).2.trace = true :=
  ⟨by decide,
    ((read_micro_fields_restores_macro_slot example_micro_input example_support_input).1
      (by decide)).1,
    ((read_micro_fields_restores_macro_slot example_micro_input example_support_input).1
      (by decide)).2,
    by decide,
    ((read_micro_fields_restores_macro_slot example_micro_input example_support_input).2
      (by decide)).2⟩

open Core.Conditions

/-! ### The conditions -/

theorem static_cast_unsigned_of_nonneg (i : Int) (h0 : 0 ≤ i) (h1 : i < 2 ^ 31) :
    static_cast_unsigned i = i.toNat := by
  unfold static_cast_unsigned
  rw [Int.emod_eq_of_lt h0 (by omega)]

theorem design_nodes_error_iff (what : String) (dX_fenode : List (List Int)) (first : Int)
    (h1 : first < 2 ^ 31) :
    (∃ e, design_nodes what dX_fenode first = .error e)
      ↔ (first < 0 ∨ (dX_fenode.length : Int) ≤ first) := by
  unfold design_nodes
  by_cases hneg : first < 0
  · simp [hneg]
  · have h0 : 0 ≤ first := by omega
    rw [static_cast_unsigned_of_nonneg first h0 h1]
    by_cases hge : (dX_fenode.length : Int) ≤ first
    · have : first.toNat ≥ dX_fenode.length := by omega
      simp [hge, this]
    · have : ¬ first.toNat ≥ dX_fenode.length := by omega
      simp [hneg, hge, this]

theorem design_nodes_in_range (what : String) (dX_fenode : List (List Int)) (first : Int)
    (h0 : 0 ≤ first) (h1 : first < 2 ^ 31) (hlt : first < dX_fenode.length) :
    design_nodes what dX_fenode first = .ok (dX_fenode.getD first.toNat []) := by
  unfold design_nodes
  rw [static_cast_unsigned_of_nonneg first h0 h1]
  have : ¬ first.toNat ≥ dX_fenode.length := by omega
  have hneg : ¬ first < 0 := by omega
  simp [hneg, this]

theorem design_nodes_error_message (what : String) (dX_fenode : List (List Int)) (first : Int)
    (e : String) (h : design_nodes what dX_fenode first = .error e) :
    e = range_message what first dX_fenode.length := by
  unfold design_nodes at h
  split at h
  · exact (Except.error.inj h).symm
  · cases h

theorem add_nodes_eq (topology : DesignTopology) (first : Int) (cond : Condition)
    (objects : List (List Int)) (hobj : design_objects topology cond.g_type = some objects) :
    ∃ what, add_nodes topology first cond
      = match design_nodes what objects first with
        | .error e => .error e
        | .ok nodes => .ok (cond.set_nodes nodes) := by
  unfold add_nodes
  cases hg : cond.g_type <;> rw [hg] at hobj <;> simp only [design_objects] at hobj
  · cases Option.some.inj hobj; exact ⟨"DPoint", rfl⟩
  · cases Option.some.inj hobj; exact ⟨"DLine", rfl⟩
  · cases Option.some.inj hobj; exact ⟨"DSurface", rfl⟩
  · cases Option.some.inj hobj; exact ⟨"DVolume", rfl⟩
  · cases hobj

theorem add_nodes_error_iff (topology : DesignTopology) (first : Int) (cond : Condition)
    (objects : List (List Int)) (hobj : design_objects topology cond.g_type = some objects)
    (h1 : first < 2 ^ 31) :
    (∃ e, add_nodes topology first cond = .error e)
      ↔ (first < 0 ∨ (objects.length : Int) ≤ first) := by
  obtain ⟨what, hw⟩ := add_nodes_eq topology first cond objects hobj
  rw [hw, ← design_nodes_error_iff what objects first h1]
  cases design_nodes what objects first <;> simp

theorem add_nodes_in_range (topology : DesignTopology) (first : Int) (cond : Condition)
    (objects : List (List Int)) (hobj : design_objects topology cond.g_type = some objects)
    (h0 : 0 ≤ first) (h1 : first < 2 ^ 31) (hlt : first < objects.length) :
    add_nodes topology first cond = .ok (cond.set_nodes (objects.getD first.toNat [])) := by
  obtain ⟨what, hw⟩ := add_nodes_eq topology first cond objects hobj
  rw [hw, design_nodes_in_range what objects first h0 h1 hlt]

theorem add_nodes_unspecified (topology : DesignTopology) (first : Int) (cond : Condition)
    (hobj : design_objects topology cond.g_type = none) :
    add_nodes topology first cond = .error "geometry type unspecified" := by
  unfold add_nodes
  cases hg : cond.g_type <;> rw [hg] at hobj
  all_goals exact absurd hobj (by simp [design_objects])

theorem sort_into_discretizations_length (condition : ConditionDefinition) (cond : Condition)
    (discretizations sorted : List Core.FE.Discretization)
    (h : sort_into_discretizations condition cond discretizations = .ok sorted) :
    sorted.length = discretizations.length := by
  induction discretizations generalizing sorted with
  | nil =>
    simp only [sort_into_discretizations] at h
    cases Except.ok.inj h; rfl
  | cons dis rest ih =>
    simp only [sort_into_discretizations] at h
    split at h
    · cases h
    · cases hrest : sort_into_discretizations condition cond rest with
      | error e => rw [hrest] at h; cases h
      | ok rest2 =>
        rw [hrest] at h
        cases Except.ok.inj h
        simp [ih rest2 hrest]

theorem sort_into_discretizations_error_iff (condition : ConditionDefinition) (cond : Condition)
    (discretizations : List Core.FE.Discretization) :
    (∃ e, sort_into_discretizations condition cond discretizations = .error e)
      ↔ (cond.nodes = [] ∧ discretizations ≠ []) := by
  induction discretizations with
  | nil => simp [sort_into_discretizations]
  | cons dis rest ih =>
    simp only [sort_into_discretizations]
    by_cases hn : cond.nodes = []
    · simp [hn]
    · have hl : ¬ cond.nodes.length = 0 := by simpa using hn
      have ih2 : ¬ ∃ e, sort_into_discretizations condition cond rest = .error e := by
        rw [ih]; exact fun h => hn h.1
      rw [if_neg hl]
      cases hrest : sort_into_discretizations condition cond rest with
      | error e => exact absurd ⟨e, hrest⟩ ih2
      | ok rest2 => simp [hn]

theorem sort_into_discretizations_message (condition : ConditionDefinition) (cond : Condition)
    (discretizations : List Core.FE.Discretization) (e : String)
    (h : sort_into_discretizations condition cond discretizations = .error e) :
    e = no_nodal_cloud_message condition.description cond.id := by
  induction discretizations with
  | nil => simp [sort_into_discretizations] at h
  | cons dis rest ih =>
    simp only [sort_into_discretizations] at h
    split at h
    · exact (Except.error.inj h).symm
    · cases hrest : sort_into_discretizations condition cond rest with
      | error e2 => rw [hrest] at h; cases Except.error.inj h; exact ih hrest
      | ok rest2 => rw [hrest] at h; cases h

theorem read_condition_length (topology : DesignTopology) (condition : ConditionDefinition)
    (discretizations sorted : List Core.FE.Discretization) (curr : Int × Condition)
    (h : read_condition topology condition discretizations curr = .ok sorted) :
    sorted.length = discretizations.length := by
  unfold read_condition at h
  cases hadd : add_nodes topology curr.1 curr.2 with
  | error e => rw [hadd] at h; cases h
  | ok cond =>
    rw [hadd] at h
    exact sort_into_discretizations_length condition cond discretizations sorted h

theorem read_condition_error_iff (topology : DesignTopology) (condition : ConditionDefinition)
    (discretizations : List Core.FE.Discretization) (curr : Int × Condition) :
    (∃ e, read_condition topology condition discretizations curr = .error e)
      ↔ ((∃ e, add_nodes topology curr.1 curr.2 = .error e)
        ∨ (∃ cond, add_nodes topology curr.1 curr.2 = .ok cond ∧ cond.nodes = []
            ∧ discretizations ≠ [])) := by
  unfold read_condition
  cases hadd : add_nodes topology curr.1 curr.2 with
  | error e => simp
  | ok cond => simp [sort_into_discretizations_error_iff]

theorem read_condition_error_congr (topology : DesignTopology) (condition : ConditionDefinition)
    (ds1 ds2 : List Core.FE.Discretization) (curr : Int × Condition)
    (hlen : ds2.length = ds1.length) :
    (∃ e, read_condition topology condition ds2 curr = .error e)
      ↔ (∃ e, read_condition topology condition ds1 curr = .error e) := by
  have hne : ds2 ≠ [] ↔ ds1 ≠ [] := by
    rw [← List.length_pos, ← List.length_pos, hlen]
  rw [read_condition_error_iff, read_condition_error_iff, hne]

theorem read_condition_definition_length (topology : DesignTopology)
    (condition : ConditionDefinition) (entries : List (Int × Condition))
    (discretizations sorted : List Core.FE.Discretization)
    (h : read_condition_definition topology condition entries discretizations = .ok sorted) :
    sorted.length = discretizations.length := by
  induction entries generalizing discretizations with
  | nil =>
    simp only [read_condition_definition] at h
    cases Except.ok.inj h; rfl
  | cons curr rest ih =>
    simp only [read_condition_definition] at h
    cases hcurr : read_condition topology condition discretizations curr with
    | error e => rw [hcurr] at h; cases h
    | ok ds =>
      rw [hcurr] at h
      rw [ih ds h, read_condition_length topology condition discretizations ds curr hcurr]

theorem read_condition_definition_error_iff (topology : DesignTopology)
    (condition : ConditionDefinition) (entries : List (Int × Condition))
    (discretizations : List Core.FE.Discretization) :
    (∃ e, read_condition_definition topology condition entries discretizations = .error e)
      ↔ ∃ curr ∈ entries, ∃ e,
          read_condition topology condition discretizations curr = .error e := by
  induction entries generalizing discretizations with
  | nil => simp [read_condition_definition]
  | cons curr rest ih =>
    simp only [read_condition_definition, List.mem_cons, exists_eq_or_imp]
    cases hcurr : read_condition topology condition discretizations curr with
    | error e => simp
    | ok ds =>
      have hlen := read_condition_length topology condition discretizations ds curr hcurr
      simp only [ih ds, reduceCtorEq, exists_false, false_or]
      constructor
      · rintro ⟨c, hc, he⟩
        exact ⟨c, hc, (read_condition_error_congr topology condition discretizations ds c
          hlen).1 he⟩
      · rintro ⟨c, hc, he⟩
        exact ⟨c, hc, (read_condition_error_congr topology condition discretizations ds c
          hlen).2 he⟩

theorem read_condition_definition_error_congr (topology : DesignTopology)
    (condition : ConditionDefinition) (entries : List (Int × Condition))
    (ds1 ds2 : List Core.FE.Discretization) (hlen : ds2.length = ds1.length) :
    (∃ e, read_condition_definition topology condition entries ds2 = .error e)
      ↔ (∃ e, read_condition_definition topology condition entries ds1 = .error e) := by
  rw [read_condition_definition_error_iff, read_condition_definition_error_iff]
  constructor
  · rintro ⟨c, hc, he⟩
    exact ⟨c, hc, (read_condition_error_congr topology condition ds1 ds2 c hlen).1 he⟩
  · rintro ⟨c, hc, he⟩
    exact ⟨c, hc, (read_condition_error_congr topology condition ds1 ds2 c hlen).2 he⟩

theorem read_conditions_error_iff (topology : DesignTopology)
    (condlist : List ConditionDefinition) (discretizations : List Core.FE.Discretization) :
    (∃ e, read_conditions topology condlist discretizations = .error e)
      ↔ ∃ condition ∈ condlist, ∃ curr ∈ condition.read, ∃ e,
          read_condition topology condition discretizations curr = .error e := by
  induction condlist generalizing discretizations with
  | nil => simp [read_conditions]
  | cons condition rest ih =>
    simp only [read_conditions, List.mem_cons, exists_eq_or_imp]
    cases hdef : read_condition_definition topology condition condition.read discretizations with
    | error e =>
      have := (read_condition_definition_error_iff topology condition condition.read
        discretizations).1 ⟨e, hdef⟩
      simp [this]
    | ok ds =>
      have hlen := read_condition_definition_length topology condition condition.read
        discretizations ds hdef
      have hnot : ¬ ∃ curr ∈ condition.read, ∃ e,
          read_condition topology condition discretizations curr = .error e := by
        rw [← read_condition_definition_error_iff, hdef]
        simp
      simp only [ih ds, hnot, false_or]
      constructor
      · rintro ⟨d, hd, c, hc, he⟩
        exact ⟨d, hd, c, hc, (read_condition_error_congr topology d discretizations ds c
          hlen).1 he⟩
      · rintro ⟨d, hd, c, hc, he⟩
        exact ⟨d, hd, c, hc, (read_condition_error_congr topology d discretizations ds c
          hlen).2 he⟩

/-- C15 (counterexample): the point condition 7 refers to design point 0, which
is in range (one design point was read), and `read_conditions` aborts all the
same: the design point has no nodes and the problem has a discretization. -/
theorem read_conditions_in_range_aborts :
    example_point_condition.read = [(0, ⟨7, .geometry_type_point, []⟩)]
      ∧ design_objects example_topology .geometry_type_point = some [[]]
      ∧ ¬ ((0 : Int) < 0 ∨ (([[]] : List (List Int)).length : Int) ≤ 0)
      ∧ read_conditions example_topology [example_point_condition] [example_discretization]
          = .error "Point Dirichlet condition 7 has no nodal cloud" := by
  decide

/-- C15 (amended): for a condition read by `read_conditions` with design-object
index `first` (an `int`) and geometry type point, line, surface or volume, the
switch aborts if and only if `first < 0` or `first` is not smaller than the
number of design objects of that type; when `first` is in range the nodal cloud
is set to entry `first` of the list of that same type, and the walk of the
condition then aborts exactly when that entry is empty and the problem has a
discretization; an out-of-range index makes `read_conditions` abort. A
condition of unspecified geometry type aborts. `read_conditions` as a whole
aborts if and only if the walk of one of the conditions read aborts. -/
theorem read_conditions_range_checks (topology : DesignTopology)
    (condlist : List ConditionDefinition) (discretizations : List Core.FE.Discretization)
    (condition : ConditionDefinition) (first : Int) (cond : Condition)
    (hcond : condition ∈ condlist) (hcurr : (first, cond) ∈ condition.read)
    (hint : first < 2 ^ 31) :
    (∀ objects, design_objects topology cond.g_type = some objects →
        ((∃ e, add_nodes topology first cond = .error e)
            ↔ (first < 0 ∨ (objects.length : Int) ≤ first))
          ∧ (0 ≤ first → first < objects.length →
              add_nodes topology first cond
                = .ok (cond.set_nodes (objects.getD first.toNat [])))
          ∧ ((∃ e, read_condition topology condition discretizations (first, cond) = .error e)
            ↔ ((first < 0 ∨ (objects.length : Int) ≤ first)
              ∨ (objects.getD first.toNat [] = [] ∧ discretizations ≠ [])))
          ∧ ((first < 0 ∨ (objects.length : Int) ≤ first) →
              ∃ e, read_conditions topology condlist discretizations = .error e))
      ∧ (design_objects topology cond.g_type = none →
          read_condition topology condition discretizations (first, cond)
              = .error "geometry type unspecified"
            ∧ ∃ e, read_conditions topology condlist discretizations = .error e)
      ∧ ((∃ e, read_conditions topology condlist discretizations = .error e)
        ↔ ∃ condition ∈ condlist, ∃ curr ∈ condition.read, ∃ e,
            read_condition topology condition discretizations curr = .error e) := by
  refine ⟨fun objects hobj => ?_, fun hobj => ?_,
    read_conditions_error_iff topology condlist discretizations⟩
  · have hsw := add_nodes_error_iff topology first cond objects hobj hint
    have hwalk : (∃ e, read_condition topology condition discretizations (first, cond)
          = .error e)
        ↔ ((first < 0 ∨ (objects.length : Int) ≤ first)
          ∨ (objects.getD first.toNat [] = [] ∧ discretizations ≠ [])) := by
      rw [read_condition_error_iff]
      by_cases hout : first < 0 ∨ (objects.length : Int) ≤ first
      · simp only [hout, true_or, iff_true]
        exact Or.inl (hsw.2 hout)
      · have hin := add_nodes_in_range topology first cond objects hobj (by omega) hint
          (by omega)
        simp only [hout, false_or]
        show ((∃ e, add_nodes topology first cond = .error e)
          ∨ ∃ c, add_nodes topology first cond = .ok c ∧ c.nodes = [] ∧ discretizations ≠ [])
          ↔ _
        rw [hin]
        simp [Condition.set_nodes]
    refine ⟨hsw, fun h0 hlt => add_nodes_in_range topology first cond objects hobj h0 hint hlt,
      hwalk, fun hout => ?_⟩
    exact (read_conditions_error_iff topology condlist discretizations).2
      ⟨condition, hcond, (first, cond), hcurr, hwalk.2 (Or.inl hout)⟩
  · have hadd := add_nodes_unspecified topology first cond hobj
    have hwalk : read_condition topology condition discretizations (first, cond)
        = .error "geometry type unspecified" := by
      unfold read_condition
      show (match add_nodes topology first cond with
        | Except.error e => Except.error e
        | Except.ok c => sort_into_discretizations condition c discretizations) = _
      rw [hadd]
    exact ⟨hwalk, (read_conditions_error_iff topology condlist discretizations).2
      ⟨condition, hcond, (first, cond), hcurr, _, hwalk⟩⟩

theorem read_conditions_range_checks_witness :
    add_nodes example_topology 1 ⟨8, .geometry_type_line, []⟩
        = .ok ⟨8, .geometry_type_line, [3]⟩
      ∧ ((∃ e, read_condition example_topology example_line_condition
            [example_discretization] (1, ⟨8, .geometry_type_line, []⟩) = .error e)
        ↔ (((1 : Int) < 0 ∨ ((2 : Nat) : Int) ≤ 1)
          ∨ (([3] : List Int) = [] ∧ [example_discretization] ≠ []))) :=
  ⟨((read_conditions_range_checks example_topology [example_line_condition]
      [example_discretization] example_line_condition 1 ⟨8, .geometry_type_line, []⟩
      (by decide) (by decide) (by decide)).1 [[1, 2], [3]] rfl).2.1 (by decide) (by decide),
    ((read_conditions_range_checks example_topology [example_line_condition]
      [example_discretization] example_line_condition 1 ⟨8, .geometry_type_line, []⟩
      (by decide) (by decide) (by decide)).1 [[1, 2], [3]] rfl).2.2.1⟩

/-! ### The materials -/

theorem insert_materials_ok (ids mmap registry : List Int)
    (h : insert_materials ids mmap = .ok registry) : registry = mmap ++ ids := by
  induction ids generalizing mmap with
  | nil =>
    simp only [insert_materials] at h
    cases Except.ok.inj h; simp
  | cons id rest ih =>
    simp only [insert_materials] at h
    split at h
    · cases h
    · rw [ih _ h]; simp

theorem insert_all_materials_ok (matlist : List MaterialDefinition) (mmap registry : List Int)
    (h : insert_all_materials matlist mmap = .ok registry) :
    registry = mmap ++ (matlist.map fun mat => mat.read).flatten := by
  induction matlist generalizing mmap with
  | nil =>
    simp only [insert_all_materials] at h
    cases Except.ok.inj h; simp
  | cons mat rest ih =>
    simp only [insert_all_materials] at h
    cases hmat : insert_materials mat.read mmap with
    | error e => rw [hmat] at h; cases h
    | ok m =>
      rw [hmat] at h
      rw [ih _ h, insert_materials_ok _ _ _ hmat]; simp

theorem check_material_line_ok_iff (mmap : List Int) (section_i : Str) :
    check_material_line mmap section_i = .ok ()
      ↔ ((extract_material_line section_i).failed = false
        ∧ (extract_material_line section_i).mat = "MAT".toList
        ∧ ∃ value, strtol (extract_material_line section_i).number = some value
            ∧ static_cast_int value ∈ mmap) := by
  simp only [check_material_line]
  by_cases hbad : (extract_material_line section_i).failed = true
      ∨ (extract_material_line section_i).mat ≠ "MAT".toList
  · rw [if_pos hbad]
    constructor
    · intro h; cases h
    · rintro ⟨h1, h2, _⟩
      rcases hbad with hb | hb
      · rw [h1] at hb; cases hb
      · exact absurd h2 hb
  · rw [if_neg hbad]
    have h1 : (extract_material_line section_i).failed = false := by
      cases hf : (extract_material_line section_i).failed
      · rfl
      · exact absurd (Or.inl hf) hbad
    have h2 : (extract_material_line section_i).mat = "MAT".toList := by
      by_contra hne
      exact hbad (Or.inr hne)
    cases hnum : strtol (extract_material_line section_i).number with
    | none => simp
    | some value =>
      by_cases hid : static_cast_int value ∈ mmap
      · simp [id_exists, hid, h1, h2]
      · simp [id_exists, hid]

theorem check_material_lines_ok_iff (mmap : List Int) (lines : List Str) :
    check_material_lines mmap lines = .ok ()
      ↔ ∀ section_i ∈ lines, check_material_line mmap section_i = .ok () := by
  induction lines with
  | nil => simp [check_material_lines]
  | cons l rest ih =>
    simp only [check_material_lines, List.mem_cons, forall_eq_or_imp]
    cases hl : check_material_line mmap l with
    | error e => simp
    | ok u => simp [ih]

theorem read_materials_ok (strip : Str → Str) (fs : FileSystem) (reader : DatFileReader)
    (matlist : List MaterialDefinition) (construction_error : Int → Option String)
    (mmap registry : List Int)
    (h : read_materials strip fs reader matlist construction_error mmap = .ok registry) :
    insert_all_materials matlist mmap = .ok registry
      ∧ check_material_lines registry
          (reader.lines_in_section strip fs "--MATERIALS").1 = .ok () := by
  unfold read_materials at h
  cases hins : insert_all_materials matlist mmap with
  | error e => rw [hins] at h; cases h
  | ok m =>
    rw [hins] at h
    simp only at h
    cases hcon : construct_materials construction_error (m.insertionSort fun a b => a ≤ b) with
    | error e => rw [hcon] at h; cases h
    | ok u =>
      rw [hcon] at h
      simp only at h
      cases hchk : check_material_lines m (reader.lines_in_section strip fs "--MATERIALS").1 with
      | error e => rw [hchk] at h; cases h
      | ok u2 =>
        rw [hchk] at h
        cases Except.ok.inj h
        exact ⟨rfl, hchk⟩

theorem except_ok_or_error {α : Type} (x : Except String α) :
    (∃ a, x = .ok a) ∨ (∃ e, x = .error e) := by
  cases x with
  | error e => exact Or.inr ⟨e, rfl⟩
  | ok a => exact Or.inl ⟨a, rfl⟩

/-- C16: `read_materials` returns normally only if every content line of the
section `--MATERIALS` yields three words, the first of which is `MAT` and the
second of which begins with a number, whose value as `int` is an id of the
material registry, the registry being the ids present on entry followed by the
ids read by the material definitions; and it aborts when some content line
yields fewer than three words, or a first word other than `MAT`, or a second
word without a leading number, or an id that is not in the registry. -/
theorem read_materials_identification (strip : Str → Str) (fs : FileSystem)
    (reader : DatFileReader) (matlist : List MaterialDefinition)
    (construction_error : Int → Option String) (mmap : List Int) :
    (∀ registry, read_materials strip fs reader matlist construction_error mmap = .ok registry →
        registry = mmap ++ (matlist.map fun mat => mat.read).flatten
          ∧ ∀ section_i ∈ (reader.lines_in_section strip fs "--MATERIALS").1,
              (extract_material_line section_i).failed = false
                ∧ (extract_material_line section_i).mat = "MAT".toList
                ∧ ∃ value, strtol (extract_material_line section_i).number = some value
                    ∧ static_cast_int value ∈ registry)
      ∧ (∀ section_i ∈ (reader.lines_in_section strip fs "--MATERIALS").1,
          ((extract_material_line section_i).failed = true
            ∨ (extract_material_line section_i).mat ≠ "MAT".toList
            ∨ strtol (extract_material_line section_i).number = none
            ∨ ∃ value, strtol (extract_material_line section_i).number = some value
                ∧ static_cast_int value ∉ mmap ++ (matlist.map fun mat => mat.read).flatten) →
          ∃ e, read_materials strip fs reader matlist construction_error mmap = .error e) := by
  have hok : ∀ registry,
      read_materials strip fs reader matlist construction_error mmap = .ok registry →
        registry = mmap ++ (matlist.map fun mat => mat.read).flatten
          ∧ ∀ section_i ∈ (reader.lines_in_section strip fs "--MATERIALS").1,
              (extract_material_line section_i).failed = false
                ∧ (extract_material_line section_i).mat = "MAT".toList
                ∧ ∃ value, strtol (extract_material_line section_i).number = some value
                    ∧ static_cast_int value ∈ registry := by
    intro registry h
    obtain ⟨hins, hchk⟩ := read_materials_ok strip fs reader matlist construction_error mmap
      registry h
    refine ⟨insert_all_materials_ok matlist mmap registry hins, fun l hl => ?_⟩
    exact (check_material_line_ok_iff registry l).1
      ((check_material_lines_ok_iff registry _).1 hchk l hl)
  refine ⟨hok, fun l hl hbad => ?_⟩
  rcases except_ok_or_error (read_materials strip fs reader matlist construction_error mmap)
    with ⟨registry, h⟩ | herr
  · exfalso
    obtain ⟨hreg, hall⟩ := hok registry h
    obtain ⟨h1, h2, value, h3, h4⟩ := hall l hl
    rcases hbad with hb | hb | hb | ⟨v, hv, hnot⟩
    · rw [h1] at hb; cases hb
    · exact hb h2
    · rw [h3] at hb; cases hb
    · rw [h3] at hv
      cases Option.some.inj hv
      exact hnot (hreg ▸ h4)
  · exact herr

theorem read_materials_identification_witness :
    read_materials strip_comment (fun _ => none) reader_with_materials example_matlist
        (fun _ => none) [] = .ok [1, 2]
      ∧ (∀ section_i ∈
            (reader_with_materials.lines_in_section strip_comment (fun _ => none)
              "--MATERIALS").1,
          (extract_material_line section_i).failed = false
            ∧ (extract_material_line section_i).mat = "MAT".toList
            ∧ ∃ value, strtol (extract_material_line section_i).number = some value
                ∧ static_cast_int value ∈ [1, 2])
      ∧ ∃ e, read_materials strip_comment (fun _ => none) reader_with_materials
          [⟨"MAT_ElastHyper", [1]⟩] (fun _ => none) [] = .error e :=
  ⟨by decide,
    ((read_materials_identification strip_comment (fun _ => none) reader_with_materials
      example_matlist (fun _ => none) []).1 [1, 2] (by decide)).2,
    (read_materials_identification strip_comment (fun _ => none) reader_with_materials
      [⟨"MAT_ElastHyper", [1]⟩] (fun _ => none) []).2
      "MAT 2 ELAST_CoupNeoHooke YOUNG 1.0".toList (by decide)
      (Or.inr (Or.inr (Or.inr ⟨2, by decide, by decide⟩)))⟩

open PaSI

/-! ### The partitioned two-way coupling -/

theorem convergence_check_of_ignore_false (algo : PasiPartTwoWayCoup) (norms : IncrementNorms)
    (itnum : Int) (h : algo.ignoreconvcheck_ = false) :
    algo.convergence_check norms itnum = algo.tolerances_satisfied norms := by
  simp [PasiPartTwoWayCoup.convergence_check, h]

theorem outerloop_from_total (algo : PasiPartTwoWayCoup) (norms : Int → IncrementNorms)
    (fuel : Nat) (itnum : Int) (h0 : 0 ≤ itnum) (h1 : 1 ≤ fuel)
    (hfuel : (algo.itmax_.toNat : Int) + 1 - itnum ≤ fuel) :
    ∃ r, algo.outerloop_from norms fuel itnum = some r := by
  induction fuel generalizing itnum with
  | zero => omega
  | succ fuel ih =>
    simp only [PasiPartTwoWayCoup.outerloop_from]
    split
    · exact ⟨_, rfl⟩
    · rename_i hcheck
      split
      · exact ⟨_, rfl⟩
      · rename_i habort
        have hlt : itnum + 1 ≤ algo.itmax_ := by
          by_contra hgt
          have hgt2 : itnum + 1 > algo.itmax_ := by omega
          cases hign : algo.ignoreconvcheck_
          · exact habort ⟨hgt2, hign⟩
          · apply hcheck
            have : itnum + 1 ≥ algo.itmax_ := by omega
            simp [PasiPartTwoWayCoup.convergence_check, hign, this]
        have hnat : algo.itmax_ ≤ (algo.itmax_.toNat : Int) := Int.self_le_toNat _
        exact ih (itnum + 1) (by omega) (by omega) (by push_cast at hfuel ⊢; omega)

theorem outerloop_from_returns (algo : PasiPartTwoWayCoup) (norms : Int → IncrementNorms)
    (fuel : Nat) (itnum n : Int)
    (h : algo.outerloop_from norms fuel itnum = some (.returns n)) :
    algo.convergence_check (norms n) n = true := by
  induction fuel generalizing itnum with
  | zero => simp [PasiPartTwoWayCoup.outerloop_from] at h
  | succ fuel ih =>
    simp only [PasiPartTwoWayCoup.outerloop_from] at h
    split at h
    · rename_i hcheck
      cases Option.some.inj h
      exact hcheck
    · split at h
      · cases Option.some.inj h
      · exact ih _ h

theorem outerloop_from_aborts (algo : PasiPartTwoWayCoup) (norms : Int → IncrementNorms)
    (hign : algo.ignoreconvcheck_ = false)
    (habove : ∀ k, algo.tolerances_satisfied (norms k) = false)
    (fuel : Nat) (itnum : Int) (h0 : 0 ≤ itnum) (h1 : itnum ≤ (algo.itmax_.toNat : Int))
    (hfuel : (fuel : Int) = (algo.itmax_.toNat : Int) + 1 - itnum) :
    algo.outerloop_from norms fuel itnum = some (.aborts ((algo.itmax_.toNat : Int) + 1)) := by
  induction fuel generalizing itnum with
  | zero => push_cast at hfuel; omega
  | succ fuel ih =>
    have hnat : algo.itmax_ ≤ (algo.itmax_.toNat : Int) := Int.self_le_toNat _
    have hnat0 : algo.itmax_ < 0 → (algo.itmax_.toNat : Int) = 0 := by omega
    have hnat1 : 0 ≤ algo.itmax_ → (algo.itmax_.toNat : Int) = algo.itmax_ := by omega
    simp only [PasiPartTwoWayCoup.outerloop_from,
      convergence_check_of_ignore_false algo _ _ hign, habove, Bool.false_eq_true, if_false]
    by_cases hgt : itnum + 1 > algo.itmax_
    · rw [if_pos ⟨hgt, hign⟩]
      have : itnum + 1 = (algo.itmax_.toNat : Int) + 1 := by omega
      rw [this]
    · rw [if_neg (fun h => hgt h.1)]
      exact ih (itnum + 1) (by omega) (by omega) (by push_cast at hfuel ⊢; omega)

theorem outerloop_from_ignored (algo : PasiPartTwoWayCoup) (norms : Int → IncrementNorms)
    (hign : algo.ignoreconvcheck_ = true)
    (habove : ∀ k, algo.tolerances_satisfied (norms k) = false)
    (fuel : Nat) (itnum : Int) (h0 : 0 ≤ itnum) (h1 : itnum < max algo.itmax_ 1)
    (hfuel : max algo.itmax_ 1 - itnum ≤ (fuel : Int)) :
    algo.outerloop_from norms fuel itnum = some (.returns (max algo.itmax_ 1)) := by
  induction fuel generalizing itnum with
  | zero => push_cast at hfuel; omega
  | succ fuel ih =>
    simp only [PasiPartTwoWayCoup.outerloop_from, PasiPartTwoWayCoup.convergence_check, habove,
      hign, Bool.false_or, Bool.and_true, decide_eq_true_eq]
    by_cases hge : itnum + 1 ≥ algo.itmax_
    · rw [if_pos hge]
      have : itnum + 1 = max algo.itmax_ 1 := by omega
      rw [this]
    · rw [if_neg hge, if_neg (by simp)]
      exact ih (itnum + 1) (by omega) (by omega) (by push_cast at hfuel ⊢; omega)

theorem Vector_Update_reset (A this : PaSI.Vector) (h : this.length = A.length) :
    Vector.Update 1 A 0 this = A := by
  unfold Vector.Update
  induction A generalizing this with
  | nil => simp
  | cons a rest ih =>
    cases this with
    | nil => simp at h
    | cons b rest2 =>
      simp only [List.zipWith_cons_cons, List.cons.injEq]
      exact ⟨by ring, ih rest2 (by simpa using h)⟩

theorem Vector_Update_build (A B : PaSI.Vector) :
    Vector.Update 1 A (-1) B = Vector.sub A B := by
  unfold Vector.Update Vector.sub
  congr 1
  funext x y
  ring

/-- C18: `convergence_check(itnum)` returns converged if and only if all four
tolerances are satisfied (relative and scaled norm of the interface
displacement increment, relative and scaled norm of the interface force
increment), or `itnum ≥ itmax_` and the flag to ignore the convergence check is
set; increments below all four tolerances give converged on the first call,
and one violated tolerance gives not converged when `itnum < itmax_`. -/
theorem convergence_check_iff (algo : PasiPartTwoWayCoup) (norms : IncrementNorms)
    (itnum : Int) :
    (algo.convergence_check norms itnum = true
        ↔ ((norms.relativedisp ≤ algo.convtolrelativedisp_
              ∧ norms.scaleddisp ≤ algo.convtolscaleddisp_
              ∧ norms.relativeforce ≤ algo.convtolrelativeforce_
              ∧ norms.scaledforce ≤ algo.convtolscaledforce_)
            ∨ (itnum ≥ algo.itmax_ ∧ algo.ignoreconvcheck_ = true)))
      ∧ ((norms.relativedisp < algo.convtolrelativedisp_
            ∧ norms.scaleddisp < algo.convtolscaleddisp_
            ∧ norms.relativeforce < algo.convtolrelativeforce_
            ∧ norms.scaledforce < algo.convtolscaledforce_) →
          algo.convergence_check norms 1 = true)
      ∧ (itnum < algo.itmax_ →
          (algo.convtolrelativedisp_ < norms.relativedisp
            ∨ algo.convtolscaleddisp_ < norms.scaleddisp
            ∨ algo.convtolrelativeforce_ < norms.relativeforce
            ∨ algo.convtolscaledforce_ < norms.scaledforce) →
          algo.convergence_check norms itnum = false) := by
  have hiff : ∀ n : Int, algo.convergence_check norms n = true
      ↔ ((norms.relativedisp ≤ algo.convtolrelativedisp_
            ∧ norms.scaleddisp ≤ algo.convtolscaleddisp_
            ∧ norms.relativeforce ≤ algo.convtolrelativeforce_
            ∧ norms.scaledforce ≤ algo.convtolscaledforce_)
          ∨ (n ≥ algo.itmax_ ∧ algo.ignoreconvcheck_ = true)) := by
    intro n
    simp only [PasiPartTwoWayCoup.convergence_check, PasiPartTwoWayCoup.tolerances_satisfied,
      Bool.or_eq_true, Bool.and_eq_true, decide_eq_true_eq, and_assoc]
  refine ⟨hiff itnum, fun h => ?_, fun hlt hviol => ?_⟩
  · exact (hiff 1).2 (Or.inl ⟨le_of_lt h.1, le_of_lt h.2.1, le_of_lt h.2.2.1, le_of_lt h.2.2.2⟩)
  · cases hc : algo.convergence_check norms itnum
    · rfl
    · exfalso
      rcases (hiff itnum).1 hc with hall | hmax
      · rcases hviol with h | h | h | h
        · exact absurd hall.1 (not_le.2 h)
        · exact absurd hall.2.1 (not_le.2 h)
        · exact absurd hall.2.2.1 (not_le.2 h)
        · exact absurd hall.2.2.2 (not_le.2 h)
      · omega

theorem convergence_check_iff_witness :
    (example_algo false).convergence_check example_norms_below 1 = true
      ∧ (example_algo false).convergence_check ⟨1 / 1000, 1 / 10, 1 / 1000, 1 / 1000⟩ 1
          = false :=
  ⟨(convergence_check_iff (example_algo false) example_norms_below 1).2.1 (by decide!),
    (convergence_check_iff (example_algo false) ⟨1 / 1000, 1 / 10, 1 / 1000, 1 / 1000⟩ 1).2.2
      (by decide!) (Or.inr (Or.inl (by decide!)))⟩

/-- C19: every run of the outer loop ends. With the flag to ignore the
convergence check unset, the loop returns to the time loop only after an
iteration whose increments satisfy all four tolerances, and when the
increments stay above tolerance it aborts in the first iteration whose count
exceeds `itmax_`; with the flag set, the same increments are reported as
converged in iteration `itmax_` and the loop returns. -/
theorem outerloop_aborts_unconverged (algo : PasiPartTwoWayCoup)
    (norms : Int → IncrementNorms) :
    (∃ r, algo.outerloop norms = some r)
      ∧ (algo.ignoreconvcheck_ = false →
          ∀ itnum, algo.outerloop norms = some (.returns itnum) →
            algo.tolerances_satisfied (norms itnum) = true)
      ∧ (algo.ignoreconvcheck_ = false →
          (∀ k, algo.tolerances_satisfied (norms k) = false) →
          algo.outerloop norms = some (.aborts (max algo.itmax_ 0 + 1)))
      ∧ (algo.ignoreconvcheck_ = true →
          (∀ k, algo.tolerances_satisfied (norms k) = false) →
          algo.outerloop norms = some (.returns (max algo.itmax_ 1))
            ∧ algo.convergence_check (norms (max algo.itmax_ 1)) (max algo.itmax_ 1) = true) := by
  have hnat : (algo.itmax_.toNat : Int) = max algo.itmax_ 0 := Int.toNat_eq_max _
  refine ⟨?_, fun hign itnum h => ?_, fun hign habove => ?_, fun hign habove => ?_⟩
  · exact outerloop_from_total algo norms _ 0 (le_refl _) (by omega) (by push_cast; omega)
  · rw [← convergence_check_of_ignore_false algo _ itnum hign]
    exact outerloop_from_returns algo norms _ 0 itnum h
  · rw [← hnat]
    exact outerloop_from_aborts algo norms hign habove _ 0 (le_refl _) (by omega)
      (by push_cast; omega)
  · have hret := outerloop_from_ignored algo norms hign habove (algo.itmax_.toNat + 1) 0
      (le_refl _) (by omega) (by push_cast; omega)
    exact ⟨hret, outerloop_from_returns algo norms _ 0 _ hret⟩

theorem outerloop_aborts_unconverged_witness :
    (example_algo false).itmax_ = 2
      ∧ (∀ k, (example_algo false).tolerances_satisfied (example_norms_above k) = false)
      ∧ (example_algo false).outerloop example_norms_above = some (.aborts 3)
      ∧ (example_algo true).outerloop example_norms_above = some (.returns 2) :=
  ⟨rfl,
    fun _ => (by decide! :
      (example_algo false).tolerances_satisfied ⟨1 / 10, 1 / 10, 1 / 10, 1 / 10⟩ = false),
    (outerloop_aborts_unconverged (example_algo false) example_norms_above).2.2.1 rfl
      (fun _ => (by decide! :
        (example_algo false).tolerances_satisfied ⟨1 / 10, 1 / 10, 1 / 10, 1 / 10⟩ = false)),
    ((outerloop_aborts_unconverged (example_algo true) example_norms_above).2.2.2 rfl
      (fun _ => (by decide! :
        (example_algo true).tolerances_satisfied ⟨1 / 10, 1 / 10, 1 / 10, 1 / 10⟩
          = false))).1⟩

/-- C20: after `reset_increment_states(d_old, f_old)`, field solves that leave
the interface states `d_new` and `f_new`, and `build_increment_states()`, the
interface displacement increment is `d_new - d_old` and the interface force
increment is `f_new - f_old`, entry by entry; the increment vectors have the
length of the interface states. -/
theorem build_increment_states_difference (st : InterfaceStates)
    (d_old f_old d_new f_new : PaSI.Vector)
    (hd : st.intfdispincnp_.length = d_old.length)
    (hf : st.intfforceincnp_.length = f_old.length) :
    (((st.reset_increment_states d_old f_old).solve_fields d_new f_new).build_increment_states
        ).intfdispincnp_ = Vector.sub d_new d_old
      ∧ (((st.reset_increment_states d_old f_old).solve_fields d_new f_new).build_increment_states
        ).intfforceincnp_ = Vector.sub f_new f_old
      ∧ (∀ (i : Nat) (a b : ℚ), d_new[i]? = some a → d_old[i]? = some b →
          (((st.reset_increment_states d_old f_old).solve_fields d_new
            f_new).build_increment_states).intfdispincnp_[i]? = some (a - b))
      ∧ (∀ (i : Nat) (a b : ℚ), f_new[i]? = some a → f_old[i]? = some b →
          (((st.reset_increment_states d_old f_old).solve_fields d_new
            f_new).build_increment_states).intfforceincnp_[i]? = some (a - b)) := by
  have h1 : (((st.reset_increment_states d_old f_old).solve_fields d_new
      f_new).build_increment_states).intfdispincnp_ = Vector.sub d_new d_old := by
    show Vector.Update 1 d_new (-1) (Vector.Update 1 d_old 0 st.intfdispincnp_) = _
    rw [Vector_Update_reset d_old _ hd, Vector_Update_build]
  have h2 : (((st.reset_increment_states d_old f_old).solve_fields d_new
      f_new).build_increment_states).intfforceincnp_ = Vector.sub f_new f_old := by
    show Vector.Update 1 f_new (-1) (Vector.Update 1 f_old 0 st.intfforceincnp_) = _
    rw [Vector_Update_reset f_old _ hf, Vector_Update_build]
  refine ⟨h1, h2, fun i a b ha hb => ?_, fun i a b ha hb => ?_⟩
  · rw [h1]
    simp [Vector.sub, List.getElem?_zipWith, ha, hb]
  · rw [h2]
    simp [Vector.sub, List.getElem?_zipWith, ha, hb]

theorem build_increment_states_difference_witness :
    ((((⟨[1, 2], [3], [0, 0], [0]⟩ : InterfaceStates).reset_increment_states [1, 2]
        [3]).solve_fields [5 / 2, 1] [7]).build_increment_states).intfdispincnp_ = [3 / 2, -1]
      ∧ ((((⟨[1, 2], [3], [0, 0], [0]⟩ : InterfaceStates).reset_increment_states [1, 2]
        [3]).solve_fields [5 / 2, 1] [7]).build_increment_states).intfforceincnp_ = [4] :=
  ⟨(build_increment_states_difference ⟨[1, 2], [3], [0, 0], [0]⟩ [1, 2] [3] [5 / 2, 1] [7]
      rfl rfl).1.trans (by decide!),
    (build_increment_states_difference ⟨[1, 2], [3], [0, 0], [0]⟩ [1, 2] [3] [5 / 2, 1] [7]
      rfl rfl).2.1.trans (by decide!)⟩

open Mat.PAR

/-! ### The growth direction -/

theorem read_fields_fluid_variant_flags (pt : ProblemType) (dt : ShapeFunctionType)
    (xw read_mesh : Bool) (hpt : pt = .fluid ∨ pt = .fluid_redmodels) :
    (run_read_fields ⟨pt, dt, xw, false, false, false, false, false⟩ read_mesh).1 = .ok ()
      ∧ (run_read_fields ⟨pt, dt, xw, false, false, false, false, false⟩
          read_mesh).2.discretizations.filter (fun d => d.name = "fluid")
          = [⟨"fluid",
              if dt = .hdg then .DiscretizationHDG
              else if dt = .nurbs then .NurbsDiscretization
              else if xw = true then .DiscretizationXWall
              else .DiscretizationFaces,
              some 0⟩]
      ∧ (run_read_fields ⟨pt, dt, xw, false, false, false, false, false⟩
          read_mesh).2.discretizationmap.filter (fun e => e.1 = "fluid") = [("fluid", 0)]
      ∧ ((dt = .hdg ∨ dt = .nurbs) →
          run_read_fields ⟨pt, dt, !xw, false, false, false, false, false⟩ read_mesh
            = run_read_fields ⟨pt, dt, xw, false, false, false, false, false⟩ read_mesh)
      ∧ (¬ (dt = .hdg ∨ dt = .nurbs) →
          (run_read_fields ⟨pt, dt, !xw, false, false, false, false, false⟩
              read_mesh).2.discretizations[0]?
            ≠ (run_read_fields ⟨pt, dt, xw, false, false, false, false, false⟩
              read_mesh).2.discretizations[0]?) := by
  rcases hpt with h | h <;> subst h <;> cases dt <;> cases xw <;> cases read_mesh <;> decide

/-- C23: for the problem types fluid and fluid_redmodels, `read_fields` returns
normally having created and registered exactly one discretization named
"fluid" (the first object it creates), of the class chosen with this
precedence: `DiscretizationHDG` when the spatial
approximation is hdg, otherwise `NurbsDiscretization` when it is nurbs,
otherwise `DiscretizationXWall` when the flag X_WALL is set, otherwise
`DiscretizationFaces`. Hence the flag X_WALL changes the run only when the
approximation is neither hdg nor nurbs. -/
theorem read_fields_fluid_variant (p : Problem) (read_mesh : Bool)
    (hpt : p.problem_type = .fluid ∨ p.problem_type = .fluid_redmodels) :
    (run_read_fields p read_mesh).1 = .ok ()
      ∧ (run_read_fields p read_mesh).2.discretizations.filter (fun d => d.name = "fluid")
          = [⟨"fluid",
              if p.spatial_approximation_type = .hdg then .DiscretizationHDG
              else if p.spatial_approximation_type = .nurbs then .NurbsDiscretization
              else if p.x_wall = true then .DiscretizationXWall
              else .DiscretizationFaces,
              some 0⟩]
      ∧ (run_read_fields p read_mesh).2.discretizationmap.filter (fun e => e.1 = "fluid")
          = [("fluid", 0)]
      ∧ ((p.spatial_approximation_type = .hdg ∨ p.spatial_approximation_type = .nurbs) →
          run_read_fields { p with x_wall := !p.x_wall } read_mesh = run_read_fields p read_mesh)
      ∧ (¬ (p.spatial_approximation_type = .hdg ∨ p.spatial_approximation_type = .nurbs) →
          (run_read_fields { p with x_wall := !p.x_wall } read_mesh).2.discretizations[0]?
            ≠ (run_read_fields p read_mesh).2.discretizations[0]?) := by
  obtain ⟨pt, dt, xw, xff, a1, a2, a3, am⟩ := p
  simp only at hpt
  have hflip : ∀ b : Bool,
      run_read_fields ⟨pt, dt, b, xff, a1, a2, a3, am⟩ read_mesh
        = run_read_fields ⟨pt, dt, b, false, false, false, false, false⟩ read_mesh := by
    intro b
    rw [run_read_fields_of_flags]
    rcases hpt with h | h <;> subst h <;> rfl
  simp only [hflip]
  exact read_fields_fluid_variant_flags pt dt xw read_mesh hpt

theorem read_fields_fluid_variant_witness :
    (run_read_fields ⟨.fluid, .polynomial, true, false, false, false, false, false⟩
        true).2.discretizations.filter (fun d => d.name = "fluid")
        = [⟨"fluid", .DiscretizationXWall, some 0⟩]
      ∧ (run_read_fields ⟨.fluid, .hdg, true, false, false, false, false, false⟩
        true).2.discretizations.filter (fun d => d.name = "fluid")
        = [⟨"fluid", .DiscretizationHDG, some 0⟩] :=
  ⟨(read_fields_fluid_variant ⟨.fluid, .polynomial, true, false, false, false, false, false⟩
      true (Or.inl rfl)).2.1,
    (read_fields_fluid_variant ⟨.fluid, .hdg, true, false, false, false, false, false⟩
      true (Or.inl rfl)).2.1⟩

/-! ### The groups of supporting ranks -/

theorem increment_at_replicate (a q : Nat) (k : Nat) (rest : List Nat) :
    increment_at (List.replicate k a ++ q :: rest) k
      = some (List.replicate k a ++ (q + 1) :: rest) := by
  induction k with
  | zero => simp [increment_at]
  | succ k ih =>
    show Option.map (fun r => a :: r) (increment_at (List.replicate k a ++ q :: rest) k) = _
    rw [ih]
    rfl

theorem fill_remaining_replicate (q : Nat) (count k n : Nat) (h : count ≤ n) :
    fill_remaining count k (List.replicate k (q + 1) ++ List.replicate n q)
      = some (List.replicate (k + count) (q + 1) ++ List.replicate (n - count) q) := by
  induction count generalizing k n with
  | zero => simp [fill_remaining]
  | succ count ih =>
    obtain ⟨n, rfl⟩ : ∃ n', n = n' + 1 := ⟨n - 1, by omega⟩
    simp only [fill_remaining, List.replicate_succ, increment_at_replicate, Option.some_bind]
    have hrep : List.replicate k (q + 1) ++ (q + 1) :: List.replicate n q
        = List.replicate (k + 1) (q + 1) ++ List.replicate n q := by
      rw [List.replicate_succ', List.append_assoc]
      rfl
    rw [hrep, ih (k + 1) n (by omega)]
    congr 2
    · congr 1; omega
    · congr 1; omega

theorem supgrouplayout_eq (NumProc nummicromat : Nat) (hm : 1 ≤ nummicromat) :
    supgrouplayout NumProc nummicromat
      = some (List.replicate (NumProc % nummicromat) (NumProc / nummicromat + 1)
          ++ List.replicate (nummicromat - NumProc % nummicromat) (NumProc / nummicromat)) := by
  have hrem : NumProc - NumProc / nummicromat * nummicromat = NumProc % nummicromat := by
    have := Nat.div_add_mod NumProc nummicromat
    have hc : NumProc / nummicromat * nummicromat = nummicromat * (NumProc / nummicromat) :=
      Nat.mul_comm _ _
    omega
  have hlt : NumProc % nummicromat < nummicromat := Nat.mod_lt _ (by omega)
  have h := fill_remaining_replicate (NumProc / nummicromat) (NumProc % nummicromat) 0
    nummicromat (le_of_lt hlt)
  simp only [List.replicate_zero, List.nil_append, Nat.zero_add] at h
  simp only [supgrouplayout, hrem, h]

theorem sum_take_mono (l : List Nat) (j k : Nat) (h : j ≤ k) :
    (l.take j).sum ≤ (l.take k).sum := by
  induction l generalizing j k with
  | nil => simp
  | cons a rest ih =>
    cases j with
    | zero => simp
    | succ j =>
      cases k with
      | zero => omega
      | succ k =>
        simp only [List.take_succ_cons, List.sum_cons]
        exact Nat.add_le_add_left (ih j k (by omega)) a

theorem sum_take_le (l : List Nat) (j : Nat) : (l.take j).sum ≤ l.sum := by
  by_cases h : j ≤ l.length
  · have := sum_take_mono l j l.length h
    simpa using this
  · rw [List.take_of_length_le (by omega)]

theorem support_color_loop_spec (MyPID : Nat) (layout : List Nat) (color : Int) (gsum : Nat)
    (hlo : gsum ≤ MyPID) (hhi : MyPID < gsum + layout.sum) :
    ∃ j : Nat, j < layout.length
      ∧ support_color_loop MyPID layout color gsum = some (color + 1 + (j : Int))
      ∧ gsum + (layout.take j).sum ≤ MyPID ∧ MyPID < gsum + (layout.take (j + 1)).sum := by
  induction layout generalizing color gsum with
  | nil => simp at hhi; omega
  | cons group rest ih =>
    simp only [support_color_loop]
    by_cases hle : gsum + group ≤ MyPID
    · rw [if_pos hle]
      obtain ⟨j, hj, hloop, h1, h2⟩ := ih (color + 1) (gsum + group) hle
        (by simp only [List.sum_cons] at hhi; omega)
      refine ⟨j + 1, by simp; omega, ?_, ?_, ?_⟩
      · rw [hloop]
        congr 1
        push_cast
        ring
      · simp only [List.take_succ_cons, List.sum_cons]; omega
      · simp only [List.take_succ_cons, List.sum_cons]; omega
    · rw [if_neg hle]
      refine ⟨0, by simp, by simp, by simp; omega, ?_⟩
      simp only [Nat.zero_add, List.take_succ_cons, List.take_zero, List.sum_cons, List.sum_nil]
      omega

theorem bracket_unique (layout : List Nat) (r c d : Nat)
    (hc1 : (layout.take c).sum ≤ r) (hc2 : r < (layout.take (c + 1)).sum)
    (hd1 : (layout.take d).sum ≤ r) (hd2 : r < (layout.take (d + 1)).sum) : c = d := by
  rcases Nat.lt_trichotomy c d with h | h | h
  · have := sum_take_mono layout (c + 1) d (by omega)
    omega
  · exact h
  · have := sum_take_mono layout (d + 1) c (by omega)
    omega

theorem support_color_loop_iff (layout : List Nat) (r k : Nat) (hr : r < layout.sum) :
    support_color_loop r layout (-1) 0 = some (k : Int)
      ↔ ((layout.take k).sum ≤ r ∧ r < (layout.take (k + 1)).sum) := by
  obtain ⟨j, _, hloop, h1, h2⟩ := support_color_loop_spec r layout (-1) 0 (Nat.zero_le _)
    (by omega)
  simp only [Nat.zero_add] at h1 h2
  have hj : (-1 : Int) + 1 + (j : Int) = (j : Int) := by ring
  rw [hloop, hj]
  constructor
  · intro h
    have : j = k := by
      have := Option.some.inj h
      exact_mod_cast this
    subst this
    exact ⟨h1, h2⟩
  · intro h
    rw [bracket_unique layout r j k h1 h2 h.1 h.2]

theorem support_color_count (layout : List Nat) (k : Nat) (hk : k < layout.length) :
    ((Finset.range layout.sum).filter
        (fun r => support_color_loop r layout (-1) 0 = some (k : Int))).card
      = layout.getD k 0 := by
  have hsucc := List.sum_take_succ layout k hk
  have hle := sum_take_le layout (k + 1)
  have hset : (Finset.range layout.sum).filter
      (fun r => support_color_loop r layout (-1) 0 = some (k : Int))
      = Finset.Ico (layout.take k).sum (layout.take (k + 1)).sum := by
    ext r
    simp only [Finset.mem_filter, Finset.mem_range, Finset.mem_Ico]
    constructor
    · rintro ⟨hr, hloop⟩
      exact (support_color_loop_iff layout r k hr).1 hloop
    · rintro ⟨h1, h2⟩
      have hr : r < layout.sum := by omega
      exact ⟨hr, (support_color_loop_iff layout r k hr).2 ⟨h1, h2⟩⟩
  rw [hset, Nat.card_Ico, hsucc, List.getD_eq_getElem _ _ hk]
  omega

theorem support_color_mono (layout : List Nat) (r s c d : Nat) (hrs : r ≤ s)
    (hs : s < layout.sum)
    (hc : support_color_loop r layout (-1) 0 = some (c : Int))
    (hd : support_color_loop s layout (-1) 0 = some (d : Int)) : c ≤ d := by
  have h1 := (support_color_loop_iff layout r c (by omega)).1 hc
  have h2 := (support_color_loop_iff layout s d hs).1 hd
  by_contra hlt
  have := sum_take_mono layout (d + 1) c (by omega)
  omega

theorem supgrouplayout_sum (NumProc nummicromat : Nat) (hm : 1 ≤ nummicromat) :
    (List.replicate (NumProc % nummicromat) (NumProc / nummicromat + 1)
      ++ List.replicate (nummicromat - NumProc % nummicromat) (NumProc / nummicromat)).sum
      = NumProc := by
  have hlt : NumProc % nummicromat < nummicromat := Nat.mod_lt _ (by omega)
  obtain ⟨d, hd⟩ : ∃ d, nummicromat = NumProc % nummicromat + d :=
    ⟨nummicromat - NumProc % nummicromat, by omega⟩
  have hdiv := Nat.div_add_mod NumProc nummicromat
  have hsub : nummicromat - NumProc % nummicromat = d := by omega
  rw [hsub]
  simp only [List.sum_append, List.sum_replicate, smul_eq_mul]
  have hexp : nummicromat * (NumProc / nummicromat)
      = NumProc % nummicromat * (NumProc / nummicromat) + d * (NumProc / nummicromat) := by
    have key : ∀ q r e m : Nat, m = r + e → m * q = r * q + e * q := by
      intro q r e m h
      rw [h, Nat.add_mul]
    exact key _ _ _ _ hd
  have hexp2 : NumProc % nummicromat * (NumProc / nummicromat + 1)
      = NumProc % nummicromat * (NumProc / nummicromat) + NumProc % nummicromat := by
    rw [Nat.mul_add, Nat.mul_one]
  omega

theorem supgrouplayout_length_sum (NumProc nummicromat : Nat) (hm : 1 ≤ nummicromat)
    (layout : List Nat) (hl : supgrouplayout NumProc nummicromat = some layout) :
    layout.length = nummicromat ∧ layout.sum = NumProc := by
  have hlt : NumProc % nummicromat < nummicromat := Nat.mod_lt _ (by omega)
  rw [supgrouplayout_eq NumProc nummicromat hm] at hl
  have hl2 := (Option.some.inj hl).symm
  constructor
  · rw [hl2]
    simp only [List.length_append, List.length_replicate]
    omega
  · rw [hl2]
    exact supgrouplayout_sum NumProc nummicromat hm

/-- C24: in `read_microfields_np_support`, for every number `NumProc` of
supporting ranks and every `nummicromat ≥ 1`, the filling of the remainder
never writes past the end of the layout, and the layout has `nummicromat`
entries that sum to `NumProc`; the first `NumProc mod nummicromat` entries are
`NumProc / nummicromat + 1`, the others `NumProc / nummicromat`, so any two
entries differ by at most one and the larger groups come first. -/
theorem supgrouplayout_balanced (NumProc nummicromat : Nat) (hm : 1 ≤ nummicromat) :
    (∃ layout, supgrouplayout NumProc nummicromat = some layout)
      ∧ ∀ layout, supgrouplayout NumProc nummicromat = some layout →
          layout.length = nummicromat
            ∧ layout.sum = NumProc
            ∧ (∀ k, k < NumProc % nummicromat →
                layout[k]? = some (NumProc / nummicromat + 1))
            ∧ (∀ k, NumProc % nummicromat ≤ k → k < nummicromat →
                layout[k]? = some (NumProc / nummicromat))
            ∧ (∀ a ∈ layout, ∀ b ∈ layout, a ≤ b + 1)
            ∧ (∀ j k a b : Nat, j ≤ k → layout[j]? = some a → layout[k]? = some b → b ≤ a) := by
  have heq := supgrouplayout_eq NumProc nummicromat hm
  have hlt : NumProc % nummicromat < nummicromat := Nat.mod_lt _ (by omega)
  refine ⟨⟨_, heq⟩, fun layout hl => ?_⟩
  rw [heq] at hl
  have hl2 := (Option.some.inj hl).symm
  have hfirst : ∀ k, k < NumProc % nummicromat →
      layout[k]? = some (NumProc / nummicromat + 1) := by
    intro k hk
    rw [hl2, List.getElem?_append_left (by simpa using hk)]
    simp [List.getElem?_replicate, hk]
  have hrest : ∀ k, NumProc % nummicromat ≤ k → k < nummicromat →
      layout[k]? = some (NumProc / nummicromat) := by
    intro k hk1 hk2
    rw [hl2, List.getElem?_append_right (by simpa using hk1)]
    simp only [List.length_replicate, List.getElem?_replicate]
    rw [if_pos (by omega)]
  have hlen : layout.length = nummicromat := by
    rw [hl2]
    simp only [List.length_append, List.length_replicate]
    omega
  have hmem : ∀ a ∈ layout, a = NumProc / nummicromat + 1 ∨ a = NumProc / nummicromat := by
    intro a ha
    rw [hl2, List.mem_append] at ha
    rcases ha with h | h
    · exact Or.inl (List.eq_of_mem_replicate h)
    · exact Or.inr (List.eq_of_mem_replicate h)
  refine ⟨hlen, ?_, hfirst, hrest, ?_, ?_⟩
  · rw [hl2]
    exact supgrouplayout_sum NumProc nummicromat hm
  · intro a ha b hb
    rcases hmem a ha with h1 | h1 <;> rcases hmem b hb with h2 | h2 <;> omega
  · intro j k a b hjk hj hk
    have hklt : k < nummicromat := by
      rw [← hlen]
      exact (List.getElem?_eq_some_iff.1 hk).1
    by_cases hkr : k < NumProc % nummicromat
    · rw [hfirst k hkr] at hk
      rw [hfirst j (by omega)] at hj
      have := Option.some.inj hk
      have := Option.some.inj hj
      omega
    · rw [hrest k (by omega) hklt] at hk
      have := Option.some.inj hk
      have hja : a ∈ layout := by
        obtain ⟨hlt2, hget⟩ := List.getElem?_eq_some_iff.1 hj
        exact hget ▸ List.getElem_mem hlt2
      rcases hmem a hja with h1 | h1 <;> omega

theorem supgrouplayout_balanced_witness :
    supgrouplayout 7 3 = some [3, 2, 2]
      ∧ ([3, 2, 2] : List Nat).length = 3
      ∧ ([3, 2, 2] : List Nat).sum = 7 :=
  ⟨by decide, ((supgrouplayout_balanced 7 3 (by decide)).2 [3, 2, 2] (by decide)).1,
    ((supgrouplayout_balanced 7 3 (by decide)).2 [3, 2, 2] (by decide)).2.1⟩

/-- C25: in `read_microfields_np_support`, for `nummicromat ≥ 1` and a rank
`MyPID < NumProc`, the colour search on the layout ends without reading past
the end of the layout; its result is the one colour c below `nummicromat` with
sum(layout[0..c)) ≤ MyPID < sum(layout[0..c]); exactly layout[c] of the ranks
below `NumProc` get the colour c, and the colour does not decrease with the
rank. With `nummicromat = 0` the division has no defined result, which the
embedding reports as an error. -/
theorem support_color_search (NumProc nummicromat MyPID : Nat) (hm : 1 ≤ nummicromat)
    (hpid : MyPID < NumProc) :
    (∃ layout, supgrouplayout NumProc nummicromat = some layout)
      ∧ (∀ layout, supgrouplayout NumProc nummicromat = some layout →
          (∃ c : Nat, c < nummicromat
              ∧ support_color_loop MyPID layout (-1) 0 = some (c : Int))
            ∧ (∀ k : Nat, support_color_loop MyPID layout (-1) 0 = some (k : Int)
                ↔ ((layout.take k).sum ≤ MyPID ∧ MyPID < (layout.take (k + 1)).sum))
            ∧ (∀ k : Nat, k < nummicromat →
                ((Finset.range NumProc).filter
                    (fun r => support_color_loop r layout (-1) 0 = some (k : Int))).card
                  = layout.getD k 0)
            ∧ (∀ r s c d : Nat, r ≤ s → s < NumProc →
                support_color_loop r layout (-1) 0 = some (c : Int) →
                support_color_loop s layout (-1) 0 = some (d : Int) → c ≤ d))
      ∧ (∀ (inp : SupportInput) (st : MicroState), inp.nummicromat = 0 →
          (read_microfields_np_support inp st).1 = .error "division by zero") := by
  refine ⟨⟨_, supgrouplayout_eq NumProc nummicromat hm⟩, fun layout hl => ?_,
    fun inp st h0 => ?_⟩
  · obtain ⟨hlen, hsum⟩ := supgrouplayout_length_sum NumProc nummicromat hm layout hl
    refine ⟨?_, fun k => support_color_loop_iff layout MyPID k (by omega), fun k hk => ?_,
      fun r s c d hrs hs hc hd => support_color_mono layout r s c d hrs (by omega) hc hd⟩
    · obtain ⟨j, hj, hloop, -⟩ := support_color_loop_spec MyPID layout (-1) 0 (Nat.zero_le _)
        (by omega)
      refine ⟨j, by omega, ?_⟩
      rw [hloop]
      congr 1
      ring
    · rw [← hsum]
      exact support_color_count layout k (by omega)
  · simp [read_microfields_np_support, h0]

theorem support_color_search_witness :
    supgrouplayout 7 3 = some [3, 2, 2]
      ∧ support_color_loop 4 [3, 2, 2] (-1) 0 = some 1
      ∧ ((Finset.range 7).filter
          (fun r => support_color_loop r [3, 2, 2] (-1) 0 = some ((1 : Nat) : Int))).card
        = ([3, 2, 2] : List Nat).getD 1 0 :=
  ⟨by decide,
    (((support_color_search 7 3 4 (by decide) (by decide)).2.1 [3, 2, 2] (by decide)).2.1 1).2
      ⟨by decide, by decide⟩,
    ((support_color_search 7 3 4 (by decide) (by decide)).2.1 [3, 2, 2] (by decide)).2.2.1 1
      (by decide)⟩

/-! ### The micro problems of a group -/

theorem sub_broadcasts_append (a b : List MicroEvent) :
    sub_broadcasts (a ++ b) = sub_broadcasts a ++ sub_broadcasts b := by
  simp [sub_broadcasts, List.filterMap_append]

theorem read_cycles_append (a b : List MicroEvent) :
    read_cycles (a ++ b) = read_cycles a + read_cycles b := by
  simp [read_cycles, List.countP_append]

theorem read_micro_material_cycle (inp : MicroInput) (macro_dis_name : String) (matid : Int)
    (st : MicroState) (hok : (read_micro_material inp macro_dis_name matid st).1 = .ok ()) :
    sub_broadcasts (read_micro_material inp macro_dis_name matid st).2.trace
        = sub_broadcasts st.trace ++ cycle_broadcasts
      ∧ read_cycles (read_micro_material inp macro_dis_name matid st).2.trace
        = read_cycles st.trace + 1 := by
  unfold read_micro_material at hok ⊢
  cases hd : micro_dis_of inp macro_dis_name matid with
  | error msg => rw [hd] at hok; cases hok
  | ok d =>
    obtain ⟨microdisnum, micro_dis_name⟩ := d
    rw [hd] at hok
    simp only at hok ⊢
    by_cases h1 : inp.micro_reader_fails
        (resolve_micro_inputfile_name inp.input_path (inp.micro_input_file_name matid)) = true
    · rw [if_pos h1] at hok; cases hok
    · rw [if_neg h1] at hok ⊢
      by_cases h2 : inp.read_parameter_fails microdisnum = true
      · rw [if_pos h2] at hok; cases hok
      · rw [if_neg h2] at hok ⊢
        by_cases h3 : inp.micro_reading_fails microdisnum = true
        · rw [if_pos h3] at hok; cases hok
        · rw [if_neg h3]
          cases inp.no_nested_parallelism <;>
            simp [MicroState.log, MicroState.set_read_from_problem,
              MicroState.reset_read_from_problem, sub_broadcasts_append, read_cycles_append,
              sub_broadcasts, read_cycles, sub_broadcast_of, cycle_broadcasts]

theorem read_micro_materials_cycles (inp : MicroInput) (macro_dis_name : String)
    (ids materials : List Int) (st : MicroState)
    (hok : (read_micro_materials inp macro_dis_name ids materials st).1 = .ok ()) :
    sub_broadcasts (read_micro_materials inp macro_dis_name ids materials st).2.trace
        = sub_broadcasts st.trace
          ++ (List.replicate (count_micro ids materials) cycle_broadcasts).flatten
      ∧ read_cycles (read_micro_materials inp macro_dis_name ids materials st).2.trace
        = read_cycles st.trace + count_micro ids materials := by
  induction materials generalizing st with
  | nil => simp [read_micro_materials, count_micro]
  | cons matid rest ih =>
    simp only [read_micro_materials] at hok ⊢
    by_cases hmem : matid ∈ ids
    · rw [if_pos hmem] at hok ⊢
      have hcount : count_micro ids (matid :: rest) = count_micro ids rest + 1 := by
        simp [count_micro, hmem]
      cases hm : read_micro_material inp macro_dis_name matid st with
      | mk res st1 =>
        rw [hm] at hok
        cases res with
        | error msg => cases hok
        | ok u =>
          simp only at hok ⊢
          have hc := read_micro_material_cycle inp macro_dis_name matid st (by rw [hm])
          rw [hm] at hc
          obtain ⟨h1, h2⟩ := ih st1 hok
          rw [h1, h2, hc.1, hc.2, hcount, List.replicate_succ, List.flatten_cons,
            List.append_assoc]
          exact ⟨rfl, by omega⟩
    · rw [if_neg hmem] at hok ⊢
      have hcount : count_micro ids (matid :: rest) = count_micro ids rest := by
        simp [count_micro, hmem]
      rw [hcount]
      exact ih st hok

theorem read_micro_support_cycle (inp : SupportInput) (n : Nat) (st : MicroState)
    (hok : (read_micro_support inp n st).1 = .ok ()) :
    sub_broadcasts (read_micro_support inp n st).2.trace
        = sub_broadcasts st.trace ++ cycle_broadcasts
      ∧ read_cycles (read_micro_support inp n st).2.trace = read_cycles st.trace + 1 := by
  unfold read_micro_support at hok ⊢
  simp only at hok ⊢
  by_cases h1 : inp.micro_reader_fails (inp.micro_inputfile_name n) = true
  · rw [if_pos h1] at hok; cases hok
  · rw [if_neg h1] at hok ⊢
    by_cases h2 : inp.read_parameter_fails (inp.microdisnum n) = true
    · rw [if_pos h2] at hok; cases hok
    · rw [if_neg h2] at hok ⊢
      by_cases h3 : inp.micro_reading_fails (inp.microdisnum n) = true
      · rw [if_pos h3] at hok; cases hok
      · rw [if_neg h3]
        simp [MicroState.log, MicroState.set_read_from_problem,
          MicroState.reset_read_from_problem, sub_broadcasts_append, read_cycles_append,
          sub_broadcasts, read_cycles, sub_broadcast_of, cycle_broadcasts]

theorem read_micro_supports_cycles (inp : SupportInput) (count n : Nat) (st : MicroState)
    (hok : (read_micro_supports inp count n st).1 = .ok ()) :
    sub_broadcasts (read_micro_supports inp count n st).2.trace
        = sub_broadcasts st.trace ++ (List.replicate count cycle_broadcasts).flatten
      ∧ read_cycles (read_micro_supports inp count n st).2.trace
        = read_cycles st.trace + count := by
  induction count generalizing n st with
  | zero => simp [read_micro_supports]
  | succ count ih =>
    simp only [read_micro_supports] at hok ⊢
    cases hm : read_micro_support inp n st with
    | mk res st1 =>
      rw [hm] at hok
      cases res with
      | error msg => cases hok
      | ok u =>
        simp only at hok ⊢
        have hc := read_micro_support_cycle inp n st (by rw [hm])
        rw [hm] at hc
        obtain ⟨h1, h2⟩ := ih (n + 1) st1 hok
        rw [h1, h2, hc.1, hc.2, List.replicate_succ, List.flatten_cons, List.append_assoc]
        exact ⟨rfl, by omega⟩

theorem read_micro_problems_microcount (inp : MicroInput) (macro_dis_name : String)
    (ids : List Int) (st : MicroState) (hids : ids ≠ []) :
    MicroEvent.broadcast_microcount (count_micro ids inp.materials)
      ∈ (read_micro_problems inp macro_dis_name ids st).2.trace := by
  have hfound : foundmicromat ids = 1 := by
    unfold foundmicromat
    rw [if_pos (by simpa using hids)]
  obtain ⟨ev, hev⟩ := read_micro_materials_extends inp macro_dis_name ids inp.materials
    (st.log [MicroEvent.set_sub_comm,
      MicroEvent.broadcast_microcount (count_micro ids inp.materials)])
  unfold read_micro_problems
  rw [if_pos hfound]
  simp only
  cases hm : read_micro_materials inp macro_dis_name ids inp.materials
      (st.log [MicroEvent.set_sub_comm,
        MicroEvent.broadcast_microcount (count_micro ids inp.materials)]) with
  | mk res st1 =>
    rw [hm] at hev
    simp only [MicroState.log] at hev
    cases res with
    | error msg => simp [hev]
    | ok u => simp [MicroState.reset_read_from_problem, hev]

theorem read_micro_problems_cycles (inp : MicroInput) (macro_dis_name : String)
    (ids : List Int) (st : MicroState) (hids : ids ≠ [])
    (hok : (read_micro_problems inp macro_dis_name ids st).1 = .ok ()) :
    sub_broadcasts (read_micro_problems inp macro_dis_name ids st).2.trace
        = sub_broadcasts st.trace
          ++ SubBroadcast.microcount
            :: (List.replicate (count_micro ids inp.materials) cycle_broadcasts).flatten
      ∧ read_cycles (read_micro_problems inp macro_dis_name ids st).2.trace
        = read_cycles st.trace + count_micro ids inp.materials := by
  have hfound : foundmicromat ids = 1 := by
    unfold foundmicromat
    rw [if_pos (by simpa using hids)]
  unfold read_micro_problems at hok ⊢
  rw [if_pos hfound] at hok ⊢
  simp only at hok ⊢
  cases hm : read_micro_materials inp macro_dis_name ids inp.materials
      (st.log [MicroEvent.set_sub_comm,
        MicroEvent.broadcast_microcount (count_micro ids inp.materials)]) with
  | mk res st1 =>
    rw [hm] at hok
    cases res with
    | error msg => cases hok
    | ok u =>
      have hc := read_micro_materials_cycles inp macro_dis_name ids inp.materials
        (st.log [MicroEvent.set_sub_comm,
          MicroEvent.broadcast_microcount (count_micro ids inp.materials)]) (by rw [hm])
      rw [hm] at hc
      simp only [MicroState.reset_read_from_problem, sub_broadcasts_append, read_cycles_append,
        hc.1, hc.2, MicroState.log]
      simp [sub_broadcasts, read_cycles, sub_broadcast_of]

theorem read_micro_fields_cycles (inp : MicroInput) (st : MicroState) (macro_dis_name : String)
    (hcheck : micro_check inp.id_struct inp.id_scatra inp.id_elch
      = .ok (.proceeds macro_dis_name))
    (hids : scan_elements inp.id_elch macro_dis_name inp.elements ≠ [])
    (hok : (read_micro_fields inp st).1 = .ok ()) :
    sub_broadcasts (read_micro_fields inp st).2.trace
        = sub_broadcasts st.trace
          ++ SubBroadcast.microcount
            :: (List.replicate
                (count_micro (scan_elements inp.id_elch macro_dis_name inp.elements)
                  inp.materials) cycle_broadcasts).flatten
      ∧ read_cycles (read_micro_fields inp st).2.trace
        = read_cycles st.trace
          + count_micro (scan_elements inp.id_elch macro_dis_name inp.elements)
              inp.materials := by
  unfold read_micro_fields at hok ⊢
  rw [hcheck] at hok ⊢
  simp only at hok ⊢
  by_cases hdis : macro_dis_name ∉ inp.discretizations
  · rw [if_pos hdis] at hok; cases hok
  · rw [if_neg hdis] at hok ⊢
    have h := read_micro_problems_cycles inp macro_dis_name
      (scan_elements inp.id_elch macro_dis_name inp.elements) _ hids hok
    rw [h.1, h.2]
    by_cases hs : macro_dis_name = "structure" <;>
      simp [elect_and_split, MicroState.log, sub_broadcasts, read_cycles, sub_broadcast_of, hs]

theorem read_microfields_np_support_cycles (inp : SupportInput) (st : MicroState)
    (hok : (read_microfields_np_support inp st).1 = .ok ()) :
    sub_broadcasts (read_microfields_np_support inp st).2.trace
        = sub_broadcasts st.trace
          ++ SubBroadcast.microcount
            :: (List.replicate inp.microcount cycle_broadcasts).flatten
      ∧ read_cycles (read_microfields_np_support inp st).2.trace
        = read_cycles st.trace + inp.microcount := by
  unfold read_microfields_np_support at hok ⊢
  simp only at hok ⊢
  by_cases h0 : inp.nummicromat = 0
  · rw [if_pos h0] at hok; cases hok
  · rw [if_neg h0] at hok ⊢
    cases hl : supgrouplayout inp.NumProc inp.nummicromat with
    | none => rw [hl] at hok; cases hok
    | some layout =>
      rw [hl] at hok
      simp only at hok ⊢
      cases hc : support_color_loop inp.MyPID layout (-1) 0 with
      | none => rw [hc] at hok; cases hok
      | some color =>
        rw [hc] at hok
        simp only at hok ⊢
        have h := read_micro_supports_cycles inp inp.microcount 0 _ hok
        rw [h.1, h.2]
        simp [MicroState.log, sub_broadcasts, read_cycles, sub_broadcast_of]

/-- C26: on a rank of `read_micro_fields` that found micro material and returns
normally, the number of micro problems it reads is the value `microcount` it
broadcasts (the number of ids of the material map that are among its
multiscale material ids); a supporting rank of `read_microfields_np_support`
that returns normally reads as many micro problems as the `microcount` it
received. When that is the value sent, both read the same number of micro
problems and issue the same sequence of broadcasts on the sub-communicator:
`microcount`, then for each micro problem the number of the micro
discretization, the length of the file name, the file name and the restart
step. -/
theorem read_micro_fields_broadcasts_match (inp : MicroInput) (sup : SupportInput)
    (macro_dis_name : String)
    (hcheck : micro_check inp.id_struct inp.id_scatra inp.id_elch
      = .ok (.proceeds macro_dis_name))
    (hids : scan_elements inp.id_elch macro_dis_name inp.elements ≠ [])
    (hok : (read_micro_fields inp MicroState.entry).1 = .ok ())
    (hsup : (read_microfields_np_support sup MicroState.entry).1 = .ok ())
    (hcount : sup.microcount
      = count_micro (scan_elements inp.id_elch macro_dis_name inp.elements) inp.materials) :
    MicroEvent.broadcast_microcount
          (count_micro (scan_elements inp.id_elch macro_dis_name inp.elements) inp.materials)
        ∈ (read_micro_fields inp MicroState.entry).2.trace
      ∧ read_cycles (read_micro_fields inp MicroState.entry).2.trace
        = count_micro (scan_elements inp.id_elch macro_dis_name inp.elements) inp.materials
      ∧ count_micro (scan_elements inp.id_elch macro_dis_name inp.elements) inp.materials
        = (inp.materials.filter fun matid =>
            decide (matid ∈ scan_elements inp.id_elch macro_dis_name inp.elements)).length
      ∧ read_cycles (read_microfields_np_support sup MicroState.entry).2.trace
        = sup.microcount
      ∧ sub_broadcasts (read_micro_fields inp MicroState.entry).2.trace
        = SubBroadcast.microcount
          :: (List.replicate
              (count_micro (scan_elements inp.id_elch macro_dis_name inp.elements)
                inp.materials)
              [SubBroadcast.microdisnum, .length, .name, .restart_step]).flatten
      ∧ sub_broadcasts (read_microfields_np_support sup MicroState.entry).2.trace
        = sub_broadcasts (read_micro_fields inp MicroState.entry).2.trace := by
  have hm := read_micro_fields_cycles inp MicroState.entry macro_dis_name hcheck hids hok
  have hs := read_microfields_np_support_cycles sup MicroState.entry hsup
  have hentry1 : sub_broadcasts MicroState.entry.trace = [] := rfl
  have hentry2 : read_cycles MicroState.entry.trace = 0 := rfl
  rw [hentry1, hentry2] at hm hs
  simp only [List.nil_append, Nat.zero_add] at hm hs
  refine ⟨?_, hm.2, rfl, hs.2, hm.1, ?_⟩
  · unfold read_micro_fields at hok ⊢
    rw [hcheck] at hok ⊢
    simp only at hok ⊢
    by_cases hdis : macro_dis_name ∉ inp.discretizations
    · rw [if_pos hdis] at hok; cases hok
    · rw [if_neg hdis]
      exact read_micro_problems_microcount inp macro_dis_name _ _ hids
  · rw [hs.1, hm.1, hcount]

theorem read_micro_fields_broadcasts_match_witness :
    count_micro (scan_elements example_micro_input.id_elch "structure"
        example_micro_input.elements) example_micro_input.materials = 2
      ∧ read_cycles (read_micro_fields example_micro_input MicroState.entry).2.trace = 2
      ∧ sub_broadcasts (read_microfields_np_support
          { example_support_input with microcount := 2 } MicroState.entry).2.trace
        = sub_broadcasts (read_micro_fields example_micro_input MicroState.entry).2.trace :=
  ⟨by decide,
    (read_micro_fields_broadcasts_match example_micro_input
      { example_support_input with microcount := 2 } "structure" (by decide) (by decide)
      (by decide) (by decide) (by decide)).2.1,
    (read_micro_fields_broadcasts_match example_micro_input
      { example_support_input with microcount := 2 } "structure" (by decide) (by decide)
      (by decide) (by decide) (by decide)).2.2.2.2.2⟩

open Core.LinearSolver

/-! ### The reuse of the preconditioner -/

theorem create_of_nonneg (s : IterativeSolver) (reuse : Int) (reset : Bool)
    (h : 0 ≤ s.ncall_) :
    ∃ c, s.create reuse reset = some c
      ∧ (c = false ↔ (reset = false ∧ s.ncall_ ≠ 0 ∧ reuse ≠ 0
          ∧ Int.tmod s.ncall_ reuse ≠ 0)) := by
  unfold IterativeSolver.create
  cases reset with
  | true => exact ⟨true, by simp⟩
  | false =>
    simp only [Bool.false_eq_true, if_false]
    by_cases h1 : s.ncall_ = 0
    · exact ⟨true, by simp [h1]⟩
    · rw [if_neg h1]
      by_cases h2 : reuse = 0
      · exact ⟨true, by simp [h2]⟩
      · rw [if_neg h2]
        have hrem : c_rem s.ncall_ reuse = some (Int.tmod s.ncall_ reuse) := by
          unfold c_rem
          rw [if_neg]
          rintro (h3 | ⟨h3, -⟩)
          · exact h2 h3
          · rw [h3] at h
            exact absurd h (by decide)
        rw [hrem]
        exact ⟨decide (Int.tmod s.ncall_ reuse = 0), rfl, by simp [h1, h2]⟩

theorem lAllowReuse_of_nonneg (s : IterativeSolver) (reuse : Int) (reset : Bool)
    (h : 0 ≤ s.ncall_) :
    ∃ l, s.lAllowReuse reuse reset = some l ∧ (l = 0 ∨ l = 1)
      ∧ (l = 1 ↔ s.wants_reuse reuse reset) := by
  obtain ⟨c, hc, hiff⟩ := create_of_nonneg s reuse reset h
  unfold IterativeSolver.lAllowReuse IterativeSolver.wants_reuse
  rw [hc]
  cases c with
  | true =>
    refine ⟨0, by simp, Or.inl rfl, ?_⟩
    constructor
    · intro h0; exact absurd h0 (by decide)
    · intro hw
      have := hiff.2 hw.2
      cases this
  | false =>
    have hw := hiff.1 rfl
    cases hb : s.reuse_preconditioner.getD true with
    | true => exact ⟨1, by simp [hb], Or.inr rfl, by simp [hw]⟩
    | false =>
      refine ⟨0, by simp [hb], Or.inl rfl, ?_⟩
      constructor
      · intro h0; exact absurd h0 (by decide)
      · intro hw2
        cases hw2.1

theorem local_decisions_of_nonneg (ranks : List (IterativeSolver × Int × Bool))
    (hn : ∀ r ∈ ranks, 0 ≤ r.1.ncall_) :
    ∃ ls, local_decisions ranks = some ls ∧ 0 ≤ ls.sum ∧ ls.sum ≤ (ranks.length : Int)
      ∧ (ls.sum = (ranks.length : Int) ↔ ∀ r ∈ ranks, r.1.wants_reuse r.2.1 r.2.2) := by
  induction ranks with
  | nil => exact ⟨[], rfl, by simp, by simp, by simp⟩
  | cons r rest ih =>
    obtain ⟨ls, hls, h0, h1, hiff⟩ := ih (fun q hq => hn q (List.mem_cons_of_mem _ hq))
    obtain ⟨l, hl, hl01, hliff⟩ := lAllowReuse_of_nonneg r.1 r.2.1 r.2.2
      (hn r (List.mem_cons_self _ _))
    refine ⟨l :: ls, by simp [local_decisions, hl, hls], ?_, ?_, ?_⟩
    · simp only [List.sum_cons]; rcases hl01 with h | h <;> omega
    · simp only [List.sum_cons, List.length_cons]; push_cast; rcases hl01 with h | h <;> omega
    · simp only [List.sum_cons, List.length_cons, List.mem_cons, forall_eq_or_imp]
      push_cast
      constructor
      · intro hsum
        have hl1 : l = 1 := by rcases hl01 with h | h <;> omega
        exact ⟨hliff.1 hl1, hiff.1 (by omega)⟩
      · rintro ⟨hw, hall⟩
        have := hliff.2 hw
        have := hiff.2 hall
        omega

theorem allow_reuse_of_nonneg (ranks : List (IterativeSolver × Int × Bool))
    (hn : ∀ r ∈ ranks, 0 ≤ r.1.ncall_) :
    ∃ allow, allow_reuse_preconditioner ranks = some allow
      ∧ (allow = true ↔ ∀ r ∈ ranks, r.1.wants_reuse r.2.1 r.2.2) := by
  obtain ⟨ls, hls, -, -, hiff⟩ := local_decisions_of_nonneg ranks hn
  refine ⟨decide (ls.sum = (ranks.length : Int)), by simp [allow_reuse_preconditioner, hls], ?_⟩
  rw [decide_eq_true_eq]
  exact hiff

theorem setup_ranks_forall₂ (allow projector : Bool) (rs rs1 : List IterativeSolver)
    (h : setup_ranks allow projector rs = .ok rs1) :
    List.Forall₂ (fun s s1 => s.setup_after allow projector = .ok s1) rs rs1 := by
  induction rs generalizing rs1 with
  | nil =>
    simp only [setup_ranks] at h
    cases Except.ok.inj h
    exact List.Forall₂.nil
  | cons s rest ih =>
    simp only [setup_ranks] at h
    cases hs : s.setup_after allow projector with
    | error e => rw [hs] at h; simp at h
    | ok s1 =>
      cases hr : setup_ranks allow projector rest with
      | error e => rw [hs, hr] at h; simp at h
      | ok rest1 =>
        rw [hs, hr] at h
        cases Except.ok.inj h
        exact List.Forall₂.cons hs (ih rest1 hr)

theorem setup_after_reuse (s s1 : IterativeSolver) (projector : Bool)
    (h : s.setup_after true projector = .ok s1) : s1 = s := by
  unfold IterativeSolver.setup_after at h
  simp only [Bool.not_true, Bool.false_eq_true, if_false] at h
  cases hp : s.preconditioner_ with
  | none => rw [hp] at h; cases h
  | some p => rw [hp] at h; exact (Except.ok.inj h).symm

theorem setup_after_create (s s1 : IterativeSolver) (projector : Bool)
    (h : s.setup_after false projector = .ok s1) :
    ∃ preconditioner, s.create_preconditioner projector = .ok preconditioner
      ∧ s1 = { s with ncall_ := 0, preconditioner_ := some preconditioner,
                      created := s.created + 1 } := by
  unfold IterativeSolver.setup_after at h
  simp only [Bool.not_false, if_true] at h
  have hsame : ({ s with ncall_ := 0 } : IterativeSolver).create_preconditioner projector
      = s.create_preconditioner projector := rfl
  rw [hsame] at h
  cases hc : s.create_preconditioner projector with
  | error e => rw [hc] at h; cases h
  | ok p =>
    rw [hc] at h
    exact ⟨p, rfl, (Except.ok.inj h).symm⟩

/-- C29: with call counters that are not negative, `allow_reuse_preconditioner`
returns true if and only if on every rank the parameter "reuse preconditioner"
is true, `reset` is false, `ncall() != 0`, `reuse != 0` and
`ncall() % reuse != 0`; the remainder is not evaluated when `reuse = 0`, and one
rank that wants to recompute makes the result false on all ranks. A `setup`
that returns has created a new preconditioner and set `ncall_` to 0 on every
rank when the predicate is false, and has left preconditioner and counter as
they were when it is true. -/
theorem allow_reuse_preconditioner_iff (ranks : List (IterativeSolver × Int × Bool))
    (hn : ∀ r ∈ ranks, 0 ≤ r.1.ncall_) :
    (∃ allow, allow_reuse_preconditioner ranks = some allow
        ∧ (allow = true ↔ ∀ r ∈ ranks,
            r.1.reuse_preconditioner.getD true = true ∧ r.2.2 = false ∧ r.1.ncall_ ≠ 0
              ∧ r.2.1 ≠ 0 ∧ Int.tmod r.1.ncall_ r.2.1 ≠ 0))
      ∧ (∀ (s : IterativeSolver) (reset : Bool), s.create 0 reset = some true)
      ∧ (∀ r ∈ ranks, ¬ r.1.wants_reuse r.2.1 r.2.2 →
          allow_reuse_preconditioner ranks = some false)
      ∧ (∀ (rs : List (IterativeSolver × Bool)) (projector : Bool)
          (rs1 : List IterativeSolver),
          (∀ r ∈ rs, 0 ≤ r.1.ncall_) → setup rs projector = .ok rs1 →
          ((∀ r ∈ rs, r.1.wants_reuse (r.1.reuse.getD 0) r.2) → rs1 = rs.map fun r => r.1)
            ∧ (¬ (∀ r ∈ rs, r.1.wants_reuse (r.1.reuse.getD 0) r.2) →
              List.Forall₂
                (fun r s1 => ∃ preconditioner,
                  r.1.create_preconditioner projector = .ok preconditioner
                    ∧ s1 = { r.1 with ncall_ := 0, preconditioner_ := some preconditioner,
                                      created := r.1.created + 1 })
                rs rs1)) := by
  refine ⟨allow_reuse_of_nonneg ranks hn, ?_, ?_, ?_⟩
  · intro s reset
    unfold IterativeSolver.create
    cases reset <;> simp
  · intro r hr hnot
    obtain ⟨allow, hallow, hiff⟩ := allow_reuse_of_nonneg ranks hn
    cases allow with
    | false => exact hallow
    | true => exact absurd (hiff.1 rfl r hr) hnot
  · intro rs projector rs1 hrs hsetup
    unfold setup at hsetup
    split at hsetup
    · cases hsetup
    · obtain ⟨allow, hallow, hiff⟩ := allow_reuse_of_nonneg
        (rs.map fun r => (r.1, r.1.reuse.getD 0, r.2))
        (by
          intro q hq
          obtain ⟨r, hr, rfl⟩ := List.mem_map.1 hq
          exact hrs r hr)
      rw [hallow] at hsetup
      simp only at hsetup
      have hall : (∀ q ∈ rs.map fun r => (r.1, r.1.reuse.getD 0, r.2),
          q.1.wants_reuse q.2.1 q.2.2) ↔ ∀ r ∈ rs, r.1.wants_reuse (r.1.reuse.getD 0) r.2 := by
        constructor
        · intro h r hr
          exact h _ (List.mem_map.2 ⟨r, hr, rfl⟩)
        · intro h q hq
          obtain ⟨r, hr, rfl⟩ := List.mem_map.1 hq
          exact h r hr
      rw [hall] at hiff
      have hf := setup_ranks_forall₂ allow projector _ rs1 hsetup
      constructor
      · intro hw
        have ht : allow = true := hiff.2 hw
        subst ht
        have hf2 : List.Forall₂ (fun s s1 => s1 = s) (rs.map fun r => r.1) rs1 :=
          hf.imp fun s s1 h => setup_after_reuse s s1 projector h
        have hf3 : List.Forall₂ (fun s s1 : IterativeSolver => s = s1) (rs.map fun r => r.1)
            rs1 := hf2.imp fun s s1 h => h.symm
        exact (List.forall₂_eq_eq_eq ▸ hf3 : (rs.map fun r => r.1) = rs1).symm
      · intro hw
        have hf0 : allow = false := by
          cases allow with
          | false => rfl
          | true => exact absurd (hiff.1 rfl) hw
        subst hf0
        rw [List.forall₂_map_left_iff] at hf
        exact hf.imp fun r s1 h => setup_after_create r.1 s1 projector h

theorem allow_reuse_preconditioner_iff_witness :
    allow_reuse_preconditioner [(example_solver, 5, false), (example_solver_due, 5, false)]
        = some false
      ∧ allow_reuse_preconditioner [(example_solver, 5, false), (example_solver, 5, false)]
        = some true :=
  ⟨(allow_reuse_preconditioner_iff [(example_solver, 5, false), (example_solver_due, 5, false)]
      (by decide)).2.2.1 (example_solver_due, 5, false) (by decide)
      (by unfold IterativeSolver.wants_reuse; decide),
    by decide⟩

/-! ### The restart step -/

theorem insert_materials_nodup (ids mmap registry : List Int)
    (h : insert_materials ids mmap = .ok registry) :
    ids.Nodup ∧ ∀ id ∈ ids, id ∉ mmap := by
  induction ids generalizing mmap with
  | nil => exact ⟨List.nodup_nil, fun _ h => by cases h⟩
  | cons id rest ih =>
    simp only [insert_materials] at h
    split at h
    · cases h
    · rename_i hex
      have hnot : id ∉ mmap := by simpa [id_exists] using hex
      obtain ⟨hnd, hdis⟩ := ih _ h
      refine ⟨List.nodup_cons.2 ⟨fun hmem => hdis id hmem (by simp), hnd⟩, ?_⟩
      intro x hx
      rcases List.mem_cons.1 hx with rfl | hx
      · exact hnot
      · exact fun hm => hdis x hx (List.mem_append_left _ hm)

theorem insert_materials_error (ids mmap : List Int) (e : String)
    (h : insert_materials ids mmap = .error e) :
    ∃ id ∈ ids, e = "More than one material with " ++ "\x27MAT " ++ toString id ++ "\x27"
      ∧ (id ∈ mmap ∨ 2 ≤ ids.count id) := by
  induction ids generalizing mmap with
  | nil => simp [insert_materials] at h
  | cons id rest ih =>
    simp only [insert_materials] at h
    split at h
    · rename_i hex
      have hmem : id ∈ mmap := by simpa [id_exists] using hex
      exact ⟨id, List.mem_cons_self _ _, (Except.error.inj h).symm, Or.inl hmem⟩
    · obtain ⟨x, hx, hmsg, hdup⟩ := ih _ h
      refine ⟨x, List.mem_cons_of_mem _ hx, hmsg, ?_⟩
      rcases hdup with hm | hc
      · rcases List.mem_append.1 hm with hm | hm
        · exact Or.inl hm
        · have hxid : x = id := by simpa using hm
          subst hxid
          right
          have := List.count_pos_iff.2 hx
          simp only [List.count_cons_self]
          omega
      · right
        have := List.count_le_count_cons (a := x) (b := id) (l := rest)
        omega

theorem insert_all_materials_nodup (matlist : List MaterialDefinition)
    (mmap registry : List Int) (h : insert_all_materials matlist mmap = .ok registry) :
    (matlist.map fun mat => mat.read).flatten.Nodup
      ∧ ∀ id ∈ (matlist.map fun mat => mat.read).flatten, id ∉ mmap := by
  induction matlist generalizing mmap with
  | nil => simp
  | cons mat rest ih =>
    simp only [insert_all_materials] at h
    cases hmat : insert_materials mat.read mmap with
    | error e => rw [hmat] at h; cases h
    | ok m =>
      rw [hmat] at h
      obtain ⟨hnd1, hdis1⟩ := insert_materials_nodup _ _ _ hmat
      obtain ⟨hnd2, hdis2⟩ := ih _ h
      have hm := insert_materials_ok _ _ _ hmat
      subst hm
      simp only [List.map_cons, List.flatten_cons]
      refine ⟨List.nodup_append.2 ⟨hnd1, hnd2, ?_⟩, ?_⟩
      · intro x hx1 hx2
        exact hdis2 x hx2 (List.mem_append_right _ hx1)
      · intro x hx
        rcases List.mem_append.1 hx with hx | hx
        · exact hdis1 x hx
        · exact fun hm => hdis2 x hx (List.mem_append_left _ hm)

theorem insert_all_materials_error (matlist : List MaterialDefinition) (mmap : List Int)
    (e : String) (h : insert_all_materials matlist mmap = .error e) :
    ∃ id ∈ (matlist.map fun mat => mat.read).flatten,
      e = "More than one material with " ++ "\x27MAT " ++ toString id ++ "\x27"
        ∧ (id ∈ mmap ∨ 2 ≤ (matlist.map fun mat => mat.read).flatten.count id) := by
  induction matlist generalizing mmap with
  | nil => simp [insert_all_materials] at h
  | cons mat rest ih =>
    simp only [insert_all_materials] at h
    simp only [List.map_cons, List.flatten_cons]
    cases hmat : insert_materials mat.read mmap with
    | error e1 =>
      rw [hmat] at h
      cases Except.error.inj h
      obtain ⟨x, hx, hmsg, hdup⟩ := insert_materials_error _ _ _ hmat
      refine ⟨x, List.mem_append_left _ hx, hmsg, ?_⟩
      rcases hdup with hm | hc
      · exact Or.inl hm
      · right
        rw [List.count_append]
        omega
    | ok m =>
      rw [hmat] at h
      have hm := insert_materials_ok _ _ _ hmat
      subst hm
      obtain ⟨x, hx, hmsg, hdup⟩ := ih _ h
      refine ⟨x, List.mem_append_right _ hx, hmsg, ?_⟩
      rcases hdup with hm | hc
      · rcases List.mem_append.1 hm with hm | hm
        · exact Or.inl hm
        · right
          rw [List.count_append]
          have h1 := List.count_pos_iff.2 hm
          have h2 := List.count_pos_iff.2 hx
          omega
      · right
        rw [List.count_append]
        omega

theorem construct_materials_forced (construction_error : Int → Option String)
    (ids : List Int) (h : construct_materials construction_error ids = .ok ()) :
    forced_materials construction_error ids = ids
      ∧ ∀ id ∈ ids, construction_error id = none := by
  induction ids with
  | nil => simp [forced_materials]
  | cons id rest ih =>
    simp only [construct_materials] at h
    cases hc : construction_error id with
    | some e => rw [hc] at h; cases h
    | none =>
      rw [hc] at h
      obtain ⟨h1, h2⟩ := ih h
      refine ⟨by simp [forced_materials, hc, h1], ?_⟩
      intro x hx
      rcases List.mem_cons.1 hx with rfl | hx
      · exact hc
      · exact h2 x hx

theorem read_materials_insert_error (strip : Str → Str) (fs : FileSystem)
    (reader : DatFileReader) (matlist : List MaterialDefinition)
    (construction_error : Int → Option String) (mmap : List Int) (e : String)
    (h : insert_all_materials matlist mmap = .error e) :
    read_materials strip fs reader matlist construction_error mmap = .error e := by
  unfold read_materials
  rw [h]

theorem read_materials_constructed (strip : Str → Str) (fs : FileSystem)
    (reader : DatFileReader) (matlist : List MaterialDefinition)
    (construction_error : Int → Option String) (mmap registry : List Int)
    (h : read_materials strip fs reader matlist construction_error mmap = .ok registry) :
    construct_materials construction_error (registry.insertionSort fun a b => a ≤ b)
      = .ok () := by
  unfold read_materials at h
  cases hins : insert_all_materials matlist mmap with
  | error e => rw [hins] at h; cases h
  | ok m =>
    rw [hins] at h
    simp only at h
    cases hcon : construct_materials construction_error (m.insertionSort fun a b => a ≤ b) with
    | error e => rw [hcon] at h; cases h
    | ok u =>
      rw [hcon] at h
      simp only at h
      cases hchk : check_material_lines m (reader.lines_in_section strip fs "--MATERIALS").1 with
      | error e => rw [hchk] at h; cases h
      | ok u2 =>
        rw [hchk] at h
        cases Except.ok.inj h
        exact hcon

/-- C28: `read_materials` aborts with "More than one material with 'MAT id'"
whenever an id read from the input is already in the material registry, be it
present on entry or read before, from a definition of the same or of another
material type; the id named is one that was present when it was to be
inserted. When `read_materials` returns, the registry is the registry on entry
followed by the ids read, one entry each, no id twice, and the construction of
every material of the registry has been forced without a throw. -/
theorem read_materials_unique_ids (strip : Str → Str) (fs : FileSystem)
    (reader : DatFileReader) (matlist : List MaterialDefinition)
    (construction_error : Int → Option String) (mmap : List Int) :
    (((∃ id ∈ (matlist.map fun mat => mat.read).flatten, id ∈ mmap)
          ∨ ¬ (matlist.map fun mat => mat.read).flatten.Nodup) →
        ∃ id ∈ (matlist.map fun mat => mat.read).flatten,
          read_materials strip fs reader matlist construction_error mmap
              = .error ("More than one material with " ++ "\x27MAT " ++ toString id ++ "\x27")
            ∧ (id ∈ mmap ∨ 2 ≤ (matlist.map fun mat => mat.read).flatten.count id))
      ∧ (∀ registry,
          read_materials strip fs reader matlist construction_error mmap = .ok registry →
          registry = mmap ++ (matlist.map fun mat => mat.read).flatten
            ∧ registry.length = mmap.length + (matlist.map fun mat => mat.read).flatten.length
            ∧ (matlist.map fun mat => mat.read).flatten.Nodup
            ∧ (∀ id ∈ (matlist.map fun mat => mat.read).flatten, id ∉ mmap)
            ∧ (mmap.Nodup → registry.Nodup)
            ∧ forced_materials construction_error (registry.insertionSort (fun a b => a ≤ b))
                = registry.insertionSort (fun a b => a ≤ b)
            ∧ (∀ id ∈ registry,
                id ∈ forced_materials construction_error
                    (registry.insertionSort (fun a b => a ≤ b))
                  ∧ construction_error id = none)) := by
  constructor
  · intro hdup
    rcases except_ok_or_error (insert_all_materials matlist mmap) with ⟨m, hm⟩ | ⟨e, he⟩
    · exfalso
      obtain ⟨hnd, hdis⟩ := insert_all_materials_nodup matlist mmap m hm
      rcases hdup with ⟨id, hid, hmem⟩ | hnot
      · exact hdis id hid hmem
      · exact hnot hnd
    · obtain ⟨id, hid, hmsg, hwhy⟩ := insert_all_materials_error matlist mmap e he
      refine ⟨id, hid, ?_, hwhy⟩
      rw [read_materials_insert_error strip fs reader matlist construction_error mmap e he,
        hmsg]
  · intro registry h
    obtain ⟨hins, -⟩ := read_materials_ok strip fs reader matlist construction_error mmap
      registry h
    have hreg := insert_all_materials_ok matlist mmap registry hins
    obtain ⟨hnd, hdis⟩ := insert_all_materials_nodup matlist mmap registry hins
    obtain ⟨hforced, hnone⟩ := construct_materials_forced construction_error _
      (read_materials_constructed strip fs reader matlist construction_error mmap registry h)
    refine ⟨hreg, by rw [hreg, List.length_append], hnd, hdis, ?_, hforced, ?_⟩
    · intro hm
      rw [hreg]
      exact List.nodup_append.2 ⟨hm, hnd, fun x hx1 hx2 => hdis x hx2 hx1⟩
    · intro id hid
      have hmem : id ∈ registry.insertionSort (fun a b => a ≤ b) :=
        (List.perm_insertionSort _ registry).mem_iff.2 hid
      exact ⟨hforced.symm ▸ hmem, hnone id hmem⟩

theorem read_materials_unique_ids_witness :
    read_materials strip_comment (fun _ => none) reader_with_materials
        [⟨"MAT_ElastHyper", [1, 2]⟩, ⟨"ELAST_CoupNeoHooke", [2]⟩] (fun _ => none) []
        = .error "More than one material with \x27MAT 2\x27"
      ∧ read_materials strip_comment (fun _ => none) reader_with_materials example_matlist
          (fun _ => none) [] = .ok [1, 2]
      ∧ forced_materials (fun _ => none)
          (([1, 2] : List Int).insertionSort (fun a b => a ≤ b))
          = ([1, 2] : List Int).insertionSort (fun a b => a ≤ b) :=
  ⟨by decide,
    by decide,
    ((read_materials_unique_ids strip_comment (fun _ => none) reader_with_materials
      example_matlist (fun _ => none) []).2 [1, 2] (by decide)).2.2.2.2.2.1⟩

open Core.Communication Discret.Elements

/-! ### Packing and unpacking an element -/

theorem extract_vector_size_marker (object rest : PackBuffer) :
    extract_vector (size_marker object ++ rest) = some (object, rest) := by
  simp [size_marker, extract_vector]

theorem extract_bool_flag (flag : Bool) (rest : PackBuffer) :
    extract_bool ((if flag then 1 else 0) :: rest) = some (flag, rest) := by
  cases flag <;> simp [extract_bool, extract_int]

/-- C30: for every `SolidPoroPressureBased` element e, provided the functions
that `pack` and `unpack` call read back what their counterparts wrote for e
(base class data, solid element properties, data of the two calculation
variants created for the cell type and properties of e): the buffer written by
`pack(e)` is the object data preceded by its size, and `unpack` of the object
data into another element reads the type id, the base class data, the cell
type, the solid element properties, the implementation type, the flag
`material_post_setup_` and the data of the two calculation variants in the
order in which they were written, raises neither "wrong instance type data"
nor "Buffer not fully consumed.", and yields the data of e. -/
theorem unpack_pack {Element Properties SolidCalc PoroCalc : Type}
    (f : PackFunctions Element Properties SolidCalc PoroCalc)
    (e fresh : SolidPoroPressureBased Element Properties SolidCalc PoroCalc)
    (hbase : ∃ basedata,
      (∀ rest, extract_vector (f.element_pack e.element ++ rest) = some (basedata, rest))
        ∧ f.element_unpack fresh.element basedata = .ok e.element)
    (hprops : ∀ rest,
      f.extract_properties (f.add_to_pack_properties e.solid_ele_property_ ++ rest)
        = some (e.solid_ele_property_, rest))
    (hsolid : ∃ created,
      f.create_solid_calculation_interface e.celltype_ e.solid_ele_property_ = .ok created
        ∧ ∀ rest, f.unpack_solid created (f.pack_solid e.solid_calc_variant_ ++ rest)
            = some (e.solid_calc_variant_, rest))
    (hporo : ∃ created,
      f.create_solid_poro_pressure_based_calculation_interface e.celltype_ = .ok created
        ∧ ∀ rest, f.unpack_poro created (f.pack_poro e.solidporo_press_based_calc_variant_ ++ rest)
            = some (e.solidporo_press_based_calc_variant_, rest)) :
    extract_vector (pack f e) = some (object_data f e, [])
      ∧ object_data f e
        = [f.unique_par_object_id] ++ f.element_pack e.element ++ [e.celltype_]
          ++ f.add_to_pack_properties e.solid_ele_property_ ++ [e.impltype]
          ++ [if e.material_post_setup_ then 1 else 0]
          ++ f.pack_solid e.solid_calc_variant_
          ++ f.pack_poro e.solidporo_press_based_calc_variant_
      ∧ unpack f fresh (object_data f e) = .ok e
      ∧ (∀ unpacked, unpack f fresh (object_data f e) = .ok unpacked →
          unpacked.celltype_ = e.celltype_
            ∧ unpacked.solid_ele_property_ = e.solid_ele_property_
            ∧ unpacked.impltype = e.impltype
            ∧ unpacked.material_post_setup_ = e.material_post_setup_)
      ∧ unpack f fresh (object_data f e) ≠ .error "wrong instance type data"
      ∧ unpack f fresh (object_data f e) ≠ .error "Buffer not fully consumed." := by
  obtain ⟨basedata, hvec, hunpack⟩ := hbase
  obtain ⟨solid0, hcs, hus⟩ := hsolid
  obtain ⟨poro0, hcp, hup⟩ := hporo
  have hframe : extract_vector (pack f e) = some (object_data f e, []) := by
    have := extract_vector_size_marker (object_data f e) []
    simpa [pack] using this
  have hmain : unpack f fresh (object_data f e) = .ok e := by
    have hup0 := hup []
    simp only [List.append_nil] at hup0
    unfold unpack object_data
    simp only [List.append_assoc, List.singleton_append, List.cons_append, List.nil_append,
      extract_int, ne_eq, not_true_eq_false, if_false, hvec, hunpack, hprops,
      extract_bool_flag, hcs, hcp, hus, hup0, if_true]
  refine ⟨hframe, rfl, hmain, fun unpacked h => ?_, ?_, ?_⟩
  · rw [hmain] at h
    cases Except.ok.inj h
    exact ⟨rfl, rfl, rfl, rfl⟩
  · rw [hmain]; exact fun h => by cases h
  · rw [hmain]; exact fun h => by cases h

theorem unpack_pack_witness :
    pack example_functions example_element = [9, 42, 2, 7, 0, 12, 1, 3, 1, 5]
      ∧ extract_vector (pack example_functions example_element)
        = some ([42, 2, 7, 0, 12, 1, 3, 1, 5], [])
      ∧ unpack example_functions example_fresh_element [42, 2, 7, 0, 12, 1, 3, 1, 5]
        = .ok example_element :=
  ⟨by decide,
    (unpack_pack example_functions example_element example_fresh_element
      ⟨[7, 0], fun rest => extract_vector_size_marker [7, 0] rest, rfl⟩
      (fun _ => rfl) ⟨0, rfl, fun _ => rfl⟩ ⟨(), rfl, fun _ => rfl⟩).1,
    (unpack_pack example_functions example_element example_fresh_element
      ⟨[7, 0], fun rest => extract_vector_size_marker [7, 0] rest, rfl⟩
      (fun _ => rfl) ⟨0, rfl, fun _ => rfl⟩ ⟨(), rfl, fun _ => rfl⟩).2.2.1⟩

end FourC
